import Mathlib

/-!
Verification development for the llama-stylist scene-document pipeline.

The Python sources under services/llama-stylist are shallowly embedded here:
JSON-like documents become the inductive type JVal, Python dicts become
insertion-ordered association lists (Doc), and every Python operation that can
raise (attribute access on a non-dict, list append on a non-list, arithmetic
on a non-number, iteration of a non-iterable, item assignment on a non-dict)
is modelled in the Except String monad.  Time (time.time / strftime) and the
generation backend (LlamaClient.generate) are passed in as explicit
parameters, since both are external inputs to the pure document transforms.
-/

/-- JSON-like values, mirroring what json.loads can produce and what the
service passes around.  Numbers are modelled as exact rationals. -/
inductive JVal where
  | null : JVal
  | bool (b : Bool) : JVal
  | num (q : ℚ) : JVal
  | str (s : String) : JVal
  | arr (xs : List JVal) : JVal
  | obj (fs : List (String × JVal)) : JVal
deriving Repr

/-- A Python dict with string keys, in insertion order (unique keys). -/
abbrev Doc := List (String × JVal)

/-- Dict lookup (first matching key). -/
def lookupF : Doc → String → Option JVal
  | [], _ => none
  | (k, v) :: rest, key => if k = key then some v else lookupF rest key

/-- Python `d[k] = v`: replace in place if the key exists, else append. -/
def dset : Doc → String → JVal → Doc
  | [], key, v => [(key, v)]
  | (k, w) :: rest, key, v =>
      if k = key then (k, v) :: rest else (k, w) :: dset rest key v

/-- Python `k in d`. -/
def memberF (d : Doc) (k : String) : Bool := (lookupF d k).isSome

/-- Python `d.get(k, dflt)`. -/
def getD (d : Doc) (k : String) (dflt : JVal) : JVal := (lookupF d k).getD dflt

/-- Python `d.setdefault(k, v)` (effect on the dict). -/
def setdefaultD (d : Doc) (k : String) (v : JVal) : Doc :=
  if memberF d k then d else d ++ [(k, v)]

/-- Python truthiness of a JSON value. -/
def truthy : JVal → Bool
  | .null => false
  | .bool b => b
  | .num q => decide (q ≠ 0)
  | .str s => !s.isEmpty
  | .arr xs => !xs.isEmpty
  | .obj fs => !fs.isEmpty

/-- Coerce to a number the way Python arithmetic does (bool is an int;
anything else raises TypeError when multiplied/added with a float). -/
def pyToNum : JVal → Except String ℚ
  | .num q => .ok q
  | .bool b => .ok (if b then 1 else 0)
  | _ => .error "TypeError: unsupported operand type"

def singletonStr (c : Char) : String := String.mk [c]

/-- Python `for x in v`: lists yield elements, strings yield 1-character
strings, dicts yield their keys, anything else raises TypeError. -/
def pyIter : JVal → Except String (List JVal)
  | .arr xs => .ok xs
  | .str s => .ok (s.toList.map (fun c => JVal.str (singletonStr c)))
  | .obj fs => .ok (fs.map (fun kv => JVal.str kv.1))
  | _ => .error "TypeError: object is not iterable"

/-- Python `v.get(k, dflt)` on an arbitrary value: only dicts have .get. -/
def pyDictGet (v : JVal) (k : String) (dflt : JVal) : Except String JVal :=
  match v with
  | .obj fs => .ok (getD fs k dflt)
  | _ => .error "AttributeError: no attribute get"

/-- Python `v[k]` for a string key on an arbitrary value. -/
def pySubscriptStr (v : JVal) (k : String) : Except String JVal :=
  match v with
  | .obj fs =>
      (match lookupF fs k with
       | some w => .ok w
       | none => .error ("KeyError: " ++ k))
  | _ => .error "TypeError: not subscriptable by string"

/-- Python `d[k].append(x)` where the key must already exist and hold a list. -/
def appendAtKey (d : Doc) (k : String) (x : JVal) : Except String Doc :=
  match lookupF d k with
  | some (.arr xs) => .ok (dset d k (.arr (xs ++ [x])))
  | some _ => .error "AttributeError: no attribute append"
  | none => .error ("KeyError: " ++ k)

/-- Python `d.setdefault(k, []).append(x)`. -/
def setdefaultAppend (d : Doc) (k : String) (x : JVal) : Except String Doc :=
  match lookupF d k with
  | some (.arr xs) => .ok (dset d k (.arr (xs ++ [x])))
  | some _ => .error "AttributeError: no attribute append"
  | none => .ok (d ++ [(k, .arr [x])])

/-- Is the first list a prefix of the second (by character equality)? -/
def prefB : List Char → List Char → Bool
  | [], _ => true
  | _ :: _, [] => false
  | a :: as, b :: bs => a = b && prefB as bs

/-- Helper for substring search. -/
def subAux (n : List Char) : List Char → Bool
  | [] => n.isEmpty
  | c :: t => prefB n (c :: t) || subAux n t

/-- Python `needle in hay` on strings (substring containment). -/
def substrB (needle hay : String) : Bool := subAux needle.toList hay.toList

/-- Python `s.lower()` (ASCII lowering, which is all the service uses). -/
def pyLower (s : String) : String := String.mk (s.toList.map Char.toLower)

/-! ## utils/validators.py -/

def ENUM_STYLES : List String :=
  ["ethereal", "cyberpunk", "surreal", "fantasy", "nightmare"]

/-- Python `v in ["ethereal", ...]` for an arbitrary value: only equal
strings compare equal to the enum entries. -/
def isEnumStyle : JVal → Bool
  | .str s => ENUM_STYLES.contains s
  | _ => false

/-- Approximate Python str() used only inside error-message strings
(message text never drives control flow in the service). -/
def pyStrOf : JVal → String
  | .null => "None"
  | .bool b => if b then "True" else "False"
  | .num q => toString q
  | .str s => s
  | .arr _ => "[...]"
  | .obj _ => "\x7b...\x7d"

def REQUIRED_FIELDS : List String := ["id", "title", "style"]

/-- validators.validate_dream: minimal structural checks, pure, total. -/
def validate_dream : JVal → Bool × List String
  | .obj d =>
    let errs1 := REQUIRED_FIELDS.foldl
      (fun acc f => if memberF d f then acc else acc ++ ["missing_required:" ++ f]) []
    let errs2 :=
      if memberF d "style" then
        (if isEnumStyle (getD d "style" .null) then errs1
         else errs1 ++ ["invalid_style:" ++ pyStrOf (getD d "style" .null)])
      else errs1
    let errs3 :=
      if memberF d "cinematography" then
        (match getD d "cinematography" .null with
         | .obj c =>
            if !(memberF c "durationSec") || !(memberF c "shots") then
              errs2 ++ ["cinematography_missing_duration_or_shots"]
            else
              (match getD c "shots" .null with
               | .arr (_ :: _) => errs2
               | _ => errs2 ++ ["cinematography_shots_invalid"])
         | _ => errs2 ++ ["cinematography_not_object"])
      else errs2
    (errs3.isEmpty, errs3)
  | _ => (false, ["dream must be an object"])

/-- `x if isinstance(x, list) else []`. -/
def coerceArr : JVal → JVal
  | .arr xs => .arr xs
  | _ => .arr []

def shotObj (target : JVal) (dur : JVal) : JVal :=
  .obj [("type", .str "establish"), ("target", target), ("duration", dur)]

/-- `repaired["structures"][0]["id"] if repaired.get("structures") else "s1"`,
used after structures has been coerced to a list. -/
def targetOf (r : Doc) : Except String JVal :=
  match getD r "structures" .null with
  | .arr (h :: _) => pySubscriptStr h "id"
  | _ => .ok (.str "s1")

/-- One step of the duration sum: `acc + s.get("duration", 0)`. -/
def durStep (acc : ℚ) (s : JVal) : Except String ℚ := do
  let dv ← pyDictGet s "duration" (.num 0)
  let q ← pyToNum dv
  Except.ok (acc + q)

/-- `sum([s.get("duration", 0) for s in shots])`. -/
def sumDurations (v : JVal) : Except String ℚ := do
  let elems ← pyIter v
  elems.foldlM durStep (0 : ℚ)

/-- The cinematography block of repair_dream. -/
def cinRepair (r : Doc) : Except String Doc :=
  match getD r "cinematography" .null with
  | .obj c => do
      let c1 ←
        if memberF c "durationSec" then Except.ok c
        else do
          let dsum ← sumDurations (getD c "shots" (.arr []))
          Except.ok (dset c "durationSec" (.num (if dsum = 0 then 30 else dsum)))
      let c2 ←
        (match lookupF c1 "shots" with
         | some (.arr (_ :: _)) => Except.ok c1
         | _ => do
             let tgt ← targetOf r
             Except.ok (dset c1 "shots"
               (.arr [shotObj tgt (getD c1 "durationSec" (.num 30))])))
      Except.ok (dset r "cinematography" (.obj c2))
  | _ => do
      let tgt ← targetOf r
      Except.ok (dset r "cinematography"
        (.obj [("durationSec", .num 30), ("shots", .arr [shotObj tgt (.num 30)])]))

/-- validators.repair_dream.  `now` is int(time.time()). -/
def repair_dream (dream : Doc) (now : ℕ) : Except String Doc := do
  let r := dream                                   -- repaired = copy.deepcopy(dream)
  let r := dset r "id" (getD r "id" (.str ("repaired_" ++ toString now)))
  let r := dset r "title" (getD r "title" (.str "Repaired Dream"))
  let r := if isEnumStyle (getD r "style" .null) then r
           else dset r "style" (.str "ethereal")
  let r := dset r "structures" (coerceArr (getD r "structures" (.arr [])))
  let r := dset r "entities" (coerceArr (getD r "entities" (.arr [])))
  let r ← cinRepair r
  let r ← setdefaultAppend r "assumptions" (.str "auto_repaired_missing_fields")
  Except.ok r

/-! ## utils/validators.py — safe_patch -/

def colorTable : List (String × String) :=
  [("red", "#ff0000"), ("blue", "#0000ff"), ("green", "#00ff00"),
   ("yellow", "#ffff00"), ("purple", "#800080"), ("pink", "#ff69b4"),
   ("orange", "#ffa500"), ("white", "#ffffff"), ("black", "#000000"),
   ("gold", "#ffd700"), ("cyan", "#00ffff")]

/-- `p = e.setdefault("params", {})`: returns the entity's fields and the
params dict the following item assignments target; raises if the entity is
not a dict or params exists but is not a dict (the later `p[...] = v` /
`p.get(...)` would raise there). -/
def entityParams (e : JVal) : Except String (Doc × Doc) :=
  match e with
  | .obj fs =>
      (match lookupF fs "params" with
       | some (.obj ps) => .ok (fs, ps)
       | some _ => .error "TypeError: params is not a dict"
       | none => .ok (fs, []))
  | _ => .error "AttributeError: no attribute setdefault"

/-- `e.setdefault("params", {})["color"] = v`. -/
def setEntityColor (v : String) (e : JVal) : Except String JVal := do
  let (fs, ps) ← entityParams e
  Except.ok (.obj (dset fs "params" (.obj (dset ps "color" (.str v)))))

/-- `p["speed"] = min(10, p.get("speed", 1.0) * 1.5)`. -/
def boostEntity (e : JVal) : Except String JVal := do
  let (fs, ps) ← entityParams e
  let q ← pyToNum (getD ps "speed" (.num 1))
  Except.ok (.obj (dset fs "params" (.obj (dset ps "speed" (.num (min 10 (q * (3/2))))))))

/-- `p["speed"] = max(0.01, p.get("speed", 1.0) * 0.7)` (stub only). -/
def slowEntity (e : JVal) : Except String JVal := do
  let (fs, ps) ← entityParams e
  let q ← pyToNum (getD ps "speed" (.num 1))
  Except.ok (.obj (dset fs "params" (.obj (dset ps "speed" (.num (max (1/100) (q * (7/10))))))))

/-- `for e in d.get("entities", []): e := f e` with the mutated elements
written back into the list the dict holds.  A present non-list value is
iterated (strings/dicts iterate; other scalars raise), and since iterating
those yields immutable keys/characters, the document itself is unchanged
when the loop body does not raise. -/
def mapME (f : JVal → Except String JVal) : List JVal → Except String (List JVal)
  | [] => .ok []
  | x :: xs => do
      let y ← f x
      let ys ← mapME f xs
      Except.ok (y :: ys)

def updateEntities (f : JVal → Except String JVal) (d : Doc) : Except String Doc :=
  match lookupF d "entities" with
  | some (.arr es) => do
      let es2 ← mapME f es
      Except.ok (dset d "entities" (.arr es2))
  | some other => do
      let elems ← pyIter other
      let _ ← mapME f elems
      Except.ok d
  | none => Except.ok d

/-- `if patched.get("environment"): patched.setdefault("environment", {})["skyColor"] = v`. -/
def updateSky (d : Doc) (v : String) : Except String Doc :=
  if truthy (getD d "environment" .null) then
    match lookupF d "environment" with
    | some (.obj ps) => Except.ok (dset d "environment" (.obj (dset ps "skyColor" (.str v))))
    | _ => Except.error "TypeError: item assignment on non-dict environment"
  else Except.ok d

/-- One iteration of the color-keyword loop shared (up to the applied-list
label) by safe_patch and the stub: if the keyword occurs in the lowered edit
text, recolor every entity and the sky and record the label. -/
def colorStepG (label : String → String) (edit : String)
    (st : Doc × List String) (kv : String × String) :
    Except String (Doc × List String) :=
  if substrB kv.1 edit then do
    let d1 ← updateEntities (setEntityColor kv.2) st.1
    let d2 ← updateSky d1 kv.2
    Except.ok (d2, st.2 ++ [label kv.1])
  else Except.ok st

def safeColorLabel (k : String) : String := "color:" ++ k
def stubColorLabel (k : String) : String := "color -> " ++ k

def islandCond (edit : String) : Bool :=
  substrB "add island" edit || (substrB "add" edit && substrB "island" edit)
def towerCond (edit : String) : Bool :=
  substrB "add tower" edit || (substrB "add" edit && substrB "tower" edit)
def fasterCond (edit : String) : Bool :=
  substrB "faster" edit || substrB "speed up" edit || substrB "quick" edit
def slowerCond (edit : String) : Bool :=
  substrB "slower" edit || substrB "calm" edit || substrB "gentle" edit

def islandObjSafe (now : ℕ) : JVal :=
  .obj [("id", .str ("added_island_" ++ toString now)),
        ("template", .str "floating_island"),
        ("pos", .arr [.num 0, .num 15, .num 0]),
        ("scale", .num (4/5)), ("features", .arr [])]

/-- safe_patch up to (and including) the speed rule, returning the working
document and the `applied` list. -/
def safe_patch_core (base : Doc) (edit_text : String) (now : ℕ) :
    Except String (Doc × List String) := do
  let patched := base                                  -- copy.deepcopy(base)
  let patched := setdefaultD patched "assumptions" (.arr [])
  let edit := pyLower edit_text
  let st ← colorTable.foldlM (colorStepG safeColorLabel edit) (patched, ([] : List String))
  let (patched, applied) := st
  let (patched, applied) ←
    if islandCond edit then do
      let p2 ← setdefaultAppend patched "structures" (islandObjSafe now)
      Except.ok (p2, applied ++ ["added_island"])
    else Except.ok (patched, applied)
  let (patched, applied) ←
    if fasterCond edit then do
      let p2 ← updateEntities boostEntity patched
      Except.ok (p2, applied ++ ["increased_speed"])
    else Except.ok (patched, applied)
  Except.ok (patched, applied)
  -- NOTE: the source has no branch for "slower"/"calm"/"gentle" here.

def historyObj (edit_text ts source : String) : JVal :=
  .obj [("editText", .str edit_text), ("appliedAt", .str ts), ("source", .str source)]

/-- validators.safe_patch.  `now` is int(time.time()), `ts` the strftime
timestamp used in the patchHistory entry. -/
def safe_patch (base : Doc) (edit_text : String) (now : ℕ) (ts : String) :
    Except String Doc := do
  let (patched, applied) ← safe_patch_core base edit_text now
  let entry :=
    if applied.isEmpty then "Requested edit recorded: \"" ++ edit_text ++ "\""
    else "safe_patch_applied:" ++ String.intercalate "," applied
  let patched ← appendAtKey patched "assumptions" (.str entry)
  let patched ← setdefaultAppend patched "patchHistory" (historyObj edit_text ts "safe_patch")
  Except.ok patched

/-! ## utils/style_mapper.py -/

structure StyleCfg where
  preset : String
  fog : ℚ
  skyColor : String
  ambientLight : ℚ
  defSpeed : ℚ
  defGlow : ℚ
  defColor : String

def etherealCfg : StyleCfg := ⟨"dusk", 2/5, "#a6d8ff", 9/10, 1, 7/10, "#ffffff"⟩
def cyberpunkCfg : StyleCfg := ⟨"night", 1/5, "#001133", 2/5, 2, 1, "#00ffff"⟩
def surrealCfg : StyleCfg := ⟨"void", 3/5, "#2d1a4a", 3/5, 3/2, 9/10, "#ff0080"⟩
def fantasyCfg : StyleCfg := ⟨"dawn", 3/10, "#ffb347", 11/10, 4/5, 3/5, "#ffd700"⟩
def nightmareCfg : StyleCfg := ⟨"night", 7/10, "#1a0d1a", 1/5, 3/5, 3/10, "#800020"⟩

/-- STYLE_CONFIGS.get(style.lower(), STYLE_CONFIGS["ethereal"]). -/
def get_style_config (style : String) : StyleCfg :=
  let s := pyLower style
  if s = "ethereal" then etherealCfg
  else if s = "cyberpunk" then cyberpunkCfg
  else if s = "surreal" then surrealCfg
  else if s = "fantasy" then fantasyCfg
  else if s = "nightmare" then nightmareCfg
  else etherealCfg

/-- `out["environment"].update(cfg["environment"])` on the environment dict. -/
def envUpdate (ps : Doc) (cfg : StyleCfg) : Doc :=
  dset (dset (dset (dset ps "preset" (.str cfg.preset)) "fog" (.num cfg.fog))
    "skyColor" (.str cfg.skyColor)) "ambientLight" (.num cfg.ambientLight)

/-- The per-entity body of apply_style: set color, damp glow, default speed. -/
def styleEntity (cfg : StyleCfg) (e : JVal) : Except String JVal := do
  let (fs, ps) ← entityParams e
  let ps := dset ps "color" (.str cfg.defColor)
  let g ← pyToNum (getD ps "glow" (.num (1/2)))
  let ps := dset ps "glow" (.num (min 1 (g * cfg.defGlow)))
  let ps := dset ps "speed" (getD ps "speed" (.num cfg.defSpeed))
  Except.ok (.obj (dset fs "params" (.obj ps)))

/-- style_mapper.apply_style. -/
def apply_style (base : Doc) (style : String) : Except String Doc := do
  let out := base                                     -- copy.deepcopy(base)
  let cfg := get_style_config style
  let out := setdefaultD out "environment" (.obj [])
  let out ←
    (match lookupF out "environment" with
     | some (.obj ps) => Except.ok (dset out "environment" (.obj (envUpdate ps cfg)))
     | _ => Except.error "AttributeError: no attribute update")
  let out := dset out "style" (.str style)             -- the raw style argument
  let out ← updateEntities (styleEntity cfg) out
  let out ← setdefaultAppend out "assumptions"
    (.str ("Deterministic style mapping applied -> " ++ style))
  Except.ok out

/-! ## utils/json_parser.py -/

def lbraceChar : Char := Char.ofNat 123
def rbraceChar : Char := Char.ofNat 125

/-- JSON whitespace accepted between tokens by json.loads. -/
def jsonWs (c : Char) : Bool := c = ' ' || c = '\t' || c = '\n' || c = '\r'

def skipWs (cs : List Char) : List Char := cs.dropWhile jsonWs

def hexVal (c : Char) : Option ℕ :=
  if c.isDigit then some (c.toNat - 48)
  else if 97 ≤ c.toNat ∧ c.toNat ≤ 102 then some (c.toNat - 87)
  else if 65 ≤ c.toNat ∧ c.toNat ≤ 70 then some (c.toNat - 55)
  else none

def escChar (e : Char) : Option Char :=
  if e = '"' then some '"'
  else if e = '\\' then some '\\'
  else if e = '/' then some '/'
  else if e = 'b' then some (Char.ofNat 8)
  else if e = 'f' then some (Char.ofNat 12)
  else if e = 'n' then some '\n'
  else if e = 'r' then some '\r'
  else if e = 't' then some '\t'
  else none

/-- Body of a JSON string literal after the opening quote: returns the
decoded characters and the remainder after the closing quote. -/
def parseStrBody : List Char → Option (List Char × List Char)
  | [] => none
  | '"' :: rest => some ([], rest)
  | '\\' :: 'u' :: a :: b :: c :: d :: rest =>
      (match hexVal a, hexVal b, hexVal c, hexVal d with
       | some ha, some hb, some hc, some hd =>
          (parseStrBody rest).map
            (fun p => (Char.ofNat (((ha * 16 + hb) * 16 + hc) * 16 + hd) :: p.1, p.2))
       | _, _, _, _ => none)
  | '\\' :: e :: rest =>
      (match escChar e with
       | some ch => (parseStrBody rest).map (fun p => (ch :: p.1, p.2))
       | none => none)
  | c :: rest => (parseStrBody rest).map (fun p => (c :: p.1, p.2))

def digitsToNat (ds : List Char) : ℕ :=
  ds.foldl (fun acc c => acc * 10 + (c.toNat - 48)) 0

/-- A JSON number (sign, integer part, optional fraction, optional exponent),
as an exact rational. -/
def parseNum (cs : List Char) : Option (ℚ × List Char) :=
  let (neg, cs1) :=
    match cs with
    | '-' :: rest => (true, rest)
    | _ => (false, cs)
  let intPart := cs1.takeWhile Char.isDigit
  let cs2 := cs1.dropWhile Char.isDigit
  if intPart.isEmpty then none
  else
    let (fracDigits, cs3) :=
      match cs2 with
      | '.' :: rest => (rest.takeWhile Char.isDigit, rest.dropWhile Char.isDigit)
      | _ => ([], cs2)
    if (match cs2 with | '.' :: _ => fracDigits.isEmpty | _ => false) then none
    else
      let expRes : Option (ℤ × List Char) :=
        match cs3 with
        | e :: rest =>
          if e = 'e' ∨ e = 'E' then
            let (esign, rest2) :=
              match rest with
              | '+' :: r => ((1 : ℤ), r)
              | '-' :: r => ((-1 : ℤ), r)
              | _ => ((1 : ℤ), rest)
            let eds := rest2.takeWhile Char.isDigit
            if eds.isEmpty then none
            else some (esign * (digitsToNat eds : ℤ), rest2.dropWhile Char.isDigit)
          else some (0, cs3)
        | [] => some (0, cs3)
      match expRes with
      | none => none
      | some (expVal, cs4) =>
        let mantissa : ℚ := (digitsToNat intPart : ℚ) +
          (digitsToNat fracDigits : ℚ) / ((10 : ℚ) ^ fracDigits.length)
        let signed := if neg then -mantissa else mantissa
        let scaled := if 0 ≤ expVal then signed * (10 : ℚ) ^ expVal.toNat
                      else signed / ((10 : ℚ) ^ (-expVal).toNat)
        some (scaled, cs4)

mutual
/-- Fueled recursive-descent model of json.loads on one JSON value.
(Slightly more lenient than CPython on leading zeros and raw control
characters in strings; identical on the shapes the service handles.) -/
def jparse (fuel : ℕ) (cs : List Char) : Option (JVal × List Char) :=
  match fuel with
  | 0 => none
  | fuel + 1 =>
    match skipWs cs with
    | [] => none
    | c :: rest =>
      if c = '"' then
        (parseStrBody rest).map (fun p => (JVal.str (String.mk p.1), p.2))
      else if c = lbraceChar then
        (match skipWs rest with
         | c2 :: rest2 =>
           if c2 = rbraceChar then some (JVal.obj [], rest2)
           else jparseMembers fuel (c2 :: rest2) []
         | [] => none)
      else if c = '[' then
        (match skipWs rest with
         | c2 :: rest2 =>
           if c2 = ']' then some (JVal.arr [], rest2)
           else (jparseItems fuel (c2 :: rest2)).map (fun p => (JVal.arr p.1, p.2))
         | [] => none)
      else if prefB ['t', 'r', 'u', 'e'] (c :: rest) then
        some (JVal.bool true, (c :: rest).drop 4)
      else if prefB ['f', 'a', 'l', 's', 'e'] (c :: rest) then
        some (JVal.bool false, (c :: rest).drop 5)
      else if prefB ['n', 'u', 'l', 'l'] (c :: rest) then
        some (JVal.null, (c :: rest).drop 4)
      else (parseNum (c :: rest)).map (fun p => (JVal.num p.1, p.2))

/-- Members of a JSON object (after the opening brace, at least one member);
duplicate keys resolve last-wins as in Python. -/
def jparseMembers (fuel : ℕ) (cs : List Char) (acc : Doc) : Option (JVal × List Char) :=
  match fuel with
  | 0 => none
  | fuel + 1 =>
    match skipWs cs with
    | c :: rest =>
      if c = '"' then
        (match parseStrBody rest with
         | some (key, rest2) =>
           (match skipWs rest2 with
            | ':' :: rest3 =>
              (match jparse fuel rest3 with
               | some (v, rest4) =>
                 (match skipWs rest4 with
                  | ',' :: rest5 => jparseMembers fuel rest5 (dset acc (String.mk key) v)
                  | c2 :: rest5 =>
                    if c2 = rbraceChar then some (JVal.obj (dset acc (String.mk key) v), rest5)
                    else none
                  | [] => none)
               | none => none)
            | _ => none)
         | none => none)
      else none
    | [] => none

/-- Items of a JSON array (at least one item). -/
def jparseItems (fuel : ℕ) (cs : List Char) : Option (List JVal × List Char) :=
  match fuel with
  | 0 => none
  | fuel + 1 =>
    match jparse fuel cs with
    | some (v, rest) =>
      (match skipWs rest with
       | ',' :: rest2 => (jparseItems fuel rest2).map (fun p => (v :: p.1, p.2))
       | ']' :: rest2 => some ([v], rest2)
       | _ => none)
    | none => none
end

/-- json.loads: parse one value and require only whitespace after it. -/
def json_loads (s : String) : Option JVal :=
  let cs := s.toList
  match jparse (2 * cs.length + 2) cs with
  | some (v, rest) => if (skipWs rest).isEmpty then some v else none
  | none => none

/-- The depth-counting loop of _extract_first_json_block: index of the first
opening brace and of the closing brace that returns the running depth to 0
(depth may go negative on stray closers before the first opener, exactly as
in the source). -/
def scanBlock : List Char → ℕ → ℤ → Option ℕ → Option (ℕ × ℕ)
  | [], _, _, _ => none
  | c :: rest, i, depth, start =>
    if c = lbraceChar then
      scanBlock rest (i + 1) (depth + 1) (if start.isNone then some i else start)
    else if c = rbraceChar then
      (match start with
       | some s => if depth - 1 = 0 then some (s, i) else scanBlock rest (i + 1) (depth - 1) start
       | none => scanBlock rest (i + 1) (depth - 1) start)
    else scanBlock rest (i + 1) depth start

/-- Inclusive slice text[s : e + 1]. -/
def sliceOf (cs : List Char) (s e : ℕ) : List Char := (cs.drop s).take (e + 1 - s)

def firstBraceIdx (cs : List Char) : Option ℕ := cs.findIdx? (fun c => c = lbraceChar)

def lastCloseIdx (cs : List Char) : Option ℕ :=
  (cs.reverse.findIdx? (fun c => c = rbraceChar)).map (fun j => cs.length - 1 - j)

/-- The `re.search(r"(\x7b[\s\S]*\x7d)", text)` fallback: greedy match from
the first opening brace to the last closing brace, when one follows it. -/
def regexBlock (cs : List Char) : Option (List Char) :=
  match firstBraceIdx cs, lastCloseIdx cs with
  | some i, some j => if i < j then some (sliceOf cs i j) else none
  | _, _ => none

/-- json_parser._extract_first_json_block. -/
def firstJsonBlock (text : String) : Option String :=
  let cs := text.toList
  if cs.contains lbraceChar then
    match scanBlock cs 0 0 none with
    | some (s, e) => some (String.mk (sliceOf cs s e))
    | none => (regexBlock cs).map String.mk
  else none

/-- Python regex \s over the ASCII range. -/
def pySpace (c : Char) : Bool :=
  c = ' ' || c = '\t' || c = '\n' || c = '\r' || c = Char.ofNat 11 || c = Char.ofNat 12

theorem dropWhileLenLe (p : Char → Bool) (l : List Char) :
    (List.dropWhile p l).length ≤ l.length := by
  induction l with
  | nil => simp [List.dropWhile]
  | cons c t ih =>
    by_cases h : p c
    · simp only [List.dropWhile, h]
      exact le_trans ih (Nat.le_succ _)
    · simp [List.dropWhile, h]

/-- `re.sub(r",\s*([\x7d\]])", r"\1", block)`: drop a comma (and the
whitespace after it) that directly precedes a closing brace/bracket. -/
def tidyAux : List Char → List Char
  | [] => []
  | c :: rest =>
    if c == ',' && (match rest.dropWhile pySpace with
                    | b :: _ => b == rbraceChar || b == ']'
                    | [] => false)
    then tidyAux (rest.dropWhile pySpace)
    else c :: tidyAux rest
termination_by cs => cs.length
decreasing_by
  · have := dropWhileLenLe pySpace t
    simp only [List.length_cons]
    omega
  · simp

def tidyStr (s : String) : String := String.mk (tidyAux s.toList)

/-- json_parser.extract_json_from_text. -/
def extract_json_from_text (text : String) : Option JVal :=
  match firstJsonBlock text with
  | none => none
  | some block =>
    match json_loads block with
    | some v => some v
    | none => json_loads (tidyStr block)

/-- json_parser.parse_json_or_none. -/
def parse_json_or_none (text : String) : Option JVal :=
  if text.isEmpty then none else json_loads text

/-! ## services/patch_service.py and services/style_service.py

The generation backend call `client.generate(prompt, ...)` is an external
input (remote HTTP service, or the local prompt round-tripping stub); its
outcome is passed in as `gen : Except String String` — either the response
text or a raised exception. -/

/-- Python falsiness of an Optional JSON value (None and falsy values). -/
def pyFalsyO : Option JVal → Bool
  | none => true
  | some v => !truthy v

def isObjO : Option JVal → Bool
  | some (.obj _) => true
  | _ => false

/-- The try-block of patch_service.apply_patch. -/
def apply_patch_body (gen : Except String String) (base_json : Doc)
    (edit_text : String) (now : ℕ) (ts : String) : Except String Doc := do
  let response_text ← gen
  let p1 := extract_json_from_text response_text
  let patched := if pyFalsyO p1 then parse_json_or_none response_text else p1
  if pyFalsyO patched || !isObjO patched then do
    -- safe fallback, tagged used_safe_fallback
    let fb ← safe_patch base_json edit_text now ts
    -- patched["assumptions"] = patched.get("assumptions", []) + ["used_safe_fallback"]
    let prior :=
      (match lookupF fb "assumptions" with
       | some (.arr xs) => Except.ok xs
       | some _ => Except.error "TypeError: can only concatenate list"
       | none => Except.ok [])
    let xs ← prior
    Except.ok (dset fb "assumptions" (.arr (xs ++ [.str "used_safe_fallback"])))
  else
    match patched with
    | some (.obj pd) => do
        let (valid, _errors) := validate_dream (.obj pd)
        if !valid then do
          let repaired ← repair_dream pd now
          let (v2, _errs2) := validate_dream (.obj repaired)
          if v2 then do
            let repaired ← setdefaultAppend repaired "assumptions"
              (.str "auto-repaired after validation errors")
            Except.ok repaired
          else do
            let fallback ← safe_patch base_json edit_text now ts
            let fallback ← setdefaultAppend fallback "assumptions"
              (.str "fallback_after_failed_repair")
            Except.ok fallback
        else do
          let pd := if !(memberF pd "id") && memberF base_json "id" then
              dset pd "id" (getD base_json "id" .null)
            else pd
          let pd ← setdefaultAppend pd "patchHistory" (historyObj edit_text ts "llama-stylist")
          Except.ok pd
    | _ => Except.error "unreachable: guarded by isObjO"

/-- patch_service.apply_patch: the try/except wrapper routing any raised
error to the safe fallback (which itself may raise, and then the exception
escapes to the caller). -/
def apply_patch (gen : Except String String) (base_json : Doc)
    (edit_text : String) (now : ℕ) (ts : String) : Except String Doc :=
  match apply_patch_body gen base_json edit_text now ts with
  | .ok d => .ok d
  | .error _ => do
      let fallback ← safe_patch base_json edit_text now ts
      let fallback ← setdefaultAppend fallback "assumptions" (.str "fallback_on_exception")
      Except.ok fallback

/-- The try-block of style_service.enrich_style. -/
def enrich_style_body (gen : Except String String) (base_json : Doc)
    (target_style : String) : Except String Doc := do
  let response_text ← gen
  let p1 := extract_json_from_text response_text
  let parsed := if pyFalsyO p1 then parse_json_or_none response_text else p1
  if pyFalsyO parsed || !isObjO parsed then do
    let enriched ← apply_style base_json target_style
    let enriched ← setdefaultAppend enriched "assumptions"
      (.str "applied_deterministic_style_mapper")
    Except.ok enriched
  else
    match parsed with
    | some (.obj pd) => do
        let (valid, _errors) := validate_dream (.obj pd)
        if !valid then do
          let repaired ← repair_dream pd 0
          let (v2, _errs2) := validate_dream (.obj repaired)
          if v2 then do
            let repaired ← setdefaultAppend repaired "assumptions" (.str "repaired_enriched_result")
            Except.ok repaired
          else do
            let enriched ← apply_style base_json target_style
            let enriched ← setdefaultAppend enriched "assumptions" (.str "fallback_after_failed_repair")
            Except.ok enriched
        else do
          let pd := setdefaultD pd "style" (.str target_style)
          -- parsed.setdefault("metadata", {}).update({...})
          let md ←
            (match lookupF pd "metadata" with
             | some (.obj ms) => Except.ok ms
             | some _ => Except.error "AttributeError: no attribute update"
             | none => Except.ok [])
          let md := dset (dset md "enrichedBy" (.str "llama-stylist")) "targetStyle" (.str target_style)
          Except.ok (dset pd "metadata" (.obj md))
    | _ => Except.error "unreachable: guarded by isObjO"

/-- style_service.enrich_style with its try/except wrapper. -/
def enrich_style (gen : Except String String) (base_json : Doc)
    (target_style : String) : Except String Doc :=
  match enrich_style_body gen base_json target_style with
  | .ok d => .ok d
  | .error _ => do
      let enriched ← apply_style base_json target_style
      let enriched ← setdefaultAppend enriched "assumptions" (.str "fallback_on_exception")
      Except.ok enriched

/-! ## main.py — stub_apply_patch

`rnd` supplies the random.uniform draws (positions only), in call order. -/

/-- One clause of main._ensure_lists: coerce a missing/non-list key to []. -/
def ensure1 (d : Doc) (k : String) : Doc :=
  match lookupF d k with
  | some (.arr _) => d
  | _ => dset d k (.arr [])

/-- main._ensure_lists. -/
def ensureLists (d : Doc) : Doc :=
  ensure1 (ensure1 (ensure1 d "structures") "entities") "assumptions"

def islandObjStub (now : ℕ) (rnd : ℕ → ℚ) : JVal :=
  .obj [("id", .str ("added_island_" ++ toString now)),
        ("template", .str "floating_island"),
        ("pos", .arr [.num (rnd 0), .num (15 + rnd 1), .num (rnd 2)]),
        ("scale", .num (4/5)), ("features", .arr [])]

def towerObjStub (now : ℕ) (rnd : ℕ → ℚ) : JVal :=
  .obj [("id", .str ("added_tower_" ++ toString now)),
        ("template", .str "crystal_tower"),
        ("pos", .arr [.num (rnd 3), .num (10 + rnd 4), .num (rnd 5)]),
        ("scale", .num (11/10)), ("features", .arr [])]

/-- One conditional mutation step of the stub patch: when the keyword rule
fires, run the mutation and record its label in the applied list. -/
def condStep (c : Bool) (op : Doc → Except String Doc) (lbl : String)
    (st : Doc × List String) : Except String (Doc × List String) :=
  if c then op st.1 >>= fun q => Except.ok (q, st.2 ++ [lbl]) else Except.ok st

/-- main.stub_apply_patch. -/
def stub_apply_patch (base_json : Doc) (edit_text : String) (now : ℕ)
    (ts : String) (rnd : ℕ → ℚ) : Except String Doc :=
  let patched := base_json                              -- copy.deepcopy(base_json)
  let patched := ensureLists patched
  let edit := pyLower edit_text
  colorTable.foldlM (colorStepG stubColorLabel edit) (patched, ([] : List String)) >>= fun st =>
  condStep (islandCond edit) (fun p => appendAtKey p "structures" (islandObjStub now rnd))
    "added floating_island" st >>= fun st =>
  condStep (towerCond edit) (fun p => appendAtKey p "structures" (towerObjStub now rnd))
    "added crystal_tower" st >>= fun st =>
  condStep (fasterCond edit) (updateEntities boostEntity) "increased speed" st >>= fun st =>
  condStep (slowerCond edit) (updateEntities slowEntity) "decreased speed" st >>= fun st =>
  condStep st.2.isEmpty
    (fun p => setdefaultAppend p "assumptions"
      (.str ("Requested edit recorded: \"" ++ edit_text ++ "\"")))
    "recorded as assumption" st >>= fun st =>
  setdefaultAppend st.1 "patchHistory" (historyObj edit_text ts "stub") >>= fun p =>
  setdefaultAppend p "assumptions"
    (.str ("Stub patch applied: " ++ String.intercalate ", " st.2))

/-! ## Explicit caller-state wrappers

Each Python transform begins with `copy.deepcopy` of its argument and every
subsequent mutating statement targets the copy (or objects reachable only
from the copy / freshly parsed backend output); no statement stores into the
caller's object.  To make that frame property statable, each wrapper threads
the caller's variable explicitly and returns (caller's document after the
call, result). -/

def repair_dream_call (dream : Doc) (now : ℕ) : Except String (Doc × Doc) := do
  let caller := dream
  let r ← repair_dream caller now
  Except.ok (caller, r)

def safe_patch_call (base : Doc) (edit_text : String) (now : ℕ) (ts : String) :
    Except String (Doc × Doc) := do
  let caller := base
  let r ← safe_patch caller edit_text now ts
  Except.ok (caller, r)

def apply_style_call (base : Doc) (style : String) : Except String (Doc × Doc) := do
  let caller := base
  let r ← apply_style caller style
  Except.ok (caller, r)

def apply_patch_call (gen : Except String String) (base_json : Doc)
    (edit_text : String) (now : ℕ) (ts : String) : Except String (Doc × Doc) := do
  let caller := base_json
  let r ← apply_patch gen caller edit_text now ts
  Except.ok (caller, r)

def enrich_style_call (gen : Except String String) (base_json : Doc)
    (target_style : String) : Except String (Doc × Doc) := do
  let caller := base_json
  let r ← enrich_style gen caller target_style
  Except.ok (caller, r)

/-! ## Projections and well-typedness predicates used by the theorems -/

def entitiesOf (d : Doc) : List JVal :=
  match lookupF d "entities" with
  | some (.arr es) => es
  | _ => []

def assumArr (d : Doc) : List JVal :=
  match lookupF d "assumptions" with
  | some (.arr xs) => xs
  | _ => []

def paramOf (e : JVal) (k : String) : Option JVal :=
  match e with
  | .obj fs =>
      (match lookupF fs "params" with
       | some (.obj ps) => lookupF ps k
       | _ => none)
  | _ => none

def paramColor (e : JVal) : Option JVal := paramOf e "color"
def paramSpeed (e : JVal) : Option JVal := paramOf e "speed"
def paramGlow (e : JVal) : Option JVal := paramOf e "glow"

def speedsOf (d : Doc) : List (Option JVal) := (entitiesOf d).map paramSpeed
def colorsOf (d : Doc) : List (Option JVal) := (entitiesOf d).map paramColor
def glowsOf (d : Doc) : List (Option JVal) := (entitiesOf d).map paramGlow

/-- The value is absent or a number/bool (so Python arithmetic on it works). -/
def numValOK : Option JVal → Bool
  | none => true
  | some (.num _) => true
  | some (.bool _) => true
  | some _ => false

/-- Key absent, or present with a list value. -/
def optArrOK : Option JVal → Bool
  | none => true
  | some (.arr _) => true
  | some _ => false

/-- Key absent, or present with a dict value. -/
def optObjOK : Option JVal → Bool
  | none => true
  | some (.obj _) => true
  | some _ => false

/-- An entity a text-edit transform can process: a dict whose params, if
present, is a dict with a numeric (or absent) speed. -/
def entityOKb (e : JVal) : Bool :=
  match e with
  | .obj fs =>
      (match lookupF fs "params" with
       | some (.obj ps) => numValOK (lookupF ps "speed")
       | none => true
       | some _ => false)
  | _ => false

def entitiesOKb (d : Doc) : Bool :=
  match lookupF d "entities" with
  | some (.arr es) => es.all entityOKb
  | none => true
  | some _ => false

/-- Well-typedness of a document for safe_patch / stub_apply_patch: the
fields the transform touches have the shapes the code assumes. -/
def safeDocB (d : Doc) : Bool :=
  optArrOK (lookupF d "assumptions") && optArrOK (lookupF d "patchHistory") &&
  optArrOK (lookupF d "structures") && optObjOK (lookupF d "environment") &&
  entitiesOKb d

/-- An entity apply_style can process: dict params (or absent) with a
numeric (or absent) glow. -/
def styleEntityOKb (e : JVal) : Bool :=
  match e with
  | .obj fs =>
      (match lookupF fs "params" with
       | some (.obj ps) => numValOK (lookupF ps "glow")
       | none => true
       | some _ => false)
  | _ => false

/-- Well-typedness of a document for apply_style. -/
def styleDocB (d : Doc) : Bool :=
  optArrOK (lookupF d "assumptions") && optObjOK (lookupF d "environment") &&
  (match lookupF d "entities" with
   | some (.arr es) => es.all styleEntityOKb
   | none => true
   | some _ => false)

/-! ## Pure models of the transforms on well-typed documents

Each fallible transform is proved (below) to return `Except.ok` of the
corresponding pure function whenever the input satisfies the well-typedness
predicate; claim-level reasoning then happens on the pure functions. -/

/-- setEntityColor on an entity satisfying entityOKb. -/
def setColorPure (v : String) (e : JVal) : JVal :=
  match e with
  | .obj fs =>
      (match lookupF fs "params" with
       | some (.obj ps) => .obj (dset fs "params" (.obj (dset ps "color" (.str v))))
       | some _ => e
       | none => .obj (dset fs "params" (.obj [("color", .str v)])))
  | _ => e

/-- The numeric value Python reads with `p.get(k, dflt)` from params. -/
def numOfOpt (dflt : ℚ) : Option JVal → ℚ
  | some (.num q) => q
  | some (.bool b) => if b then 1 else 0
  | _ => dflt

/-- boostEntity on an entity satisfying entityOKb. -/
def boostPure (e : JVal) : JVal :=
  match e with
  | .obj fs =>
      (match lookupF fs "params" with
       | some (.obj ps) =>
          .obj (dset fs "params" (.obj (dset ps "speed"
            (.num (min 10 (numOfOpt 1 (lookupF ps "speed") * (3/2)))))))
       | some _ => e
       | none => .obj (dset fs "params" (.obj (dset ([] : Doc) "speed"
            (.num (min 10 (numOfOpt 1 none * (3/2))))))))
  | _ => e

/-- slowEntity on an entity satisfying entityOKb. -/
def slowPure (e : JVal) : JVal :=
  match e with
  | .obj fs =>
      (match lookupF fs "params" with
       | some (.obj ps) =>
          .obj (dset fs "params" (.obj (dset ps "speed"
            (.num (max (1/100) (numOfOpt 1 (lookupF ps "speed") * (7/10)))))))
       | some _ => e
       | none => .obj (dset fs "params" (.obj (dset ([] : Doc) "speed"
            (.num (max (1/100) (numOfOpt 1 none * (7/10))))))))
  | _ => e

/-- updateEntities f on a well-typed document, when f agrees with g there. -/
def entitiesMapPure (g : JVal → JVal) (d : Doc) : Doc :=
  match lookupF d "entities" with
  | some (.arr es) => dset d "entities" (.arr (es.map g))
  | _ => d

/-- updateSky on a well-typed document. -/
def skyPure (v : String) (d : Doc) : Doc :=
  if truthy (getD d "environment" .null) then
    (match lookupF d "environment" with
     | some (.obj ps) => dset d "environment" (.obj (dset ps "skyColor" (.str v)))
     | _ => d)
  else d

/-- One matching color-keyword iteration on a well-typed document. -/
def colorApplyPure (v : String) (d : Doc) : Doc :=
  skyPure v (entitiesMapPure (setColorPure v) d)

/-- The whole color loop on a well-typed document. -/
def colorsFoldPure (tbl : List (String × String)) (edit : String) (d : Doc) : Doc :=
  tbl.foldl (fun d kv => if substrB kv.1 edit then colorApplyPure kv.2 d else d) d

/-- setdefaultAppend on a key that is absent or holds a list. -/
def sdAppendPure (d : Doc) (k : String) (x : JVal) : Doc :=
  match lookupF d k with
  | some (.arr xs) => dset d k (.arr (xs ++ [x]))
  | none => d ++ [(k, .arr [x])]
  | some _ => d

/-- appendAtKey on a key that holds a list. -/
def appendArrPure (d : Doc) (k : String) (x : JVal) : Doc :=
  match lookupF d k with
  | some (.arr xs) => dset d k (.arr (xs ++ [x]))
  | _ => d

/-- The `applied` list safe_patch builds, a function of the lowered edit
text alone. -/
def appliedSafe (edit : String) : List String :=
  (colorTable.filter (fun kv => substrB kv.1 edit)).map (fun kv => safeColorLabel kv.1)
  ++ (if islandCond edit then ["added_island"] else [])
  ++ (if fasterCond edit then ["increased_speed"] else [])

/-- The assumptions entry safe_patch appends. -/
def spEntry (edit_text : String) : String :=
  if (appliedSafe (pyLower edit_text)).isEmpty then
    "Requested edit recorded: \"" ++ edit_text ++ "\""
  else "safe_patch_applied:" ++ String.intercalate "," (appliedSafe (pyLower edit_text))

/-- The list stored under a key (empty if absent or not a list). -/
def arrAt (d : Doc) (k : String) : List JVal :=
  match lookupF d k with
  | some (.arr xs) => xs
  | _ => []

/-- Pure model of safe_patch_core on documents satisfying safeDocB. -/
def spCorePure (base : Doc) (edit_text : String) (now : ℕ) : Doc :=
  let edit := pyLower edit_text
  let p := setdefaultD base "assumptions" (.arr [])
  let p := colorsFoldPure colorTable edit p
  let p := if islandCond edit then sdAppendPure p "structures" (islandObjSafe now) else p
  if fasterCond edit then entitiesMapPure boostPure p else p

/-- Pure model of safe_patch on documents satisfying safeDocB. -/
def safe_patch_pure (base : Doc) (edit_text : String) (now : ℕ) (ts : String) : Doc :=
  let p := spCorePure base edit_text now
  let p := appendArrPure p "assumptions" (.str (spEntry edit_text))
  sdAppendPure p "patchHistory" (historyObj edit_text ts "safe_patch")

/-- styleEntity on an entity satisfying styleEntityOKb. -/
def stylePure (cfg : StyleCfg) (e : JVal) : JVal :=
  match e with
  | .obj fs =>
      (match lookupF fs "params" with
       | some (.obj ps) =>
          let ps := dset ps "color" (.str cfg.defColor)
          let ps := dset ps "glow"
            (.num (min 1 (numOfOpt (1/2) (lookupF ps "glow") * cfg.defGlow)))
          let ps := dset ps "speed" (getD ps "speed" (.num cfg.defSpeed))
          .obj (dset fs "params" (.obj ps))
       | some _ => e
       | none =>
          let ps := dset ([] : Doc) "color" (.str cfg.defColor)
          let ps := dset ps "glow"
            (.num (min 1 (numOfOpt (1/2) (lookupF ps "glow") * cfg.defGlow)))
          let ps := dset ps "speed" (getD ps "speed" (.num cfg.defSpeed))
          .obj (dset fs "params" (.obj ps)))
  | _ => e

/-- Pure model of apply_style on documents satisfying styleDocB. -/
def apply_style_pure (base : Doc) (style : String) : Doc :=
  let cfg := get_style_config style
  let out := setdefaultD base "environment" (.obj [])
  let out :=
    (match lookupF out "environment" with
     | some (.obj ps) => dset out "environment" (.obj (envUpdate ps cfg))
     | _ => out)
  let out := dset out "style" (.str style)
  let out := entitiesMapPure (stylePure cfg) out
  sdAppendPure out "assumptions" (.str ("Deterministic style mapping applied -> " ++ style))

/-- The rule labels stub_apply_patch collects before its recorded-note step. -/
def stubRulesApplied (edit : String) : List String :=
  (colorTable.filter (fun kv => substrB kv.1 edit)).map (fun kv => stubColorLabel kv.1)
  ++ (if islandCond edit then ["added floating_island"] else [])
  ++ (if towerCond edit then ["added crystal_tower"] else [])
  ++ (if fasterCond edit then ["increased speed"] else [])
  ++ (if slowerCond edit then ["decreased speed"] else [])

/-- The final `applied` list of stub_apply_patch. -/
def appliedStub (edit : String) : List String :=
  if (stubRulesApplied edit).isEmpty then ["recorded as assumption"]
  else stubRulesApplied edit

/-- Pure model of stub_apply_patch on documents satisfying safeDocB. -/
def stub_apply_patch_pure (base : Doc) (edit_text : String) (now : ℕ)
    (ts : String) (rnd : ℕ → ℚ) : Doc :=
  let edit := pyLower edit_text
  let p := ensureLists base
  let p := colorsFoldPure colorTable edit p
  let p := if islandCond edit then appendArrPure p "structures" (islandObjStub now rnd) else p
  let p := if towerCond edit then appendArrPure p "structures" (towerObjStub now rnd) else p
  let p := if fasterCond edit then entitiesMapPure boostPure p else p
  let p := if slowerCond edit then entitiesMapPure slowPure p else p
  let p := if (stubRulesApplied edit).isEmpty
    then sdAppendPure p "assumptions" (.str ("Requested edit recorded: \"" ++ edit_text ++ "\""))
    else p
  let p := sdAppendPure p "patchHistory" (historyObj edit_text ts "stub")
  sdAppendPure p "assumptions" (.str ("Stub patch applied: " ++ String.intercalate ", " (appliedStub edit)))

/-- Evolution of the environment value under one matching color keyword. -/
def skyStep (v : String) (envOpt : Option JVal) : Option JVal :=
  match envOpt with
  | some (.obj ps) =>
      if ps.isEmpty then some (.obj ps)
      else some (.obj (dset ps "skyColor" (.str v)))
  | x => x

/-- Per-entity effect of the whole color loop. -/
def colorsEntityFold (tbl : List (String × String)) (edit : String) (e : JVal) : JVal :=
  (tbl.filter (fun kv => substrB kv.1 edit)).foldl (fun e kv => setColorPure kv.2 e) e

/-- Environment effect of the whole color loop. -/
def skyFold (tbl : List (String × String)) (edit : String) (envOpt : Option JVal) : Option JVal :=
  (tbl.filter (fun kv => substrB kv.1 edit)).foldl (fun acc kv => skyStep kv.2 acc) envOpt

/-- Per-entity effect of safe_patch (colors then optional speed boost). -/
def spEntityPure (edit : String) (e : JVal) : JVal :=
  let e := colorsEntityFold colorTable edit e
  if fasterCond edit then boostPure e else e

/-- Per-entity effect of stub_apply_patch (colors, optional boost, optional slow). -/
def stubEntityPure (edit : String) (e : JVal) : JVal :=
  let e := colorsEntityFold colorTable edit e
  let e := if fasterCond edit then boostPure e else e
  if slowerCond edit then slowPure e else e


/-- The environment field list of a document (empty if absent). -/
def envFieldsOf (d : Doc) : Doc :=
  match lookupF d "environment" with
  | some (.obj ps) => ps
  | _ => []

/-! ## repair_dream success domain -/

/-- The synthesized-shot target computation succeeds: structures (after
coercion) empty, or its first element is a dict containing "id". -/
def targetOKb (S : List JVal) : Bool :=
  match S with
  | [] => true
  | h :: _ =>
      (match h with
       | .obj fs => memberF fs "id"
       | _ => false)

/-- `sum([s.get("duration", 0) for s in shots])` succeeds on this value. -/
def shotsListOKb : JVal → Bool
  | .arr xs => xs.all (fun s =>
      match s with
      | .obj fs => numValOK (lookupF fs "duration")
      | _ => false)
  | .str s => s.isEmpty
  | .obj fs => fs.isEmpty
  | _ => false

/-- `"shots" in c and isinstance(c["shots"], list) and len(c["shots"]) > 0`. -/
def shotsPresentOKb (c : Doc) : Bool :=
  match lookupF c "shots" with
  | some (.arr (_ :: _)) => true
  | _ => false

/-- The structures list as repair_dream coerces it. -/
def coercedStructures (d : Doc) : List JVal :=
  match getD d "structures" (.arr []) with
  | .arr xs => xs
  | _ => []

/-- Sufficient (and, over the raising statements, necessary) conditions for
repair_dream not to raise: assumptions appendable, target computable when a
shot must be synthesized, shot durations summable when durationSec must be
derived. -/
def repairSafeB (d : Doc) : Bool :=
  optArrOK (lookupF d "assumptions") &&
  (match getD d "cinematography" .null with
   | .obj c =>
      (memberF c "durationSec" || shotsListOKb (getD c "shots" (.arr []))) &&
      (shotsPresentOKb c || targetOKb (coercedStructures d))
   | _ => targetOKb (coercedStructures d))

/-- The document repair_dream has built just before its cinematography
block: id/title defaulted, style coerced, structures/entities coerced. -/
def repairPre (d : Doc) (now : ℕ) : Doc :=
  let r := dset d "id" (getD d "id" (.str ("repaired_" ++ toString now)))
  let r := dset r "title" (getD r "title" (.str "Repaired Dream"))
  let r := if isEnumStyle (getD r "style" .null) then r else dset r "style" (.str "ethereal")
  let r := dset r "structures" (coerceArr (getD r "structures" (.arr [])))
  dset r "entities" (coerceArr (getD r "entities" (.arr [])))

/-! ## Association-list lemmas -/

theorem lookupF_dset_self (d : Doc) (k : String) (v : JVal) :
    lookupF (dset d k v) k = some v := by
  induction d with
  | nil => simp [dset, lookupF]
  | cons kv rest ih =>
    obtain ⟨k1, v1⟩ := kv
    by_cases h : k1 = k
    · simp [dset, h, lookupF]
    · simp [dset, h, lookupF, ih]

theorem lookupF_dset_ne (d : Doc) (k k2 : String) (v : JVal) (h : k2 ≠ k) :
    lookupF (dset d k v) k2 = lookupF d k2 := by
  induction d with
  | nil => simp [dset, lookupF, Ne.symm h]
  | cons kv rest ih =>
    obtain ⟨k1, v1⟩ := kv
    by_cases h1 : k1 = k
    · subst h1
      simp [dset, lookupF, Ne.symm h]
    · simp [dset, h1, lookupF, ih]

theorem dset_self (d : Doc) (k : String) (v : JVal) (h : lookupF d k = some v) :
    dset d k v = d := by
  induction d with
  | nil => simp [lookupF] at h
  | cons kv rest ih =>
    obtain ⟨k1, v1⟩ := kv
    by_cases h1 : k1 = k
    · subst h1
      simp [lookupF] at h
      simp [dset, h]
    · simp [lookupF, h1] at h
      simp [dset, h1, ih h]

theorem lookupF_append_ne (d : Doc) (k k2 : String) (v : JVal) (h : k2 ≠ k) :
    lookupF (d ++ [(k, v)]) k2 = lookupF d k2 := by
  induction d with
  | nil => simp [lookupF, Ne.symm h]
  | cons kv rest ih =>
    obtain ⟨k1, v1⟩ := kv
    by_cases h1 : k1 = k2
    · simp [lookupF, h1]
    · simp [lookupF, h1, ih]

theorem lookupF_setdefaultD_ne (d : Doc) (k k2 : String) (v : JVal) (h : k2 ≠ k) :
    lookupF (setdefaultD d k v) k2 = lookupF d k2 := by
  unfold setdefaultD
  by_cases hm : memberF d k
  · simp [hm]
  · simp [hm, lookupF_append_ne _ _ _ _ h]

theorem lookupF_append_self (d : Doc) (k : String) (v : JVal) (h : lookupF d k = none) :
    lookupF (d ++ [(k, v)]) k = some v := by
  induction d with
  | nil => simp [lookupF]
  | cons kv rest ih =>
    obtain ⟨k1, v1⟩ := kv
    by_cases h1 : k1 = k
    · simp [lookupF, h1] at h
    · simp [lookupF, h1] at h ⊢
      exact ih h

theorem lookupF_setdefaultD_absent (d : Doc) (k : String) (v : JVal)
    (h : lookupF d k = none) : lookupF (setdefaultD d k v) k = some v := by
  unfold setdefaultD
  simp [memberF, h, lookupF_append_self _ _ _ h]

theorem lookupF_setdefaultD_present (d : Doc) (k : String) (v w : JVal)
    (h : lookupF d k = some w) : lookupF (setdefaultD d k v) k = some w := by
  unfold setdefaultD
  simp [memberF, h]

/-! ## Per-entity lemmas -/

theorem setEntityColor_eq_pure (v : String) (e : JVal) (h : entityOKb e = true) :
    setEntityColor v e = .ok (setColorPure v e) := by
  cases e with
  | obj fs =>
    cases hp : lookupF fs "params" with
    | none => simp [setEntityColor, entityParams, setColorPure, hp, Bind.bind, Except.bind, dset]
    | some w =>
      cases w with
      | obj ps => simp [setEntityColor, entityParams, setColorPure, hp, Bind.bind, Except.bind]
      | null => simp [entityOKb, hp] at h
      | bool b => simp [entityOKb, hp] at h
      | num q => simp [entityOKb, hp] at h
      | str s => simp [entityOKb, hp] at h
      | arr xs => simp [entityOKb, hp] at h
  | null => simp [entityOKb] at h
  | bool b => simp [entityOKb] at h
  | num q => simp [entityOKb] at h
  | str s => simp [entityOKb] at h
  | arr xs => simp [entityOKb] at h

theorem entityOKb_setColorPure (v : String) (e : JVal) (h : entityOKb e = true) :
    entityOKb (setColorPure v e) = true := by
  cases e with
  | obj fs =>
    cases hp : lookupF fs "params" with
    | none =>
      simp [setColorPure, hp, entityOKb, lookupF_dset_self, lookupF, numValOK]
    | some w =>
      cases w with
      | obj ps =>
        have hne : "speed" ≠ "color" := by decide
        simp [setColorPure, hp, entityOKb, lookupF_dset_self,
          lookupF_dset_ne ps "color" "speed" _ hne]
        simp [entityOKb, hp] at h
        exact h
      | null => simp [entityOKb, hp] at h
      | bool b => simp [entityOKb, hp] at h
      | num q => simp [entityOKb, hp] at h
      | str s => simp [entityOKb, hp] at h
      | arr xs => simp [entityOKb, hp] at h
  | null => simp [entityOKb] at h
  | bool b => simp [entityOKb] at h
  | num q => simp [entityOKb] at h
  | str s => simp [entityOKb] at h
  | arr xs => simp [entityOKb] at h

theorem paramSpeed_setColorPure (v : String) (e : JVal) :
    paramSpeed (setColorPure v e) = paramSpeed e := by
  cases e with
  | obj fs =>
    cases hp : lookupF fs "params" with
    | none =>
      simp [setColorPure, hp, paramSpeed, paramOf, lookupF_dset_self, lookupF]
    | some w =>
      cases w with
      | obj ps =>
        have hne : "speed" ≠ "color" := by decide
        simp [setColorPure, hp, paramSpeed, paramOf, lookupF_dset_self,
          lookupF_dset_ne ps "color" "speed" _ hne]
      | null => simp [setColorPure, hp]
      | bool b => simp [setColorPure, hp]
      | num q => simp [setColorPure, hp]
      | str s => simp [setColorPure, hp]
      | arr xs => simp [setColorPure, hp]
  | null => rfl
  | bool b => rfl
  | num q => rfl
  | str s => rfl
  | arr xs => rfl

theorem paramGlow_setColorPure (v : String) (e : JVal) :
    paramGlow (setColorPure v e) = paramGlow e := by
  cases e with
  | obj fs =>
    cases hp : lookupF fs "params" with
    | none =>
      simp [setColorPure, hp, paramGlow, paramOf, lookupF_dset_self, lookupF]
    | some w =>
      cases w with
      | obj ps =>
        have hne : "glow" ≠ "color" := by decide
        simp [setColorPure, hp, paramGlow, paramOf, lookupF_dset_self,
          lookupF_dset_ne ps "color" "glow" _ hne]
      | null => simp [setColorPure, hp]
      | bool b => simp [setColorPure, hp]
      | num q => simp [setColorPure, hp]
      | str s => simp [setColorPure, hp]
      | arr xs => simp [setColorPure, hp]
  | null => rfl
  | bool b => rfl
  | num q => rfl
  | str s => rfl
  | arr xs => rfl

theorem paramColor_setColorPure (v : String) (e : JVal) (h : entityOKb e = true) :
    paramColor (setColorPure v e) = some (.str v) := by
  cases e with
  | obj fs =>
    cases hp : lookupF fs "params" with
    | none =>
      simp [setColorPure, hp, paramColor, paramOf, lookupF_dset_self, lookupF]
    | some w =>
      cases w with
      | obj ps =>
        simp [setColorPure, hp, paramColor, paramOf, lookupF_dset_self]
      | null => simp [entityOKb, hp] at h
      | bool b => simp [entityOKb, hp] at h
      | num q => simp [entityOKb, hp] at h
      | str s => simp [entityOKb, hp] at h
      | arr xs => simp [entityOKb, hp] at h
  | null => simp [entityOKb] at h
  | bool b => simp [entityOKb] at h
  | num q => simp [entityOKb] at h
  | str s => simp [entityOKb] at h
  | arr xs => simp [entityOKb] at h

theorem entityOKb_elim (e : JVal) (h : entityOKb e = true) :
    ∃ fs, e = .obj fs ∧
      (lookupF fs "params" = none ∨
       ∃ ps, lookupF fs "params" = some (.obj ps) ∧ numValOK (lookupF ps "speed") = true) := by
  cases e with
  | obj fs =>
    refine ⟨fs, rfl, ?_⟩
    cases hp : lookupF fs "params" with
    | none => exact Or.inl rfl
    | some w =>
      cases w with
      | obj ps =>
        refine Or.inr ⟨ps, rfl, ?_⟩
        simpa [entityOKb, hp] using h
      | null => simp [entityOKb, hp] at h
      | bool b => simp [entityOKb, hp] at h
      | num q => simp [entityOKb, hp] at h
      | str s => simp [entityOKb, hp] at h
      | arr xs => simp [entityOKb, hp] at h
  | null => simp [entityOKb] at h
  | bool b => simp [entityOKb] at h
  | num q => simp [entityOKb] at h
  | str s => simp [entityOKb] at h
  | arr xs => simp [entityOKb] at h

theorem boostEntity_eq_pure (e : JVal) (h : entityOKb e = true) :
    boostEntity e = .ok (boostPure e) := by
  obtain ⟨fs, rfl, hc⟩ := entityOKb_elim e h
  rcases hc with hp | ⟨ps, hp, hs⟩
  · simp [boostEntity, entityParams, boostPure, hp, Bind.bind, Except.bind, getD,
      lookupF, pyToNum, numOfOpt]
  · cases hsv : lookupF ps "speed" with
    | none =>
      simp [boostEntity, entityParams, boostPure, hp, hsv, Bind.bind, Except.bind,
        getD, pyToNum, numOfOpt]
    | some w =>
      cases w with
      | num q =>
        simp [boostEntity, entityParams, boostPure, hp, hsv, Bind.bind, Except.bind,
          getD, pyToNum, numOfOpt]
      | bool b =>
        cases b <;>
          simp [boostEntity, entityParams, boostPure, hp, hsv, Bind.bind, Except.bind,
            getD, pyToNum, numOfOpt]
      | null => simp [numValOK, hsv] at hs
      | str s => simp [numValOK, hsv] at hs
      | arr xs => simp [numValOK, hsv] at hs
      | obj fs2 => simp [numValOK, hsv] at hs

theorem slowEntity_eq_pure (e : JVal) (h : entityOKb e = true) :
    slowEntity e = .ok (slowPure e) := by
  obtain ⟨fs, rfl, hc⟩ := entityOKb_elim e h
  rcases hc with hp | ⟨ps, hp, hs⟩
  · simp [slowEntity, entityParams, slowPure, hp, Bind.bind, Except.bind, getD,
      lookupF, pyToNum, numOfOpt]
  · cases hsv : lookupF ps "speed" with
    | none =>
      simp [slowEntity, entityParams, slowPure, hp, hsv, Bind.bind, Except.bind,
        getD, pyToNum, numOfOpt]
    | some w =>
      cases w with
      | num q =>
        simp [slowEntity, entityParams, slowPure, hp, hsv, Bind.bind, Except.bind,
          getD, pyToNum, numOfOpt]
      | bool b =>
        cases b <;>
          simp [slowEntity, entityParams, slowPure, hp, hsv, Bind.bind, Except.bind,
            getD, pyToNum, numOfOpt]
      | null => simp [numValOK, hsv] at hs
      | str s => simp [numValOK, hsv] at hs
      | arr xs => simp [numValOK, hsv] at hs
      | obj fs2 => simp [numValOK, hsv] at hs

theorem entityOKb_boostPure (e : JVal) (h : entityOKb e = true) :
    entityOKb (boostPure e) = true := by
  obtain ⟨fs, rfl, hc⟩ := entityOKb_elim e h
  have hne : "speed" = "speed" := rfl
  rcases hc with hp | ⟨ps, hp, hs⟩
  · simp [boostPure, hp, entityOKb, lookupF_dset_self, dset, lookupF, numValOK]
  · simp [boostPure, hp, entityOKb, lookupF_dset_self, numValOK]

theorem entityOKb_slowPure (e : JVal) (h : entityOKb e = true) :
    entityOKb (slowPure e) = true := by
  obtain ⟨fs, rfl, hc⟩ := entityOKb_elim e h
  rcases hc with hp | ⟨ps, hp, hs⟩
  · simp [slowPure, hp, entityOKb, lookupF_dset_self, dset, lookupF, numValOK]
  · simp [slowPure, hp, entityOKb, lookupF_dset_self, numValOK]

theorem paramSpeed_boostPure (e : JVal) (h : entityOKb e = true) :
    paramSpeed (boostPure e) =
      some (.num (min 10 (numOfOpt 1 (paramSpeed e) * (3/2)))) := by
  obtain ⟨fs, rfl, hc⟩ := entityOKb_elim e h
  rcases hc with hp | ⟨ps, hp, hs⟩
  · simp [boostPure, hp, paramSpeed, paramOf, lookupF_dset_self, dset, lookupF, numOfOpt]
  · simp [boostPure, hp, paramSpeed, paramOf, lookupF_dset_self]

theorem paramSpeed_slowPure (e : JVal) (h : entityOKb e = true) :
    paramSpeed (slowPure e) =
      some (.num (max (1/100) (numOfOpt 1 (paramSpeed e) * (7/10)))) := by
  obtain ⟨fs, rfl, hc⟩ := entityOKb_elim e h
  rcases hc with hp | ⟨ps, hp, hs⟩
  · simp [slowPure, hp, paramSpeed, paramOf, lookupF_dset_self, dset, lookupF, numOfOpt]
  · simp [slowPure, hp, paramSpeed, paramOf, lookupF_dset_self]

theorem paramColor_boostPure (e : JVal) :
    paramColor (boostPure e) = paramColor e := by
  cases e with
  | obj fs =>
    cases hp : lookupF fs "params" with
    | none =>
      simp [boostPure, hp, paramColor, paramOf, lookupF_dset_self, dset, lookupF]
    | some w =>
      cases w with
      | obj ps =>
        have hne : "color" ≠ "speed" := by decide
        simp [boostPure, hp, paramColor, paramOf, lookupF_dset_self,
          lookupF_dset_ne ps "speed" "color" _ hne]
      | null => simp [boostPure, hp]
      | bool b => simp [boostPure, hp]
      | num q => simp [boostPure, hp]
      | str s => simp [boostPure, hp]
      | arr xs => simp [boostPure, hp]
  | null => rfl
  | bool b => rfl
  | num q => rfl
  | str s => rfl
  | arr xs => rfl

/-! ## Stage lemmas: entities / sky updates -/

theorem mapME_eq_map (f : JVal → Except String JVal) (g : JVal → JVal)
    (xs : List JVal) (h : ∀ x ∈ xs, f x = .ok (g x)) :
    mapME f xs = .ok (xs.map g) := by
  induction xs with
  | nil => simp [mapME]
  | cons x rest ih =>
    have hx := h x (by simp)
    have hr := ih (fun y hy => h y (by simp [hy]))
    simp [mapME, hx, hr, Bind.bind, Except.bind]

/-- Shape of the entities key under entitiesOKb. -/
theorem entitiesOKb_elim (d : Doc) (h : entitiesOKb d = true) :
    lookupF d "entities" = none ∨
    ∃ es, lookupF d "entities" = some (.arr es) ∧ ∀ e ∈ es, entityOKb e = true := by
  cases he : lookupF d "entities" with
  | none => exact Or.inl rfl
  | some w =>
    cases w with
    | arr es =>
      refine Or.inr ⟨es, rfl, ?_⟩
      have := h
      simp [entitiesOKb, he, List.all_eq_true] at this
      exact this
    | null => simp [entitiesOKb, he] at h
    | bool b => simp [entitiesOKb, he] at h
    | num q => simp [entitiesOKb, he] at h
    | str s => simp [entitiesOKb, he] at h
    | obj fs => simp [entitiesOKb, he] at h

theorem updateEntities_eq_pure (f : JVal → Except String JVal) (g : JVal → JVal)
    (d : Doc)
    (hsh : lookupF d "entities" = none ∨
           ∃ es, lookupF d "entities" = some (.arr es) ∧ ∀ e ∈ es, entityOKb e = true)
    (hfg : ∀ e ∈ entitiesOf d, f e = .ok (g e)) :
    updateEntities f d = .ok (entitiesMapPure g d) := by
  rcases hsh with he | ⟨es, he, _hok⟩
  · simp [updateEntities, entitiesMapPure, he]
  · have hmap : mapME f es = .ok (es.map g) := by
      apply mapME_eq_map
      intro x hx
      apply hfg
      simp [entitiesOf, he, hx]
    simp [updateEntities, entitiesMapPure, he, hmap, Bind.bind, Except.bind]

theorem updateSky_eq_pure (d : Doc) (v : String)
    (henv : optObjOK (lookupF d "environment") = true) :
    updateSky d v = .ok (skyPure v d) := by
  cases he : lookupF d "environment" with
  | none =>
    simp [updateSky, skyPure, getD, he, truthy]
  | some w =>
    cases w with
    | obj ps =>
      by_cases ht : truthy (.obj ps)
      · simp [updateSky, skyPure, getD, he, ht]
      · simp [updateSky, skyPure, getD, he, ht]
    | null => simp [optObjOK, he] at henv
    | bool b => simp [optObjOK, he] at henv
    | num q => simp [optObjOK, he] at henv
    | str s => simp [optObjOK, he] at henv
    | arr xs => simp [optObjOK, he] at henv

/-! ## Doc-level preservation lemmas -/

theorem lookupF_entitiesMapPure_ne (g : JVal → JVal) (d : Doc) (k : String)
    (hk : k ≠ "entities") :
    lookupF (entitiesMapPure g d) k = lookupF d k := by
  unfold entitiesMapPure
  cases he : lookupF d "entities" with
  | none => rfl
  | some w =>
    cases w with
    | arr es => exact lookupF_dset_ne d "entities" k _ hk
    | null => rfl
    | bool b => rfl
    | num q => rfl
    | str s => rfl
    | obj fs => rfl

theorem lookupF_skyPure_ne (v : String) (d : Doc) (k : String)
    (hk : k ≠ "environment") :
    lookupF (skyPure v d) k = lookupF d k := by
  unfold skyPure
  by_cases ht : truthy (getD d "environment" .null)
  · simp only [ht, if_true]
    cases he : lookupF d "environment" with
    | none => rfl
    | some w =>
      cases w with
      | obj ps => exact lookupF_dset_ne d "environment" k _ hk
      | null => rfl
      | bool b => rfl
      | num q => rfl
      | str s => rfl
      | arr xs => rfl
  · simp [ht]

theorem lookupF_colorApplyPure_ne (v : String) (d : Doc) (k : String)
    (hk1 : k ≠ "entities") (hk2 : k ≠ "environment") :
    lookupF (colorApplyPure v d) k = lookupF d k := by
  unfold colorApplyPure
  rw [lookupF_skyPure_ne _ _ _ hk2, lookupF_entitiesMapPure_ne _ _ _ hk1]

theorem entitiesOf_skyPure (v : String) (d : Doc) :
    entitiesOf (skyPure v d) = entitiesOf d := by
  unfold entitiesOf
  rw [lookupF_skyPure_ne _ _ _ (by decide)]

theorem entitiesOf_entitiesMapPure (g : JVal → JVal) (d : Doc) :
    entitiesOf (entitiesMapPure g d) = (entitiesOf d).map g := by
  unfold entitiesOf entitiesMapPure
  cases he : lookupF d "entities" with
  | none => simp [he]
  | some w =>
    cases w with
    | arr es => simp [he, lookupF_dset_self]
    | null => simp [he]
    | bool b => simp [he]
    | num q => simp [he]
    | str s => simp [he]
    | obj fs => simp [he]

theorem entitiesOf_colorApplyPure (v : String) (d : Doc) :
    entitiesOf (colorApplyPure v d) = (entitiesOf d).map (setColorPure v) := by
  unfold colorApplyPure
  rw [entitiesOf_skyPure, entitiesOf_entitiesMapPure]

theorem lookupF_entitiesMapPure_entities (g : JVal → JVal) (d : Doc) :
    lookupF (entitiesMapPure g d) "entities" =
      (match lookupF d "entities" with
       | some (.arr es) => some (.arr (es.map g))
       | x => x) := by
  unfold entitiesMapPure
  cases he : lookupF d "entities" with
  | none => simp [he]
  | some w =>
    cases w with
    | arr es => simp [he, lookupF_dset_self]
    | null => simp [he]
    | bool b => simp [he]
    | num q => simp [he]
    | str s => simp [he]
    | obj fs => simp [he]

theorem lookupF_skyPure_env (v : String) (d : Doc) :
    lookupF (skyPure v d) "environment" = skyStep v (lookupF d "environment") := by
  unfold skyPure skyStep
  cases he : lookupF d "environment" with
  | none => simp [getD, he, truthy]
  | some w =>
    cases w with
    | obj ps =>
      by_cases hemp : ps.isEmpty
      · have : truthy (.obj ps) = false := by simp [truthy, hemp]
        simp [getD, he, this, hemp]
      · have : truthy (.obj ps) = true := by simp [truthy, hemp]
        simp [getD, he, this, hemp, lookupF_dset_self]
    | null => simp [getD, he, truthy]
    | bool b => cases b <;> simp [getD, he, truthy]
    | num q =>
      by_cases hq : q = 0
      · simp [getD, he, truthy, hq]
      · simp [getD, he, truthy, hq]
    | str s =>
      by_cases hs : s.isEmpty
      · simp [getD, he, truthy, hs]
      · simp [getD, he, truthy, hs]
    | arr xs =>
      by_cases hx : xs.isEmpty
      · simp [getD, he, truthy, hx]
      · simp [getD, he, truthy, hx]

theorem lookupF_colorApplyPure_env (v : String) (d : Doc) :
    lookupF (colorApplyPure v d) "environment" =
      skyStep v (lookupF d "environment") := by
  unfold colorApplyPure
  rw [lookupF_skyPure_env, lookupF_entitiesMapPure_ne _ _ _ (by decide)]

theorem optObjOK_skyStep (v : String) (x : Option JVal)
    (h : optObjOK x = true) : optObjOK (skyStep v x) = true := by
  cases x with
  | none => simpa [skyStep] using h
  | some w =>
    cases w with
    | obj ps =>
      by_cases hemp : ps.isEmpty
      · simp [skyStep, hemp, optObjOK]
      · simp [skyStep, hemp, optObjOK]
    | null => simp [optObjOK] at h
    | bool b => simp [optObjOK] at h
    | num q => simp [optObjOK] at h
    | str s => simp [optObjOK] at h
    | arr xs => simp [optObjOK] at h

theorem safeDocB_components (d : Doc) (h : safeDocB d = true) :
    optArrOK (lookupF d "assumptions") = true ∧
    optArrOK (lookupF d "patchHistory") = true ∧
    optArrOK (lookupF d "structures") = true ∧
    optObjOK (lookupF d "environment") = true ∧
    entitiesOKb d = true := by
  simp only [safeDocB, Bool.and_eq_true] at h
  tauto

theorem safeDocB_intro (d : Doc)
    (h1 : optArrOK (lookupF d "assumptions") = true)
    (h2 : optArrOK (lookupF d "patchHistory") = true)
    (h3 : optArrOK (lookupF d "structures") = true)
    (h4 : optObjOK (lookupF d "environment") = true)
    (h5 : entitiesOKb d = true) : safeDocB d = true := by
  simp [safeDocB, h1, h2, h3, h4, h5]

theorem entitiesOKb_of_lookup (d : Doc) (es : List JVal)
    (he : lookupF d "entities" = some (.arr es))
    (hall : ∀ e ∈ es, entityOKb e = true) : entitiesOKb d = true := by
  simp [entitiesOKb, he, List.all_eq_true]
  exact hall

theorem safeDocB_colorApplyPure (v : String) (d : Doc) (h : safeDocB d = true) :
    safeDocB (colorApplyPure v d) = true := by
  obtain ⟨h1, h2, h3, h4, h5⟩ := safeDocB_components d h
  apply safeDocB_intro
  · rw [lookupF_colorApplyPure_ne _ _ _ (by decide) (by decide)]; exact h1
  · rw [lookupF_colorApplyPure_ne _ _ _ (by decide) (by decide)]; exact h2
  · rw [lookupF_colorApplyPure_ne _ _ _ (by decide) (by decide)]; exact h3
  · rw [lookupF_colorApplyPure_env]; exact optObjOK_skyStep _ _ h4
  · unfold colorApplyPure
    have hsky : lookupF (skyPure v (entitiesMapPure (setColorPure v) d)) "entities" =
        lookupF (entitiesMapPure (setColorPure v) d) "entities" :=
      lookupF_skyPure_ne _ _ _ (by decide)
    rcases entitiesOKb_elim d h5 with he | ⟨es, he, hall⟩
    · unfold entitiesOKb
      rw [hsky, lookupF_entitiesMapPure_entities, he]
    · unfold entitiesOKb
      rw [hsky, lookupF_entitiesMapPure_entities, he]
      simp [List.all_eq_true]
      intro e hing
      exact entityOKb_setColorPure v e (hall e hing)

theorem entitiesOf_all_OK (d : Doc) (h : entitiesOKb d = true) :
    ∀ e ∈ entitiesOf d, entityOKb e = true := by
  rcases entitiesOKb_elim d h with he | ⟨es, he, hall⟩
  · simp [entitiesOf, he]
  · simpa [entitiesOf, he] using hall

theorem colorStepG_eq_pure (lab : String → String) (edit : String)
    (d : Doc) (ap : List String) (kv : String × String) (h : safeDocB d = true) :
    colorStepG lab edit (d, ap) kv =
      .ok (if substrB kv.1 edit then (colorApplyPure kv.2 d, ap ++ [lab kv.1])
           else (d, ap)) := by
  obtain ⟨h1, h2, h3, h4, h5⟩ := safeDocB_components d h
  unfold colorStepG
  by_cases hm : substrB kv.1 edit
  · have hupd : updateEntities (setEntityColor kv.2) d =
        .ok (entitiesMapPure (setColorPure kv.2) d) := by
      apply updateEntities_eq_pure
      · exact entitiesOKb_elim d h5
      · intro e hin
        exact setEntityColor_eq_pure kv.2 e (entitiesOf_all_OK d h5 e hin)
    have henv2 : optObjOK (lookupF (entitiesMapPure (setColorPure kv.2) d)
        "environment") = true := by
      rw [lookupF_entitiesMapPure_ne _ _ _ (by decide)]; exact h4
    have hsky : updateSky (entitiesMapPure (setColorPure kv.2) d) kv.2 =
        .ok (skyPure kv.2 (entitiesMapPure (setColorPure kv.2) d)) :=
      updateSky_eq_pure _ _ henv2
    simp [hm, hupd, hsky, Bind.bind, Except.bind, colorApplyPure]
  · simp [hm]

theorem colorsFoldPure_cons (kv : String × String) (tbl : List (String × String))
    (edit : String) (d : Doc) :
    colorsFoldPure (kv :: tbl) edit d =
      colorsFoldPure tbl edit (if substrB kv.1 edit then colorApplyPure kv.2 d else d) := by
  simp [colorsFoldPure]

theorem safeDocB_colorsFoldPure (tbl : List (String × String)) (edit : String) :
    ∀ d, safeDocB d = true → safeDocB (colorsFoldPure tbl edit d) = true := by
  induction tbl with
  | nil => intro d h; simpa [colorsFoldPure] using h
  | cons kv tbl ih =>
    intro d h
    rw [colorsFoldPure_cons]
    by_cases hm : substrB kv.1 edit
    · simp only [hm, if_true]
      exact ih _ (safeDocB_colorApplyPure kv.2 d h)
    · simp only [hm, if_false]
      exact ih _ h

theorem colorsFold_eq_pure (lab : String → String) (edit : String)
    (tbl : List (String × String)) :
    ∀ d ap, safeDocB d = true →
      List.foldlM (colorStepG lab edit) (d, ap) tbl =
        .ok (colorsFoldPure tbl edit d,
             ap ++ (tbl.filter (fun kv => substrB kv.1 edit)).map (fun kv => lab kv.1)) := by
  induction tbl with
  | nil =>
    intro d ap h
    simp [colorsFoldPure, List.foldlM, pure, Except.pure]
  | cons kv tbl ih =>
    intro d ap h
    rw [List.foldlM_cons, colorStepG_eq_pure lab edit d ap kv h]
    by_cases hm : substrB kv.1 edit
    · rw [if_pos hm]
      simp only [Bind.bind, Except.bind]
      rw [ih _ _ (safeDocB_colorApplyPure kv.2 d h), colorsFoldPure_cons, if_pos hm]
      simp [List.filter_cons, hm]
    · rw [if_neg hm]
      simp only [Bind.bind, Except.bind]
      rw [ih _ _ h, colorsFoldPure_cons, if_neg hm]
      simp [List.filter_cons, hm]

theorem lookupF_colorsFoldPure_ne (edit : String) (tbl : List (String × String))
    (k : String) (hk1 : k ≠ "entities") (hk2 : k ≠ "environment") :
    ∀ d, lookupF (colorsFoldPure tbl edit d) k = lookupF d k := by
  induction tbl with
  | nil => intro d; simp [colorsFoldPure]
  | cons kv tbl ih =>
    intro d
    rw [colorsFoldPure_cons]
    by_cases hm : substrB kv.1 edit
    · simp only [hm, if_true]
      rw [ih, lookupF_colorApplyPure_ne _ _ _ hk1 hk2]
    · simp only [hm, if_false]
      exact ih d

theorem entitiesOf_colorsFoldPure (edit : String) (tbl : List (String × String)) :
    ∀ d, entitiesOf (colorsFoldPure tbl edit d) =
      (entitiesOf d).map (colorsEntityFold tbl edit) := by
  induction tbl with
  | nil =>
    intro d
    have hid : ∀ e, colorsEntityFold [] edit e = e := by
      intro e; simp [colorsEntityFold]
    simp only [colorsFoldPure, List.foldl_nil]
    rw [funext hid]
    simp
  | cons kv tbl ih =>
    intro d
    rw [colorsFoldPure_cons]
    by_cases hm : substrB kv.1 edit
    · simp only [hm, if_true]
      rw [ih, entitiesOf_colorApplyPure, List.map_map]
      apply List.map_congr_left
      intro e _
      simp [colorsEntityFold, List.filter_cons, hm]
    · simp only [hm, if_false]
      rw [ih]
      apply List.map_congr_left
      intro e _
      simp [colorsEntityFold, List.filter_cons, hm]

theorem lookupF_colorsFoldPure_env (edit : String) (tbl : List (String × String)) :
    ∀ d, lookupF (colorsFoldPure tbl edit d) "environment" =
      skyFold tbl edit (lookupF d "environment") := by
  induction tbl with
  | nil => intro d; simp [colorsFoldPure, skyFold]
  | cons kv tbl ih =>
    intro d
    rw [colorsFoldPure_cons]
    by_cases hm : substrB kv.1 edit
    · simp only [hm, if_true]
      rw [ih, lookupF_colorApplyPure_env]
      simp [skyFold, List.filter_cons, hm]
    · simp only [hm, if_false]
      rw [ih]
      simp [skyFold, List.filter_cons, hm]

/-! ## Append-stage lemmas -/

theorem setdefaultAppend_eq_pure (d : Doc) (k : String) (x : JVal)
    (h : optArrOK (lookupF d k) = true) :
    setdefaultAppend d k x = .ok (sdAppendPure d k x) := by
  cases hk : lookupF d k with
  | none => simp [setdefaultAppend, sdAppendPure, hk]
  | some w =>
    cases w with
    | arr xs => simp [setdefaultAppend, sdAppendPure, hk]
    | null => simp [optArrOK, hk] at h
    | bool b => simp [optArrOK, hk] at h
    | num q => simp [optArrOK, hk] at h
    | str s => simp [optArrOK, hk] at h
    | obj fs => simp [optArrOK, hk] at h

theorem appendAtKey_eq_pure (d : Doc) (k : String) (x : JVal) (xs : List JVal)
    (h : lookupF d k = some (.arr xs)) :
    appendAtKey d k x = .ok (appendArrPure d k x) := by
  simp [appendAtKey, appendArrPure, h]

theorem lookupF_sdAppendPure_ne (d : Doc) (k k2 : String) (x : JVal) (h : k2 ≠ k) :
    lookupF (sdAppendPure d k x) k2 = lookupF d k2 := by
  unfold sdAppendPure
  cases hk : lookupF d k with
  | none => exact lookupF_append_ne d k k2 _ h
  | some w =>
    cases w with
    | arr xs => exact lookupF_dset_ne d k k2 _ h
    | null => rfl
    | bool b => rfl
    | num q => rfl
    | str s => rfl
    | obj fs => rfl

theorem lookupF_sdAppendPure_self (d : Doc) (k : String) (x : JVal)
    (h : optArrOK (lookupF d k) = true) :
    lookupF (sdAppendPure d k x) k = some (.arr (arrAt d k ++ [x])) := by
  cases hk : lookupF d k with
  | none =>
    simp [sdAppendPure, hk, arrAt, lookupF_append_self d k _ hk]
  | some w =>
    cases w with
    | arr xs => simp [sdAppendPure, hk, arrAt, lookupF_dset_self]
    | null => simp [optArrOK, hk] at h
    | bool b => simp [optArrOK, hk] at h
    | num q => simp [optArrOK, hk] at h
    | str s => simp [optArrOK, hk] at h
    | obj fs => simp [optArrOK, hk] at h

theorem lookupF_appendArrPure_ne (d : Doc) (k k2 : String) (x : JVal) (h : k2 ≠ k) :
    lookupF (appendArrPure d k x) k2 = lookupF d k2 := by
  unfold appendArrPure
  cases hk : lookupF d k with
  | none => rfl
  | some w =>
    cases w with
    | arr xs => exact lookupF_dset_ne d k k2 _ h
    | null => rfl
    | bool b => rfl
    | num q => rfl
    | str s => rfl
    | obj fs => rfl

theorem lookupF_appendArrPure_self (d : Doc) (k : String) (x : JVal) (xs : List JVal)
    (h : lookupF d k = some (.arr xs)) :
    lookupF (appendArrPure d k x) k = some (.arr (xs ++ [x])) := by
  simp [appendArrPure, h, lookupF_dset_self]

theorem entitiesOKb_congr (d1 d2 : Doc)
    (h : lookupF d1 "entities" = lookupF d2 "entities") :
    entitiesOKb d1 = entitiesOKb d2 := by
  unfold entitiesOKb
  rw [h]

theorem entitiesOf_congr (d1 d2 : Doc)
    (h : lookupF d1 "entities" = lookupF d2 "entities") :
    entitiesOf d1 = entitiesOf d2 := by
  unfold entitiesOf
  rw [h]

/-! ## safe_patch core: equivalence with the pure model -/

theorem lookupF_setdefaultD_assum (d : Doc)
    (h : optArrOK (lookupF d "assumptions") = true) :
    lookupF (setdefaultD d "assumptions" (.arr [])) "assumptions" =
      some (.arr (assumArr d)) := by
  cases hk : lookupF d "assumptions" with
  | none =>
    rw [lookupF_setdefaultD_absent d _ _ hk]
    simp [assumArr, hk]
  | some w =>
    cases w with
    | arr xs =>
      rw [lookupF_setdefaultD_present d _ _ _ hk]
      simp [assumArr, hk]
    | null => simp [optArrOK, hk] at h
    | bool b => simp [optArrOK, hk] at h
    | num q => simp [optArrOK, hk] at h
    | str s => simp [optArrOK, hk] at h
    | obj fs => simp [optArrOK, hk] at h

theorem safeDocB_setdefaultD_assum (d : Doc) (h : safeDocB d = true) :
    safeDocB (setdefaultD d "assumptions" (.arr [])) = true := by
  obtain ⟨h1, h2, h3, h4, h5⟩ := safeDocB_components d h
  apply safeDocB_intro
  · rw [lookupF_setdefaultD_assum d h1]
    simp [optArrOK]
  · rw [lookupF_setdefaultD_ne d _ _ _ (by decide)]; exact h2
  · rw [lookupF_setdefaultD_ne d _ _ _ (by decide)]; exact h3
  · rw [lookupF_setdefaultD_ne d _ _ _ (by decide)]; exact h4
  · rw [entitiesOKb_congr _ d (lookupF_setdefaultD_ne d _ _ _ (by decide))]
    exact h5

theorem safe_patch_core_eq_pure (d : Doc) (e : String) (now : ℕ)
    (h : safeDocB d = true) :
    safe_patch_core d e now = .ok (spCorePure d e now, appliedSafe (pyLower e)) := by
  have h0 : safeDocB (setdefaultD d "assumptions" (.arr [])) = true :=
    safeDocB_setdefaultD_assum d h
  set edit := pyLower e with hedit
  set d0 := setdefaultD d "assumptions" (.arr []) with hd0
  have hfold := colorsFold_eq_pure safeColorLabel edit colorTable d0 [] h0
  set d1 := colorsFoldPure colorTable edit d0 with hd1
  have h1 : safeDocB d1 = true := safeDocB_colorsFoldPure colorTable edit d0 h0
  obtain ⟨h1a, h1h, h1s, h1e, h1n⟩ := safeDocB_components d1 h1
  by_cases hI : islandCond edit
  · have hsd : setdefaultAppend d1 "structures" (islandObjSafe now) =
        .ok (sdAppendPure d1 "structures" (islandObjSafe now)) :=
      setdefaultAppend_eq_pure d1 _ _ h1s
    set d2 := sdAppendPure d1 "structures" (islandObjSafe now) with hd2
    have h2n : entitiesOKb d2 = true := by
      rw [entitiesOKb_congr d2 d1 (lookupF_sdAppendPure_ne d1 _ _ _ (by decide))]
      exact h1n
    by_cases hF : fasterCond edit
    · have hupd : updateEntities boostEntity d2 = .ok (entitiesMapPure boostPure d2) := by
        apply updateEntities_eq_pure _ _ _ (entitiesOKb_elim d2 h2n)
        intro x hx
        exact boostEntity_eq_pure x (entitiesOf_all_OK d2 h2n x hx)
      simp only [safe_patch_core, spCorePure, appliedSafe, ← hedit, ← hd0, Bind.bind,
        Except.bind, hfold, ← hd1, hI, hF, if_true, hsd, ← hd2, hupd, safeColorLabel]
      simp
    · simp only [safe_patch_core, spCorePure, appliedSafe, ← hedit, ← hd0, Bind.bind,
        Except.bind, hfold, ← hd1, hI, hF, if_true, if_false, hsd, ← hd2, safeColorLabel]
      simp
  · by_cases hF : fasterCond edit
    · have hupd : updateEntities boostEntity d1 = .ok (entitiesMapPure boostPure d1) := by
        apply updateEntities_eq_pure _ _ _ (entitiesOKb_elim d1 h1n)
        intro x hx
        exact boostEntity_eq_pure x (entitiesOf_all_OK d1 h1n x hx)
      simp only [safe_patch_core, spCorePure, appliedSafe, ← hedit, ← hd0, Bind.bind,
        Except.bind, hfold, ← hd1, hI, hF, if_true, if_false, hupd, safeColorLabel]
      simp
    · simp only [safe_patch_core, spCorePure, appliedSafe, ← hedit, ← hd0, Bind.bind,
        Except.bind, hfold, ← hd1, hI, hF, if_false, safeColorLabel]
      simp

/-! ## spCorePure projections -/

theorem lookupF_spCorePure_ne (d : Doc) (e : String) (now : ℕ) (k : String)
    (hk1 : k ≠ "entities") (hk2 : k ≠ "environment") (hk3 : k ≠ "structures")
    (hk4 : k ≠ "assumptions") :
    lookupF (spCorePure d e now) k = lookupF d k := by
  unfold spCorePure
  set edit := pyLower e
  set d0 := setdefaultD d "assumptions" (.arr [])
  set d1 := colorsFoldPure colorTable edit d0 with hd1
  have e1 : lookupF d1 k = lookupF d k := by
    rw [hd1, lookupF_colorsFoldPure_ne edit colorTable k hk1 hk2,
      lookupF_setdefaultD_ne d _ _ _ hk4]
  by_cases hI : islandCond edit <;> by_cases hF : fasterCond edit
  · rw [if_pos hF, if_pos hI, lookupF_entitiesMapPure_ne _ _ _ hk1,
      lookupF_sdAppendPure_ne _ _ _ _ hk3]
    exact e1
  · rw [if_neg hF, if_pos hI, lookupF_sdAppendPure_ne _ _ _ _ hk3]
    exact e1
  · rw [if_pos hF, if_neg hI, lookupF_entitiesMapPure_ne _ _ _ hk1]
    exact e1
  · rw [if_neg hF, if_neg hI]
    exact e1

theorem lookupF_spCorePure_assum (d : Doc) (e : String) (now : ℕ)
    (h : optArrOK (lookupF d "assumptions") = true) :
    lookupF (spCorePure d e now) "assumptions" = some (.arr (assumArr d)) := by
  unfold spCorePure
  set edit := pyLower e
  set d0 := setdefaultD d "assumptions" (.arr []) with hd0
  set d1 := colorsFoldPure colorTable edit d0 with hd1
  have e1 : lookupF d1 "assumptions" = some (.arr (assumArr d)) := by
    rw [hd1, lookupF_colorsFoldPure_ne edit colorTable _ (by decide) (by decide), hd0,
      lookupF_setdefaultD_assum d h]
  by_cases hI : islandCond edit <;> by_cases hF : fasterCond edit
  · rw [if_pos hF, if_pos hI, lookupF_entitiesMapPure_ne _ _ _ (by decide),
      lookupF_sdAppendPure_ne _ _ _ _ (by decide)]
    exact e1
  · rw [if_neg hF, if_pos hI, lookupF_sdAppendPure_ne _ _ _ _ (by decide)]
    exact e1
  · rw [if_pos hF, if_neg hI, lookupF_entitiesMapPure_ne _ _ _ (by decide)]
    exact e1
  · rw [if_neg hF, if_neg hI]
    exact e1

theorem lookupF_spCorePure_env (d : Doc) (e : String) (now : ℕ) :
    lookupF (spCorePure d e now) "environment" =
      skyFold colorTable (pyLower e) (lookupF d "environment") := by
  unfold spCorePure
  set edit := pyLower e
  set d0 := setdefaultD d "assumptions" (.arr []) with hd0
  set d1 := colorsFoldPure colorTable edit d0 with hd1
  have e1 : lookupF d1 "environment" = skyFold colorTable edit (lookupF d "environment") := by
    rw [hd1, lookupF_colorsFoldPure_env edit colorTable, hd0,
      lookupF_setdefaultD_ne d _ _ _ (by decide)]
  by_cases hI : islandCond edit <;> by_cases hF : fasterCond edit
  · rw [if_pos hF, if_pos hI, lookupF_entitiesMapPure_ne _ _ _ (by decide),
      lookupF_sdAppendPure_ne _ _ _ _ (by decide)]
    exact e1
  · rw [if_neg hF, if_pos hI, lookupF_sdAppendPure_ne _ _ _ _ (by decide)]
    exact e1
  · rw [if_pos hF, if_neg hI, lookupF_entitiesMapPure_ne _ _ _ (by decide)]
    exact e1
  · rw [if_neg hF, if_neg hI]
    exact e1

theorem entitiesOf_spCorePure (d : Doc) (e : String) (now : ℕ) :
    entitiesOf (spCorePure d e now) =
      (entitiesOf d).map (spEntityPure (pyLower e)) := by
  unfold spCorePure
  set edit := pyLower e
  set d0 := setdefaultD d "assumptions" (.arr []) with hd0
  set d1 := colorsFoldPure colorTable edit d0 with hd1
  have e1 : entitiesOf d1 = (entitiesOf d).map (colorsEntityFold colorTable edit) := by
    rw [hd1, entitiesOf_colorsFoldPure]
    congr 1
    apply entitiesOf_congr
    rw [hd0, lookupF_setdefaultD_ne d _ _ _ (by decide)]
  by_cases hI : islandCond edit <;> by_cases hF : fasterCond edit
  · rw [if_pos hF, if_pos hI, entitiesOf_entitiesMapPure,
      entitiesOf_congr _ d1 (lookupF_sdAppendPure_ne _ _ _ _ (by decide)), e1,
      List.map_map]
    apply List.map_congr_left
    intro x _
    simp [spEntityPure, hF, Function.comp]
  · rw [if_neg hF, if_pos hI,
      entitiesOf_congr _ d1 (lookupF_sdAppendPure_ne _ _ _ _ (by decide)), e1]
    apply List.map_congr_left
    intro x _
    simp [spEntityPure, hF]
  · rw [if_pos hF, if_neg hI, entitiesOf_entitiesMapPure, e1, List.map_map]
    apply List.map_congr_left
    intro x _
    simp [spEntityPure, hF, Function.comp]
  · rw [if_neg hF, if_neg hI, e1]
    apply List.map_congr_left
    intro x _
    simp [spEntityPure, hF]

theorem lookupF_spCorePure_structures (d : Doc) (e : String) (now : ℕ)
    (h : optArrOK (lookupF d "structures") = true) :
    lookupF (spCorePure d e now) "structures" =
      (if islandCond (pyLower e)
       then some (.arr (arrAt d "structures" ++ [islandObjSafe now]))
       else lookupF d "structures") := by
  unfold spCorePure
  set edit := pyLower e
  set d0 := setdefaultD d "assumptions" (.arr []) with hd0
  set d1 := colorsFoldPure colorTable edit d0 with hd1
  have e1 : lookupF d1 "structures" = lookupF d "structures" := by
    rw [hd1, lookupF_colorsFoldPure_ne edit colorTable _ (by decide) (by decide), hd0,
      lookupF_setdefaultD_ne d _ _ _ (by decide)]
  have e2 : arrAt d1 "structures" = arrAt d "structures" := by
    unfold arrAt
    rw [e1]
  have h1 : optArrOK (lookupF d1 "structures") = true := by rw [e1]; exact h
  by_cases hI : islandCond edit <;> by_cases hF : fasterCond edit
  · rw [if_pos hF, if_pos hI, if_pos hI, lookupF_entitiesMapPure_ne _ _ _ (by decide),
      lookupF_sdAppendPure_self _ _ _ h1, e2]
  · rw [if_neg hF, if_pos hI, if_pos hI, lookupF_sdAppendPure_self _ _ _ h1, e2]
  · rw [if_pos hF, if_neg hI, if_neg hI, lookupF_entitiesMapPure_ne _ _ _ (by decide)]
    exact e1
  · rw [if_neg hF, if_neg hI, if_neg hI]
    exact e1

theorem entityOKb_colorsEntityFold (tbl : List (String × String)) (edit : String) :
    ∀ e, entityOKb e = true → entityOKb (colorsEntityFold tbl edit e) = true := by
  unfold colorsEntityFold
  generalize tbl.filter (fun kv => substrB kv.1 edit) = L
  induction L with
  | nil => intro e he; simpa using he
  | cons kv L ih =>
    intro e he
    simp only [List.foldl_cons]
    exact ih _ (entityOKb_setColorPure kv.2 e he)

theorem paramSpeed_colorsEntityFold (tbl : List (String × String)) (edit : String) :
    ∀ e, paramSpeed (colorsEntityFold tbl edit e) = paramSpeed e := by
  unfold colorsEntityFold
  generalize tbl.filter (fun kv => substrB kv.1 edit) = L
  induction L with
  | nil => intro e; simp
  | cons kv L ih =>
    intro e
    simp only [List.foldl_cons]
    rw [ih, paramSpeed_setColorPure]

theorem paramGlow_colorsEntityFold (tbl : List (String × String)) (edit : String) :
    ∀ e, paramGlow (colorsEntityFold tbl edit e) = paramGlow e := by
  unfold colorsEntityFold
  generalize tbl.filter (fun kv => substrB kv.1 edit) = L
  induction L with
  | nil => intro e; simp
  | cons kv L ih =>
    intro e
    simp only [List.foldl_cons]
    rw [ih, paramGlow_setColorPure]

theorem optObjOK_skyFold (tbl : List (String × String)) (edit : String) :
    ∀ x, optObjOK x = true → optObjOK (skyFold tbl edit x) = true := by
  unfold skyFold
  generalize tbl.filter (fun kv => substrB kv.1 edit) = L
  induction L with
  | nil => intro x hx; simpa using hx
  | cons kv L ih =>
    intro x hx
    simp only [List.foldl_cons]
    exact ih _ (optObjOK_skyStep kv.2 x hx)

theorem lookupF_colorApplyPure_entities (v : String) (d : Doc) :
    lookupF (colorApplyPure v d) "entities" =
      (match lookupF d "entities" with
       | some (.arr es) => some (.arr (es.map (setColorPure v)))
       | x => x) := by
  unfold colorApplyPure
  rw [lookupF_skyPure_ne _ _ _ (by decide), lookupF_entitiesMapPure_entities]

theorem lookupF_colorsFoldPure_entities (edit : String) (tbl : List (String × String)) :
    ∀ d, lookupF (colorsFoldPure tbl edit d) "entities" =
      (match lookupF d "entities" with
       | some (.arr es) => some (.arr (es.map (colorsEntityFold tbl edit)))
       | x => x) := by
  induction tbl with
  | nil =>
    intro d
    have hid : ∀ e, colorsEntityFold [] edit e = e := by
      intro e; simp [colorsEntityFold]
    simp only [colorsFoldPure, List.foldl_nil, funext hid]
    cases hx : lookupF d "entities" with
    | none => simp
    | some w => cases w <;> simp
  | cons kv tbl ih =>
    intro d
    rw [colorsFoldPure_cons]
    by_cases hm : substrB kv.1 edit
    · rw [if_pos hm, ih, lookupF_colorApplyPure_entities]
      have hcons : ∀ e, colorsEntityFold (kv :: tbl) edit e =
          colorsEntityFold tbl edit (setColorPure kv.2 e) := by
        intro e; simp [colorsEntityFold, List.filter_cons, hm]
      cases hx : lookupF d "entities" with
      | none => simp
      | some w =>
        cases w with
        | arr es => simp [List.map_map, funext hcons, Function.comp]
        | null => simp
        | bool b => simp
        | num q => simp
        | str s => simp
        | obj fs => simp
    · rw [if_neg hm, ih]
      have hcons : ∀ e, colorsEntityFold (kv :: tbl) edit e = colorsEntityFold tbl edit e := by
        intro e; simp [colorsEntityFold, List.filter_cons, hm]
      simp only [funext hcons]

theorem lookupF_entitiesMapPure_arr (g : JVal → JVal) (d : Doc) (es : List JVal)
    (h : lookupF d "entities" = some (.arr es)) :
    lookupF (entitiesMapPure g d) "entities" = some (.arr (es.map g)) := by
  rw [lookupF_entitiesMapPure_entities, h]

theorem lookupF_spCorePure_entities (d : Doc) (e : String) (now : ℕ) :
    lookupF (spCorePure d e now) "entities" =
      (match lookupF d "entities" with
       | some (.arr es) => some (.arr (es.map (spEntityPure (pyLower e))))
       | x => x) := by
  unfold spCorePure
  set edit := pyLower e
  set d0 := setdefaultD d "assumptions" (.arr []) with hd0
  set d1 := colorsFoldPure colorTable edit d0 with hd1
  have e0 : lookupF d0 "entities" = lookupF d "entities" := by
    rw [hd0, lookupF_setdefaultD_ne d _ _ _ (by decide)]
  have e1 : lookupF d1 "entities" =
      (match lookupF d "entities" with
       | some (.arr es) => some (.arr (es.map (colorsEntityFold colorTable edit)))
       | x => x) := by
    rw [hd1, lookupF_colorsFoldPure_entities, e0]
  by_cases hI : islandCond edit <;> by_cases hF : fasterCond edit
  · rw [if_pos hF, if_pos hI, lookupF_entitiesMapPure_entities,
      lookupF_sdAppendPure_ne _ _ _ _ (by decide), e1]
    cases hx : lookupF d "entities" with
    | none => simp
    | some w =>
      cases w with
      | arr es => simp [List.map_map, spEntityPure, hF, Function.comp]
      | null => simp
      | bool b => simp
      | num q => simp
      | str s => simp
      | obj fs => simp
  · rw [if_neg hF, if_pos hI, lookupF_sdAppendPure_ne _ _ _ _ (by decide), e1]
    cases hx : lookupF d "entities" with
    | none => simp
    | some w =>
      cases w with
      | arr es => simp [spEntityPure, hF]
      | null => simp
      | bool b => simp
      | num q => simp
      | str s => simp
      | obj fs => simp
  · rw [if_pos hF, if_neg hI, lookupF_entitiesMapPure_entities, e1]
    cases hx : lookupF d "entities" with
    | none => simp
    | some w =>
      cases w with
      | arr es => simp [List.map_map, spEntityPure, hF, Function.comp]
      | null => simp
      | bool b => simp
      | num q => simp
      | str s => simp
      | obj fs => simp
  · rw [if_neg hF, if_neg hI, e1]
    cases hx : lookupF d "entities" with
    | none => simp
    | some w =>
      cases w with
      | arr es => simp [spEntityPure, hF]
      | null => simp
      | bool b => simp
      | num q => simp
      | str s => simp
      | obj fs => simp

theorem entityOKb_spEntityPure (edit : String) (e : JVal) (h : entityOKb e = true) :
    entityOKb (spEntityPure edit e) = true := by
  unfold spEntityPure
  by_cases hF : fasterCond edit
  · rw [if_pos hF]
    exact entityOKb_boostPure _ (entityOKb_colorsEntityFold colorTable edit e h)
  · rw [if_neg hF]
    exact entityOKb_colorsEntityFold colorTable edit e h

theorem safeDocB_spCorePure (d : Doc) (e : String) (now : ℕ)
    (h : safeDocB d = true) : safeDocB (spCorePure d e now) = true := by
  obtain ⟨h1, h2, h3, h4, h5⟩ := safeDocB_components d h
  apply safeDocB_intro
  · rw [lookupF_spCorePure_assum d e now h1]
    simp [optArrOK]
  · rw [lookupF_spCorePure_ne d e now _ (by decide) (by decide) (by decide) (by decide)]
    exact h2
  · rw [lookupF_spCorePure_structures d e now h3]
    by_cases hI : islandCond (pyLower e)
    · rw [if_pos hI]; simp [optArrOK]
    · rw [if_neg hI]; exact h3
  · rw [lookupF_spCorePure_env d e now]
    exact optObjOK_skyFold colorTable (pyLower e) _ h4
  · unfold entitiesOKb
    rw [lookupF_spCorePure_entities d e now]
    rcases entitiesOKb_elim d h5 with he | ⟨es, he, hall⟩
    · rw [he]
    · rw [he]
      simp only [List.all_eq_true]
      intro x hx
      simp only [List.mem_map] at hx
      obtain ⟨y, hy, rfl⟩ := hx
      exact entityOKb_spEntityPure (pyLower e) y (hall y hy)

/-! ## safe_patch: equivalence with the pure model, and its projections -/

theorem safe_patch_eq_pure (d : Doc) (e : String) (now : ℕ) (ts : String)
    (h : safeDocB d = true) :
    safe_patch d e now ts = .ok (safe_patch_pure d e now ts) := by
  obtain ⟨h1, h2, h3, h4, h5⟩ := safeDocB_components d h
  have hcore := safe_patch_core_eq_pure d e now h
  set P := spCorePure d e now with hP
  have hPa : lookupF P "assumptions" = some (.arr (assumArr d)) :=
    lookupF_spCorePure_assum d e now h1
  have happ : appendAtKey P "assumptions" (.str (spEntry e)) =
      .ok (appendArrPure P "assumptions" (.str (spEntry e))) :=
    appendAtKey_eq_pure P _ _ _ hPa
  set P2 := appendArrPure P "assumptions" (.str (spEntry e)) with hP2
  have hP2h : lookupF P2 "patchHistory" = lookupF d "patchHistory" := by
    rw [hP2, lookupF_appendArrPure_ne _ _ _ _ (by decide), hP,
      lookupF_spCorePure_ne d e now _ (by decide) (by decide) (by decide) (by decide)]
  have hhist : setdefaultAppend P2 "patchHistory" (historyObj e ts "safe_patch") =
      .ok (sdAppendPure P2 "patchHistory" (historyObj e ts "safe_patch")) := by
    apply setdefaultAppend_eq_pure
    rw [hP2h]
    exact h2
  have hentry : (if (appliedSafe (pyLower e)).isEmpty
      then "Requested edit recorded: \"" ++ e ++ "\""
      else "safe_patch_applied:" ++ String.intercalate "," (appliedSafe (pyLower e))) =
      spEntry e := by
    rw [spEntry]
  simp only [safe_patch, safe_patch_pure, Bind.bind, Except.bind, hcore, ← hP,
    hentry, happ, ← hP2, hhist]

theorem lookupF_safe_patch_pure_assum (d : Doc) (e : String) (now : ℕ) (ts : String)
    (h : optArrOK (lookupF d "assumptions") = true) :
    lookupF (safe_patch_pure d e now ts) "assumptions" =
      some (.arr (assumArr d ++ [.str (spEntry e)])) := by
  unfold safe_patch_pure
  rw [lookupF_sdAppendPure_ne _ _ _ _ (by decide),
    lookupF_appendArrPure_self _ _ _ (assumArr d) (lookupF_spCorePure_assum d e now h)]

theorem entitiesOf_safe_patch_pure (d : Doc) (e : String) (now : ℕ) (ts : String) :
    entitiesOf (safe_patch_pure d e now ts) =
      (entitiesOf d).map (spEntityPure (pyLower e)) := by
  unfold safe_patch_pure
  rw [entitiesOf_congr _ (spCorePure d e now), entitiesOf_spCorePure]
  rw [lookupF_sdAppendPure_ne _ _ _ _ (by decide),
    lookupF_appendArrPure_ne _ _ _ _ (by decide)]

theorem lookupF_safe_patch_pure_env (d : Doc) (e : String) (now : ℕ) (ts : String) :
    lookupF (safe_patch_pure d e now ts) "environment" =
      skyFold colorTable (pyLower e) (lookupF d "environment") := by
  unfold safe_patch_pure
  rw [lookupF_sdAppendPure_ne _ _ _ _ (by decide),
    lookupF_appendArrPure_ne _ _ _ _ (by decide), lookupF_spCorePure_env]

theorem lookupF_safe_patch_pure_structures (d : Doc) (e : String) (now : ℕ) (ts : String)
    (h : optArrOK (lookupF d "structures") = true) :
    lookupF (safe_patch_pure d e now ts) "structures" =
      (if islandCond (pyLower e)
       then some (.arr (arrAt d "structures" ++ [islandObjSafe now]))
       else lookupF d "structures") := by
  unfold safe_patch_pure
  rw [lookupF_sdAppendPure_ne _ _ _ _ (by decide),
    lookupF_appendArrPure_ne _ _ _ _ (by decide), lookupF_spCorePure_structures d e now h]

/-! ## apply_style: per-entity lemmas and equivalence with the pure model -/

theorem styleEntityOKb_elim (e : JVal) (h : styleEntityOKb e = true) :
    ∃ fs, e = .obj fs ∧
      (lookupF fs "params" = none ∨
       ∃ ps, lookupF fs "params" = some (.obj ps) ∧ numValOK (lookupF ps "glow") = true) := by
  cases e with
  | obj fs =>
    refine ⟨fs, rfl, ?_⟩
    cases hp : lookupF fs "params" with
    | none => exact Or.inl rfl
    | some w =>
      cases w with
      | obj ps =>
        refine Or.inr ⟨ps, rfl, ?_⟩
        simpa [styleEntityOKb, hp] using h
      | null => simp [styleEntityOKb, hp] at h
      | bool b => simp [styleEntityOKb, hp] at h
      | num q => simp [styleEntityOKb, hp] at h
      | str s => simp [styleEntityOKb, hp] at h
      | arr xs => simp [styleEntityOKb, hp] at h
  | null => simp [styleEntityOKb] at h
  | bool b => simp [styleEntityOKb] at h
  | num q => simp [styleEntityOKb] at h
  | str s => simp [styleEntityOKb] at h
  | arr xs => simp [styleEntityOKb] at h

theorem styleEntity_eq_pure (cfg : StyleCfg) (e : JVal) (h : styleEntityOKb e = true) :
    styleEntity cfg e = .ok (stylePure cfg e) := by
  obtain ⟨fs, rfl, hc⟩ := styleEntityOKb_elim e h
  rcases hc with hp | ⟨ps, hp, hg⟩
  · simp [styleEntity, entityParams, stylePure, hp, Bind.bind, Except.bind, getD,
      lookupF, pyToNum, numOfOpt, dset]
  · have hgc : lookupF (dset ps "color" (.str cfg.defColor)) "glow" = lookupF ps "glow" :=
      lookupF_dset_ne ps "color" "glow" _ (by decide)
    cases hgv : lookupF ps "glow" with
    | none =>
      simp [styleEntity, entityParams, stylePure, hp, hgc, hgv, Bind.bind, Except.bind,
        getD, pyToNum, numOfOpt]
    | some w =>
      cases w with
      | num q =>
        simp [styleEntity, entityParams, stylePure, hp, hgc, hgv, Bind.bind, Except.bind,
          getD, pyToNum, numOfOpt]
      | bool b =>
        cases b <;>
          simp [styleEntity, entityParams, stylePure, hp, hgc, hgv, Bind.bind, Except.bind,
            getD, pyToNum, numOfOpt]
      | null => simp [numValOK, hgv] at hg
      | str s => simp [numValOK, hgv] at hg
      | arr xs => simp [numValOK, hgv] at hg
      | obj fs2 => simp [numValOK, hgv] at hg

theorem paramColor_stylePure (cfg : StyleCfg) (e : JVal) (h : styleEntityOKb e = true) :
    paramColor (stylePure cfg e) = some (.str cfg.defColor) := by
  obtain ⟨fs, rfl, hc⟩ := styleEntityOKb_elim e h
  rcases hc with hp | ⟨ps, hp, hg⟩
  · simp [stylePure, hp, paramColor, paramOf, lookupF_dset_self, dset, lookupF, getD]
  · simp only [stylePure, hp, paramColor, paramOf, lookupF_dset_self]
    rw [lookupF_dset_ne _ "speed" "color" _ (by decide),
      lookupF_dset_ne _ "glow" "color" _ (by decide), lookupF_dset_self]

theorem paramGlow_stylePure (cfg : StyleCfg) (e : JVal) (h : styleEntityOKb e = true) :
    paramGlow (stylePure cfg e) =
      some (.num (min 1 (numOfOpt (1/2) (paramGlow e) * cfg.defGlow))) := by
  obtain ⟨fs, rfl, hc⟩ := styleEntityOKb_elim e h
  rcases hc with hp | ⟨ps, hp, hg⟩
  · simp [stylePure, hp, paramGlow, paramOf, lookupF_dset_self, dset, lookupF, getD,
      numOfOpt]
  · simp only [stylePure, hp, paramGlow, paramOf, lookupF_dset_self]
    rw [lookupF_dset_ne _ "speed" "glow" _ (by decide), lookupF_dset_self,
      lookupF_dset_ne _ "color" "glow" _ (by decide)]

theorem styleEntityOKb_stylePure (cfg : StyleCfg) (e : JVal) (h : styleEntityOKb e = true) :
    styleEntityOKb (stylePure cfg e) = true := by
  obtain ⟨fs, rfl, hc⟩ := styleEntityOKb_elim e h
  rcases hc with hp | ⟨ps, hp, hg⟩
  · simp [stylePure, hp, styleEntityOKb, lookupF_dset_self, dset, lookupF, getD, numValOK]
  · simp only [stylePure, hp, styleEntityOKb, lookupF_dset_self]
    rw [lookupF_dset_ne _ "speed" "glow" _ (by decide), lookupF_dset_self]
    simp [numValOK]

theorem styleDocB_components (d : Doc) (h : styleDocB d = true) :
    optArrOK (lookupF d "assumptions") = true ∧
    optObjOK (lookupF d "environment") = true ∧
    (lookupF d "entities" = none ∨
     ∃ es, lookupF d "entities" = some (.arr es) ∧ ∀ e ∈ es, styleEntityOKb e = true) := by
  simp only [styleDocB, Bool.and_eq_true] at h
  obtain ⟨⟨h1, h2⟩, h3⟩ := h
  refine ⟨h1, h2, ?_⟩
  cases he : lookupF d "entities" with
  | none => exact Or.inl rfl
  | some w =>
    cases w with
    | arr es =>
      refine Or.inr ⟨es, rfl, ?_⟩
      rw [he] at h3
      simpa [List.all_eq_true] using h3
    | null => rw [he] at h3; simp at h3
    | bool b => rw [he] at h3; simp at h3
    | num q => rw [he] at h3; simp at h3
    | str s => rw [he] at h3; simp at h3
    | obj fs => rw [he] at h3; simp at h3

theorem updateEntities_eq_pure2 (f : JVal → Except String JVal) (g : JVal → JVal)
    (d : Doc)
    (hsh : lookupF d "entities" = none ∨ ∃ es, lookupF d "entities" = some (.arr es))
    (hfg : ∀ e ∈ entitiesOf d, f e = .ok (g e)) :
    updateEntities f d = .ok (entitiesMapPure g d) := by
  rcases hsh with he | ⟨es, he⟩
  · simp [updateEntities, entitiesMapPure, he]
  · have hmap : mapME f es = .ok (es.map g) := by
      apply mapME_eq_map
      intro x hx
      apply hfg
      simp [entitiesOf, he, hx]
    simp [updateEntities, entitiesMapPure, he, hmap, Bind.bind, Except.bind]

theorem lookupF_setdefaultD_env (d : Doc)
    (h : optObjOK (lookupF d "environment") = true) :
    lookupF (setdefaultD d "environment" (.obj [])) "environment" =
      some (.obj (envFieldsOf d)) := by
  cases hk : lookupF d "environment" with
  | none =>
    rw [lookupF_setdefaultD_absent d _ _ hk]
    simp [envFieldsOf, hk]
  | some w =>
    cases w with
    | obj ps =>
      rw [lookupF_setdefaultD_present d _ _ _ hk]
      simp [envFieldsOf, hk]
    | null => simp [optObjOK, hk] at h
    | bool b => simp [optObjOK, hk] at h
    | num q => simp [optObjOK, hk] at h
    | str s => simp [optObjOK, hk] at h
    | arr xs => simp [optObjOK, hk] at h

theorem apply_style_eq_pure (d : Doc) (s : String) (h : styleDocB d = true) :
    apply_style d s = .ok (apply_style_pure d s) := by
  obtain ⟨h1, h2, h3⟩ := styleDocB_components d h
  set cfg := get_style_config s with hcfg
  set d0 := setdefaultD d "environment" (.obj []) with hd0
  have he0 : lookupF d0 "environment" = some (.obj (envFieldsOf d)) := by
    rw [hd0]
    exact lookupF_setdefaultD_env d h2
  set d1 := dset d0 "environment" (.obj (envUpdate (envFieldsOf d) cfg)) with hd1
  set d2 := dset d1 "style" (.str s) with hd2
  have hent2 : lookupF d2 "entities" = lookupF d "entities" := by
    rw [hd2, lookupF_dset_ne _ _ _ _ (by decide), hd1,
      lookupF_dset_ne _ _ _ _ (by decide), hd0, lookupF_setdefaultD_ne d _ _ _ (by decide)]
  have hupd : updateEntities (styleEntity cfg) d2 =
      .ok (entitiesMapPure (stylePure cfg) d2) := by
    apply updateEntities_eq_pure2
    · rw [hent2]
      rcases h3 with he | ⟨es, he, _⟩
      · exact Or.inl he
      · exact Or.inr ⟨es, he⟩
    · intro x hx
      apply styleEntity_eq_pure
      rw [entitiesOf_congr d2 d hent2] at hx
      rcases h3 with he | ⟨es, he, hall⟩
      · simp [entitiesOf, he] at hx
      · rw [entitiesOf, he] at hx
        exact hall x hx
  set d3 := entitiesMapPure (stylePure cfg) d2 with hd3
  have hass : lookupF d3 "assumptions" = lookupF d "assumptions" := by
    rw [hd3, lookupF_entitiesMapPure_ne _ _ _ (by decide), hd2,
      lookupF_dset_ne _ _ _ _ (by decide), hd1, lookupF_dset_ne _ _ _ _ (by decide),
      hd0, lookupF_setdefaultD_ne d _ _ _ (by decide)]
  have hsd : setdefaultAppend d3 "assumptions"
        (.str ("Deterministic style mapping applied -> " ++ s)) =
      .ok (sdAppendPure d3 "assumptions"
        (.str ("Deterministic style mapping applied -> " ++ s))) := by
    apply setdefaultAppend_eq_pure
    rw [hass]
    exact h1
  simp only [apply_style, apply_style_pure, Bind.bind, Except.bind, ← hcfg, ← hd0, he0,
    ← hd1, ← hd2, hupd, ← hd3, hsd]

/-! ## apply_style_pure projections -/

theorem envCase_entities (d0 : Doc) (cfg : StyleCfg) :
    lookupF (match lookupF d0 "environment" with
             | some (.obj ps) => dset d0 "environment" (.obj (envUpdate ps cfg))
             | _ => d0) "entities" = lookupF d0 "entities" := by
  cases he : lookupF d0 "environment" with
  | none => simp
  | some w =>
    cases w with
    | obj ps => exact lookupF_dset_ne d0 _ _ _ (by decide)
    | null => simp
    | bool b => simp
    | num q => simp
    | str s => simp
    | arr xs => simp

theorem envCase_ne (d0 : Doc) (cfg : StyleCfg) (k : String) (hk : k ≠ "environment") :
    lookupF (match lookupF d0 "environment" with
             | some (.obj ps) => dset d0 "environment" (.obj (envUpdate ps cfg))
             | _ => d0) k = lookupF d0 k := by
  cases he : lookupF d0 "environment" with
  | none => simp
  | some w =>
    cases w with
    | obj ps => exact lookupF_dset_ne d0 _ _ _ hk
    | null => simp
    | bool b => simp
    | num q => simp
    | str s => simp
    | arr xs => simp

theorem lookupF_apply_style_pure_style (d : Doc) (s : String) :
    lookupF (apply_style_pure d s) "style" = some (.str s) := by
  unfold apply_style_pure
  rw [lookupF_sdAppendPure_ne _ _ _ _ (by decide),
    lookupF_entitiesMapPure_ne _ _ _ (by decide), lookupF_dset_self]

theorem lookupF_apply_style_pure_env (d : Doc) (s : String)
    (h : optObjOK (lookupF d "environment") = true) :
    lookupF (apply_style_pure d s) "environment" =
      some (.obj (envUpdate (envFieldsOf d) (get_style_config s))) := by
  unfold apply_style_pure
  rw [lookupF_sdAppendPure_ne _ _ _ _ (by decide),
    lookupF_entitiesMapPure_ne _ _ _ (by decide),
    lookupF_dset_ne _ _ _ _ (by decide), lookupF_setdefaultD_env d h,
    lookupF_dset_self]

theorem entitiesOf_apply_style_pure (d : Doc) (s : String) :
    entitiesOf (apply_style_pure d s) =
      (entitiesOf d).map (stylePure (get_style_config s)) := by
  unfold apply_style_pure
  rw [entitiesOf_congr _ _ (lookupF_sdAppendPure_ne _ _ _ _ (by decide)),
    entitiesOf_entitiesMapPure]
  congr 1
  apply entitiesOf_congr
  rw [lookupF_dset_ne _ _ _ _ (by decide), envCase_entities,
    lookupF_setdefaultD_ne d _ _ _ (by decide)]

theorem lookupF_apply_style_pure_assum (d : Doc) (s : String)
    (h : optArrOK (lookupF d "assumptions") = true) :
    lookupF (apply_style_pure d s) "assumptions" =
      some (.arr (assumArr d ++
        [.str ("Deterministic style mapping applied -> " ++ s)])) := by
  unfold apply_style_pure
  have hchain : lookupF (entitiesMapPure (stylePure (get_style_config s))
      (dset (match lookupF (setdefaultD d "environment" (.obj [])) "environment" with
             | some (.obj ps) => dset (setdefaultD d "environment" (.obj []))
                 "environment" (.obj (envUpdate ps (get_style_config s)))
             | _ => setdefaultD d "environment" (.obj [])) "style" (.str s)))
      "assumptions" = lookupF d "assumptions" := by
    rw [lookupF_entitiesMapPure_ne _ _ _ (by decide),
      lookupF_dset_ne _ _ _ _ (by decide), envCase_ne _ _ _ (by decide),
      lookupF_setdefaultD_ne d _ _ _ (by decide)]
  rw [lookupF_sdAppendPure_self]
  · congr 2
    unfold arrAt
    rw [hchain]
    unfold assumArr
    rfl
  · rw [hchain]
    exact h

theorem lookupF_apply_style_pure_entities (d : Doc) (s : String) :
    lookupF (apply_style_pure d s) "entities" =
      (match lookupF d "entities" with
       | some (.arr es) => some (.arr (es.map (stylePure (get_style_config s))))
       | x => x) := by
  unfold apply_style_pure
  rw [lookupF_sdAppendPure_ne _ _ _ _ (by decide), lookupF_entitiesMapPure_entities]
  congr 1
  rw [lookupF_dset_ne _ _ _ _ (by decide), envCase_entities,
    lookupF_setdefaultD_ne d _ _ _ (by decide)]

theorem styleDocB_apply_style_pure (d : Doc) (s : String) (h : styleDocB d = true) :
    styleDocB (apply_style_pure d s) = true := by
  obtain ⟨h1, h2, h3⟩ := styleDocB_components d h
  have ha : optArrOK (lookupF (apply_style_pure d s) "assumptions") = true := by
    rw [lookupF_apply_style_pure_assum d s h1]
    simp [optArrOK]
  have hb : optObjOK (lookupF (apply_style_pure d s) "environment") = true := by
    rw [lookupF_apply_style_pure_env d s h2]
    simp [optObjOK]
  have hc : (match lookupF (apply_style_pure d s) "entities" with
             | some (.arr es) => es.all styleEntityOKb
             | none => true
             | some _ => false) = true := by
    rw [lookupF_apply_style_pure_entities d s]
    rcases h3 with he | ⟨es, he, hall⟩
    · rw [he]
    · rw [he]
      simp only [List.all_eq_true]
      intro x hx
      simp only [List.mem_map] at hx
      obtain ⟨y, hy, rfl⟩ := hx
      exact styleEntityOKb_stylePure _ y (hall y hy)
  simp [styleDocB, ha, hb, hc]

theorem envUpdate_idem (ps : Doc) (cfg : StyleCfg) :
    envUpdate (envUpdate ps cfg) cfg = envUpdate ps cfg := by
  unfold envUpdate
  set q1 := dset ps "preset" (.str cfg.preset) with hq1
  set q2 := dset q1 "fog" (.num cfg.fog) with hq2
  set q3 := dset q2 "skyColor" (.str cfg.skyColor) with hq3
  set q4 := dset q3 "ambientLight" (.num cfg.ambientLight) with hq4
  have l1 : lookupF q4 "preset" = some (.str cfg.preset) := by
    rw [hq4, lookupF_dset_ne _ _ _ _ (by decide), hq3,
      lookupF_dset_ne _ _ _ _ (by decide), hq2,
      lookupF_dset_ne _ _ _ _ (by decide), hq1, lookupF_dset_self]
  rw [dset_self _ _ _ l1]
  have l2 : lookupF q4 "fog" = some (.num cfg.fog) := by
    rw [hq4, lookupF_dset_ne _ _ _ _ (by decide), hq3,
      lookupF_dset_ne _ _ _ _ (by decide), hq2, lookupF_dset_self]
  rw [dset_self _ _ _ l2]
  have l3 : lookupF q4 "skyColor" = some (.str cfg.skyColor) := by
    rw [hq4, lookupF_dset_ne _ _ _ _ (by decide), hq3, lookupF_dset_self]
  rw [dset_self _ _ _ l3]
  have l4 : lookupF q4 "ambientLight" = some (.num cfg.ambientLight) := by
    rw [hq4, lookupF_dset_self]
  rw [dset_self _ _ _ l4]

theorem styleCfg_glow_nonneg (s : String) : 0 ≤ (get_style_config s).defGlow := by
  simp only [get_style_config]
  split_ifs <;>
    norm_num [etherealCfg, cyberpunkCfg, surrealCfg, fantasyCfg, nightmareCfg]

theorem get_style_config_default (s : String)
    (h : ENUM_STYLES.contains (pyLower s) = false) :
    get_style_config s = etherealCfg := by
  simp only [ENUM_STYLES, List.contains, List.elem_cons, List.elem_nil,
    Bool.or_eq_false_iff] at h
  simp only [get_style_config]
  split_ifs with h1 h2 h3 h4 h5
  · rfl
  · rw [h2] at h; simp at h
  · rw [h3] at h; simp at h
  · rw [h4] at h; simp at h
  · rw [h5] at h; simp at h
  · rfl

/-! ## repair_dream lemmas -/

theorem durStep_ok (acc : ℚ) (fs : Doc) (h : numValOK (lookupF fs "duration") = true) :
    durStep acc (.obj fs) = .ok (acc + numOfOpt 0 (lookupF fs "duration")) := by
  cases hdv : lookupF fs "duration" with
  | none => simp [durStep, pyDictGet, getD, hdv, pyToNum, numOfOpt, Bind.bind, Except.bind]
  | some w =>
    cases w with
    | num q => simp [durStep, pyDictGet, getD, hdv, pyToNum, numOfOpt, Bind.bind, Except.bind]
    | bool b =>
      cases b <;>
        simp [durStep, pyDictGet, getD, hdv, pyToNum, numOfOpt, Bind.bind, Except.bind]
    | null => rw [hdv] at h; simp [numValOK] at h
    | str s => rw [hdv] at h; simp [numValOK] at h
    | arr xs => rw [hdv] at h; simp [numValOK] at h
    | obj fs2 => rw [hdv] at h; simp [numValOK] at h

theorem sumDurations_ok (v : JVal) (h : shotsListOKb v = true) :
    ∃ q, sumDurations v = .ok q := by
  have step : ∀ (xs : List JVal) (acc : ℚ),
      (∀ s ∈ xs, (match s with
                  | .obj fs => numValOK (lookupF fs "duration")
                  | _ => false) = true) →
      ∃ q, xs.foldlM durStep acc = (.ok q : Except String ℚ) := by
    intro xs
    induction xs with
    | nil => intro acc _; exact ⟨acc, rfl⟩
    | cons s rest ih =>
      intro acc hall
      have hs := hall s (by simp)
      cases s with
      | obj fs =>
        have hnv : numValOK (lookupF fs "duration") = true := by simpa using hs
        obtain ⟨q, hq⟩ := ih (acc + numOfOpt 0 (lookupF fs "duration"))
          (fun x hx => hall x (by simp [hx]))
        refine ⟨q, ?_⟩
        rw [List.foldlM_cons, durStep_ok acc fs hnv]
        simpa [Bind.bind, Except.bind] using hq
      | null => simp at hs
      | bool b => simp at hs
      | num q => simp at hs
      | str s2 => simp at hs
      | arr xs2 => simp at hs
  cases v with
  | arr xs =>
    have hall : ∀ s ∈ xs, (match s with
        | .obj fs => numValOK (lookupF fs "duration")
        | _ => false) = true := by
      simpa [shotsListOKb, List.all_eq_true] using h
    obtain ⟨q, hq⟩ := step xs 0 hall
    exact ⟨q, by simp [sumDurations, pyIter, Bind.bind, Except.bind, hq]⟩
  | str s =>
    have hs0 : s = "" := by simpa [shotsListOKb, String.isEmpty_iff] using h
    subst hs0
    exact ⟨0, by simp [sumDurations, pyIter, Bind.bind, Except.bind, List.foldlM,
      pure, Except.pure]⟩
  | obj fs =>
    have hf0 : fs = [] := by simpa [shotsListOKb, List.isEmpty_iff] using h
    subst hf0
    exact ⟨0, by simp [sumDurations, pyIter, Bind.bind, Except.bind, List.foldlM,
      pure, Except.pure]⟩
  | null => simp [shotsListOKb] at h
  | bool b => simp [shotsListOKb] at h
  | num q => simp [shotsListOKb] at h

theorem targetOf_ok (r : Doc) (S : List JVal)
    (hl : lookupF r "structures" = some (.arr S)) (h : targetOKb S = true) :
    ∃ t, targetOf r = .ok t := by
  cases S with
  | nil => exact ⟨.str "s1", by simp [targetOf, getD, hl]⟩
  | cons hd tl =>
    cases hd with
    | obj fs =>
      have hm : memberF fs "id" = true := by simpa [targetOKb] using h
      unfold memberF at hm
      cases hid : lookupF fs "id" with
      | none => rw [hid] at hm; simp at hm
      | some w =>
        exact ⟨w, by simp [targetOf, getD, hl, pySubscriptStr, hid]⟩
    | null => simp [targetOKb] at h
    | bool b => simp [targetOKb] at h
    | num q => simp [targetOKb] at h
    | str s => simp [targetOKb] at h
    | arr xs => simp [targetOKb] at h

theorem setdefaultAppend_lookup_ne (d d2 : Doc) (k k2 : String) (x : JVal)
    (h : setdefaultAppend d k x = .ok d2) (hk : k2 ≠ k) :
    lookupF d2 k2 = lookupF d k2 := by
  cases hl : lookupF d k with
  | none =>
    simp only [setdefaultAppend, hl, Except.ok.injEq] at h
    rw [← h]
    exact lookupF_append_ne d k k2 _ hk
  | some w =>
    cases w with
    | arr xs =>
      simp only [setdefaultAppend, hl, Except.ok.injEq] at h
      rw [← h]
      exact lookupF_dset_ne d k k2 _ hk
    | null => simp [setdefaultAppend, hl] at h
    | bool b => simp [setdefaultAppend, hl] at h
    | num q => simp [setdefaultAppend, hl] at h
    | str s => simp [setdefaultAppend, hl] at h
    | obj fs => simp [setdefaultAppend, hl] at h

theorem cinRepair_inv (r r2 : Doc) (h : cinRepair r = .ok r2) :
    ∃ c2, r2 = dset r "cinematography" (.obj c2) ∧
      memberF c2 "durationSec" = true ∧
      ∃ x xs, lookupF c2 "shots" = some (.arr (x :: xs)) := by
  unfold cinRepair at h
  split at h
  next c hceq =>
    have hjoin : ∀ (c1 : Doc), memberF c1 "durationSec" = true →
        (do
          let c2 ←
            (match lookupF c1 "shots" with
             | some (.arr (_ :: _)) => Except.ok c1
             | _ => do
                 let tgt ← targetOf r
                 Except.ok (dset c1 "shots"
                   (.arr [shotObj tgt (getD c1 "durationSec" (.num 30))])))
          Except.ok (dset r "cinematography" (.obj c2))) = .ok r2 →
        ∃ c2, r2 = dset r "cinematography" (.obj c2) ∧
          memberF c2 "durationSec" = true ∧
          ∃ x xs, lookupF c2 "shots" = some (.arr (x :: xs)) := by
      intro c1 hm1 hh
      split at hh
      case _ x xs heq =>
        simp only [Bind.bind, Except.bind, Except.ok.injEq] at hh
        exact ⟨c1, hh.symm, hm1, x, xs, heq⟩
      case _ w hne =>
        simp only [Bind.bind, Except.bind] at hh
        cases ht : targetOf r with
        | error msg => rw [ht] at hh; simp at hh
        | ok t =>
          rw [ht] at hh
          simp only [Except.ok.injEq] at hh
          refine ⟨_, hh.symm, ?_, ?_⟩
          · unfold memberF
            rw [lookupF_dset_ne _ _ _ _ (by decide)]
            exact hm1
          · exact ⟨_, _, lookupF_dset_self _ _ _⟩
    by_cases hm : memberF c "durationSec"
    · rw [if_pos hm] at h
      simp only [Bind.bind, Except.bind] at h
      exact hjoin c hm h
    · rw [if_neg hm] at h
      simp only [Bind.bind, Except.bind] at h
      cases hds : sumDurations (getD c "shots" (.arr [])) with
      | error msg => rw [hds] at h; simp at h
      | ok dsum =>
        rw [hds] at h
        simp only at h
        apply hjoin _ _ h
        unfold memberF
        rw [lookupF_dset_self]
        rfl
  next w hne =>
    simp only [Bind.bind, Except.bind] at h
    cases ht : targetOf r with
    | error msg => rw [ht] at h; simp at h
    | ok t =>
      rw [ht] at h
      simp only [Except.ok.injEq] at h
      refine ⟨_, h.symm, rfl, ?_⟩
      exact ⟨shotObj t (.num 30), [], by simp [lookupF]⟩

theorem shotsPresentOKb_elim (c : Doc) (h : shotsPresentOKb c = true) :
    ∃ x xs, lookupF c "shots" = some (.arr (x :: xs)) := by
  unfold shotsPresentOKb at h
  cases hl : lookupF c "shots" with
  | none => rw [hl] at h; simp at h
  | some w =>
    cases w with
    | arr xs =>
      cases xs with
      | nil => rw [hl] at h; simp at h
      | cons x rest => exact ⟨x, rest, rfl⟩
    | null => rw [hl] at h; simp at h
    | bool b => rw [hl] at h; simp at h
    | num q => rw [hl] at h; simp at h
    | str s => rw [hl] at h; simp at h
    | obj fs => rw [hl] at h; simp at h

theorem cinRepair_ok (r : Doc) (S : List JVal)
    (hS : lookupF r "structures" = some (.arr S))
    (hcond : (match getD r "cinematography" .null with
      | .obj c => (memberF c "durationSec" || shotsListOKb (getD c "shots" (.arr []))) &&
          (shotsPresentOKb c || targetOKb S)
      | _ => targetOKb S) = true) :
    ∃ r2, cinRepair r = .ok r2 := by
  unfold cinRepair
  split
  next c hceq =>
    rw [hceq] at hcond
    simp only [Bool.and_eq_true, Bool.or_eq_true] at hcond
    obtain ⟨hdc, hsp⟩ := hcond
    have hshots : ∀ (c1 : Doc), lookupF c1 "shots" = lookupF c "shots" →
        ∃ c2, (match lookupF c1 "shots" with
               | some (.arr (_ :: _)) => Except.ok c1
               | _ => do
                   let tgt ← targetOf r
                   Except.ok (dset c1 "shots"
                     (.arr [shotObj tgt (getD c1 "durationSec" (.num 30))]))) =
            (.ok c2 : Except String Doc) := by
      intro c1 hagree
      rcases hsp with hp | ht
      · obtain ⟨x, xs, hl⟩ := shotsPresentOKb_elim c hp
        rw [hagree, hl]
        exact ⟨c1, rfl⟩
      · obtain ⟨t, htv⟩ := targetOf_ok r S hS ht
        split
        · exact ⟨c1, rfl⟩
        · exact ⟨_, by rw [htv]; rfl⟩
    by_cases hm : memberF c "durationSec"
    · rw [if_pos hm]
      obtain ⟨c2, hc2⟩ := hshots c rfl
      refine ⟨dset r "cinematography" (.obj c2), ?_⟩
      simp only [Bind.bind, Except.bind] at hc2 ⊢
      rw [hc2]
    · rw [if_neg hm]
      rcases hdc with hmm | hsl
      · exact absurd hmm hm
      · obtain ⟨dsum, hds⟩ := sumDurations_ok _ hsl
        obtain ⟨c2, hc2⟩ := hshots (dset c "durationSec" (.num (if dsum = 0 then 30 else dsum)))
          (lookupF_dset_ne _ _ _ _ (by decide))
        refine ⟨dset r "cinematography" (.obj c2), ?_⟩
        simp only [Bind.bind, Except.bind, hds] at hc2 ⊢
        rw [hc2]
  next w hne =>
    have hts : targetOKb S = true := by
      cases hg : getD r "cinematography" .null with
      | obj fs => exact (hne fs hg).elim
      | null => rw [hg] at hcond; simpa using hcond
      | bool b => rw [hg] at hcond; simpa using hcond
      | num q => rw [hg] at hcond; simpa using hcond
      | str s => rw [hg] at hcond; simpa using hcond
      | arr xs => rw [hg] at hcond; simpa using hcond
    obtain ⟨t, htv⟩ := targetOf_ok r S hS hts
    refine ⟨dset r "cinematography"
      (.obj [("durationSec", .num 30), ("shots", .arr [shotObj t (.num 30)])]), ?_⟩
    simp only [Bind.bind, Except.bind, htv]

theorem repair_dream_eq (d : Doc) (now : ℕ) :
    repair_dream d now = (do
      let r ← cinRepair (repairPre d now)
      let r2 ← setdefaultAppend r "assumptions" (.str "auto_repaired_missing_fields")
      Except.ok r2) := rfl

theorem lookupF_repairPre_ne (d : Doc) (now : ℕ) (k : String)
    (h1 : k ≠ "id") (h2 : k ≠ "title") (h3 : k ≠ "style") (h4 : k ≠ "structures")
    (h5 : k ≠ "entities") :
    lookupF (repairPre d now) k = lookupF d k := by
  unfold repairPre
  rw [lookupF_dset_ne _ _ _ _ h5, lookupF_dset_ne _ _ _ _ h4]
  by_cases hst : isEnumStyle (getD (dset (dset d "id" (getD d "id"
      (.str ("repaired_" ++ toString now)))) "title"
      (getD (dset d "id" (getD d "id" (.str ("repaired_" ++ toString now)))) "title"
        (.str "Repaired Dream"))) "style" .null)
  · rw [if_pos hst, lookupF_dset_ne _ _ _ _ h2, lookupF_dset_ne _ _ _ _ h1]
  · rw [if_neg hst, lookupF_dset_ne _ _ _ _ h3, lookupF_dset_ne _ _ _ _ h2,
      lookupF_dset_ne _ _ _ _ h1]

theorem lookupF_repairPre_structures (d : Doc) (now : ℕ) :
    lookupF (repairPre d now) "structures" = some (.arr (coercedStructures d)) := by
  have hg : ∀ (x : Doc), lookupF x "structures" = lookupF d "structures" →
      coerceArr (getD x "structures" (.arr [])) = .arr (coercedStructures d) := by
    intro x hx
    unfold getD coerceArr coercedStructures getD
    rw [hx]
    cases hl : lookupF d "structures" with
    | none => simp
    | some w => cases w <;> simp
  unfold repairPre
  rw [lookupF_dset_ne _ _ _ _ (by decide), lookupF_dset_self]
  rw [hg]
  by_cases hst : isEnumStyle (getD (dset (dset d "id" (getD d "id"
      (.str ("repaired_" ++ toString now)))) "title"
      (getD (dset d "id" (getD d "id" (.str ("repaired_" ++ toString now)))) "title"
        (.str "Repaired Dream"))) "style" .null)
  · rw [if_pos hst, lookupF_dset_ne _ _ _ _ (by decide),
      lookupF_dset_ne _ _ _ _ (by decide)]
  · rw [if_neg hst, lookupF_dset_ne _ _ _ _ (by decide),
      lookupF_dset_ne _ _ _ _ (by decide), lookupF_dset_ne _ _ _ _ (by decide)]

theorem memberF_repairPre_id (d : Doc) (now : ℕ) :
    memberF (repairPre d now) "id" = true := by
  unfold repairPre memberF
  rw [lookupF_dset_ne _ _ _ _ (by decide), lookupF_dset_ne _ _ _ _ (by decide)]
  by_cases hst : isEnumStyle (getD (dset (dset d "id" (getD d "id"
      (.str ("repaired_" ++ toString now)))) "title"
      (getD (dset d "id" (getD d "id" (.str ("repaired_" ++ toString now)))) "title"
        (.str "Repaired Dream"))) "style" .null)
  · rw [if_pos hst, lookupF_dset_ne _ _ _ _ (by decide), lookupF_dset_self]
    rfl
  · rw [if_neg hst, lookupF_dset_ne _ _ _ _ (by decide),
      lookupF_dset_ne _ _ _ _ (by decide), lookupF_dset_self]
    rfl

theorem memberF_repairPre_title (d : Doc) (now : ℕ) :
    memberF (repairPre d now) "title" = true := by
  unfold repairPre memberF
  rw [lookupF_dset_ne _ _ _ _ (by decide), lookupF_dset_ne _ _ _ _ (by decide)]
  by_cases hst : isEnumStyle (getD (dset (dset d "id" (getD d "id"
      (.str ("repaired_" ++ toString now)))) "title"
      (getD (dset d "id" (getD d "id" (.str ("repaired_" ++ toString now)))) "title"
        (.str "Repaired Dream"))) "style" .null)
  · rw [if_pos hst, lookupF_dset_self]
    rfl
  · rw [if_neg hst, lookupF_dset_ne _ _ _ _ (by decide), lookupF_dset_self]
    rfl

theorem isEnumStyle_getD_member (x : Doc) (k : String)
    (h : isEnumStyle (getD x k .null) = true) : memberF x k = true := by
  unfold memberF
  cases hl : lookupF x k with
  | none =>
    unfold getD at h
    rw [hl] at h
    simp [isEnumStyle] at h
  | some w => rfl

theorem style_repairPre (d : Doc) (now : ℕ) :
    isEnumStyle (getD (repairPre d now) "style" .null) = true ∧
    memberF (repairPre d now) "style" = true := by
  have hsk : ∀ (x : Doc) (v1 v2 : JVal),
      getD (dset (dset x "structures" v1) "entities" v2) "style" .null =
        getD x "style" .null := by
    intro x v1 v2
    unfold getD
    rw [lookupF_dset_ne _ _ _ _ (by decide), lookupF_dset_ne _ _ _ _ (by decide)]
  have henum : isEnumStyle (getD (repairPre d now) "style" .null) = true := by
    simp only [repairPre]
    by_cases hst : isEnumStyle (getD (dset (dset d "id" (getD d "id"
        (.str ("repaired_" ++ toString now)))) "title"
        (getD (dset d "id" (getD d "id" (.str ("repaired_" ++ toString now)))) "title"
          (.str "Repaired Dream"))) "style" .null)
    · rw [if_pos hst, hsk]
      exact hst
    · rw [if_neg hst, hsk]
      unfold getD
      rw [lookupF_dset_self]
      simp [isEnumStyle, ENUM_STYLES]
  exact ⟨henum, isEnumStyle_getD_member _ _ henum⟩

theorem repair_dream_ok (d : Doc) (now : ℕ) (h : repairSafeB d = true) :
    ∃ r, repair_dream d now = .ok r := by
  simp only [repairSafeB, Bool.and_eq_true] at h
  obtain ⟨h1, hcond⟩ := h
  have hgc : getD (repairPre d now) "cinematography" .null = getD d "cinematography" .null := by
    unfold getD
    rw [lookupF_repairPre_ne d now _ (by decide) (by decide) (by decide) (by decide) (by decide)]
  obtain ⟨r6, hc⟩ := cinRepair_ok (repairPre d now) (coercedStructures d)
    (lookupF_repairPre_structures d now) (by rw [hgc]; exact hcond)
  obtain ⟨c2, hr6, _, _, _, _⟩ := cinRepair_inv _ _ hc
  have hassum : lookupF r6 "assumptions" = lookupF d "assumptions" := by
    rw [hr6, lookupF_dset_ne _ _ _ _ (by decide),
      lookupF_repairPre_ne d now _ (by decide) (by decide) (by decide) (by decide) (by decide)]
  have hsd : setdefaultAppend r6 "assumptions" (.str "auto_repaired_missing_fields") =
      .ok (sdAppendPure r6 "assumptions" (.str "auto_repaired_missing_fields")) := by
    apply setdefaultAppend_eq_pure
    rw [hassum]
    exact h1
  refine ⟨sdAppendPure r6 "assumptions" (.str "auto_repaired_missing_fields"), ?_⟩
  rw [repair_dream_eq]
  simp only [Bind.bind, Except.bind, hc, hsd]

theorem validate_after_repair (d : Doc) (now : ℕ) (r : Doc)
    (h : repair_dream d now = .ok r) :
    validate_dream (.obj r) = (true, []) := by
  rw [repair_dream_eq] at h
  simp only [Bind.bind, Except.bind] at h
  cases hc : cinRepair (repairPre d now) with
  | error msg => rw [hc] at h; simp at h
  | ok r6 =>
    rw [hc] at h
    simp only at h
    cases hsd : setdefaultAppend r6 "assumptions" (.str "auto_repaired_missing_fields") with
    | error msg => rw [hsd] at h; simp at h
    | ok r7 =>
      rw [hsd] at h
      simp only [Except.ok.injEq] at h
      subst h
      obtain ⟨c2, hr6, hdc, x, xs, hsh⟩ := cinRepair_inv _ _ hc
      have hlid : lookupF r7 "id" = lookupF (repairPre d now) "id" := by
        rw [setdefaultAppend_lookup_ne r6 r7 _ _ _ hsd (by decide), hr6,
          lookupF_dset_ne _ _ _ _ (by decide)]
      have hltitle : lookupF r7 "title" = lookupF (repairPre d now) "title" := by
        rw [setdefaultAppend_lookup_ne r6 r7 _ _ _ hsd (by decide), hr6,
          lookupF_dset_ne _ _ _ _ (by decide)]
      have hlstyle : lookupF r7 "style" = lookupF (repairPre d now) "style" := by
        rw [setdefaultAppend_lookup_ne r6 r7 _ _ _ hsd (by decide), hr6,
          lookupF_dset_ne _ _ _ _ (by decide)]
      have hlcin : lookupF r7 "cinematography" = some (.obj c2) := by
        rw [setdefaultAppend_lookup_ne r6 r7 _ _ _ hsd (by decide), hr6,
          lookupF_dset_self]
      have hmid : memberF r7 "id" = true := by
        unfold memberF
        rw [hlid]
        exact memberF_repairPre_id d now
      have hmtitle : memberF r7 "title" = true := by
        unfold memberF
        rw [hltitle]
        exact memberF_repairPre_title d now
      obtain ⟨hse0, hms0⟩ := style_repairPre d now
      have hmstyle : memberF r7 "style" = true := by
        unfold memberF
        rw [hlstyle]
        exact hms0
      have hsenum : isEnumStyle (getD r7 "style" .null) = true := by
        unfold getD
        rw [hlstyle]
        exact hse0
      have hmcin : memberF r7 "cinematography" = true := by
        unfold memberF
        rw [hlcin]
        rfl
      have hgcin : getD r7 "cinematography" .null = .obj c2 := by
        unfold getD
        rw [hlcin]
        rfl
      have hmshots : memberF c2 "shots" = true := by
        unfold memberF
        rw [hsh]
        rfl
      have hgshots : getD c2 "shots" .null = .arr (x :: xs) := by
        unfold getD
        rw [hsh]
        rfl
      simp [validate_dream, REQUIRED_FIELDS, hmid, hmtitle, hmstyle, hsenum, hmcin,
        hgcin, hdc, hmshots, hgshots]

/-! ## Resolver path lemmas -/

theorem safe_patch_fallback_append (d : Doc) (e : String) (now : ℕ) (ts : String)
    (tag : String) (h : safeDocB d = true) :
    (do
      let fb ← safe_patch d e now ts
      let fb2 ← setdefaultAppend fb "assumptions" (.str tag)
      Except.ok fb2) =
    .ok (dset (safe_patch_pure d e now ts) "assumptions"
      (.arr (assumArr d ++ [.str (spEntry e), .str tag]))) ∧
    lookupF (dset (safe_patch_pure d e now ts) "assumptions"
      (.arr (assumArr d ++ [.str (spEntry e), .str tag]))) "assumptions" =
      some (.arr (assumArr d ++ [.str (spEntry e), .str tag])) := by
  obtain ⟨h1, _, _, _, _⟩ := safeDocB_components d h
  have hsp := safe_patch_eq_pure d e now ts h
  have hpa := lookupF_safe_patch_pure_assum d e now ts h1
  have hsd : setdefaultAppend (safe_patch_pure d e now ts) "assumptions" (.str tag) =
      .ok (dset (safe_patch_pure d e now ts) "assumptions"
        (.arr ((assumArr d ++ [.str (spEntry e)]) ++ [.str tag]))) := by
    unfold setdefaultAppend
    rw [hpa]
  constructor
  · simp only [Bind.bind, Except.bind, hsp, hsd, List.append_assoc, List.singleton_append,
      List.cons_append, List.nil_append]
  · rw [lookupF_dset_self]

theorem apply_patch_exception_path (d : Doc) (e : String) (now : ℕ) (ts : String)
    (msg : String) (h : safeDocB d = true) :
    apply_patch (.error msg) d e now ts =
      .ok (dset (safe_patch_pure d e now ts) "assumptions"
        (.arr (assumArr d ++ [.str (spEntry e), .str "fallback_on_exception"]))) := by
  have hb : apply_patch_body (.error msg) d e now ts = .error msg := by
    simp [apply_patch_body, Bind.bind, Except.bind]
  rw [apply_patch, hb]
  exact (safe_patch_fallback_append d e now ts "fallback_on_exception" h).1

theorem apply_patch_noparse_path (d : Doc) (e : String) (now : ℕ) (ts : String)
    (txt : String) (h : safeDocB d = true)
    (hx : extract_json_from_text txt = none) (hp : parse_json_or_none txt = none) :
    apply_patch (.ok txt) d e now ts =
      .ok (dset (safe_patch_pure d e now ts) "assumptions"
        (.arr (assumArr d ++ [.str (spEntry e), .str "used_safe_fallback"]))) := by
  obtain ⟨h1, _, _, _, _⟩ := safeDocB_components d h
  have hsp := safe_patch_eq_pure d e now ts h
  have hpa := lookupF_safe_patch_pure_assum d e now ts h1
  have hb : apply_patch_body (.ok txt) d e now ts =
      .ok (dset (safe_patch_pure d e now ts) "assumptions"
        (.arr (assumArr d ++ [.str (spEntry e), .str "used_safe_fallback"]))) := by
    rw [apply_patch_body]
    simp only [Bind.bind, Except.bind, hx, hp, pyFalsyO, Bool.true_or, if_true, hsp]
    simp only [hpa, Bind.bind, Except.bind, List.append_assoc, List.cons_append,
      List.singleton_append, List.nil_append]
  rw [apply_patch, hb]

theorem apply_patch_total (gen : Except String String) (d : Doc) (e : String)
    (now : ℕ) (ts : String) (h : safeDocB d = true) :
    ∃ p, apply_patch gen d e now ts = .ok p := by
  cases hb : apply_patch_body gen d e now ts with
  | ok p => exact ⟨p, by rw [apply_patch, hb]⟩
  | error msg =>
    refine ⟨dset (safe_patch_pure d e now ts) "assumptions"
      (.arr (assumArr d ++ [.str (spEntry e), .str "fallback_on_exception"])), ?_⟩
    rw [apply_patch, hb]
    exact (safe_patch_fallback_append d e now ts "fallback_on_exception" h).1

theorem apply_style_fallback_append (d : Doc) (s : String) (tag : String)
    (h : styleDocB d = true) :
    (do
      let en ← apply_style d s
      let en2 ← setdefaultAppend en "assumptions" (.str tag)
      Except.ok en2) =
    .ok (dset (apply_style_pure d s) "assumptions"
      (.arr (assumArr d ++ [.str ("Deterministic style mapping applied -> " ++ s),
        .str tag]))) := by
  obtain ⟨h1, _, _⟩ := styleDocB_components d h
  have hap := apply_style_eq_pure d s h
  have hpa := lookupF_apply_style_pure_assum d s h1
  have hsd : setdefaultAppend (apply_style_pure d s) "assumptions" (.str tag) =
      .ok (dset (apply_style_pure d s) "assumptions"
        (.arr ((assumArr d ++ [.str ("Deterministic style mapping applied -> " ++ s)])
          ++ [.str tag]))) := by
    unfold setdefaultAppend
    rw [hpa]
  simp only [Bind.bind, Except.bind, hap, hsd, List.append_assoc, List.cons_append,
    List.singleton_append, List.nil_append]

theorem enrich_style_total (gen : Except String String) (d : Doc) (s : String)
    (h : styleDocB d = true) :
    ∃ p, enrich_style gen d s = .ok p := by
  cases hb : enrich_style_body gen d s with
  | ok p => exact ⟨p, by rw [enrich_style, hb]⟩
  | error msg =>
    refine ⟨dset (apply_style_pure d s) "assumptions"
      (.arr (assumArr d ++ [.str ("Deterministic style mapping applied -> " ++ s),
        .str "fallback_on_exception"])), ?_⟩
    rw [enrich_style, hb]
    exact apply_style_fallback_append d s "fallback_on_exception" h

theorem enrich_style_exception_path (d : Doc) (s : String) (msg : String)
    (h : styleDocB d = true) :
    enrich_style (.error msg) d s =
      .ok (dset (apply_style_pure d s) "assumptions"
        (.arr (assumArr d ++ [.str ("Deterministic style mapping applied -> " ++ s),
          .str "fallback_on_exception"]))) := by
  have hb : enrich_style_body (.error msg) d s = .error msg := by
    simp [enrich_style_body, Bind.bind, Except.bind]
  rw [enrich_style, hb]
  exact apply_style_fallback_append d s "fallback_on_exception" h

/-! ## stub_apply_patch lemmas -/

theorem ensure1_lookup_self (d : Doc) (k : String) :
    lookupF (ensure1 d k) k = some (.arr (arrAt d k)) := by
  unfold ensure1 arrAt
  cases hl : lookupF d k with
  | none => simp [lookupF_dset_self]
  | some w => cases w <;> simp [hl, lookupF_dset_self]

theorem ensure1_lookup_ne (d : Doc) (k k2 : String) (h : k2 ≠ k) :
    lookupF (ensure1 d k) k2 = lookupF d k2 := by
  unfold ensure1
  cases hl : lookupF d k with
  | none => simp [lookupF_dset_ne _ _ _ _ h]
  | some w => cases w <;> simp [hl, lookupF_dset_ne _ _ _ _ h]

theorem ensureLists_assum (d : Doc) :
    lookupF (ensureLists d) "assumptions" = some (.arr (arrAt d "assumptions")) := by
  unfold ensureLists
  rw [ensure1_lookup_self]
  congr 1
  unfold arrAt
  rw [ensure1_lookup_ne _ _ _ (by decide), ensure1_lookup_ne _ _ _ (by decide)]

theorem ensureLists_structures (d : Doc) :
    lookupF (ensureLists d) "structures" = some (.arr (arrAt d "structures")) := by
  unfold ensureLists
  rw [ensure1_lookup_ne _ _ _ (by decide), ensure1_lookup_ne _ _ _ (by decide),
    ensure1_lookup_self]

theorem ensureLists_entities (d : Doc) :
    lookupF (ensureLists d) "entities" = some (.arr (arrAt d "entities")) := by
  unfold ensureLists
  rw [ensure1_lookup_ne _ _ _ (by decide), ensure1_lookup_self]
  congr 1
  unfold arrAt
  rw [ensure1_lookup_ne _ _ _ (by decide)]

theorem ensureLists_other (d : Doc) (k : String) (h1 : k ≠ "structures")
    (h2 : k ≠ "entities") (h3 : k ≠ "assumptions") :
    lookupF (ensureLists d) k = lookupF d k := by
  unfold ensureLists
  rw [ensure1_lookup_ne _ _ _ h3, ensure1_lookup_ne _ _ _ h2, ensure1_lookup_ne _ _ _ h1]

theorem entitiesOf_ensureLists (d : Doc) (h : entitiesOKb d = true) :
    entitiesOf (ensureLists d) = entitiesOf d := by
  unfold entitiesOf
  rw [ensureLists_entities]
  rcases entitiesOKb_elim d h with he | ⟨es, he, _⟩
  · simp [arrAt, he]
  · simp [arrAt, he]

theorem safeDocB_ensureLists (d : Doc) (h : safeDocB d = true) :
    safeDocB (ensureLists d) = true := by
  obtain ⟨h1, h2, h3, h4, h5⟩ := safeDocB_components d h
  apply safeDocB_intro
  · rw [ensureLists_assum]
    simp [optArrOK]
  · rw [ensureLists_other d _ (by decide) (by decide) (by decide)]
    exact h2
  · rw [ensureLists_structures]
    simp [optArrOK]
  · rw [ensureLists_other d _ (by decide) (by decide) (by decide)]
    exact h4
  · unfold entitiesOKb
    rw [ensureLists_entities]
    rcases entitiesOKb_elim d h5 with he | ⟨es, he, hall⟩
    · simp [arrAt, he]
    · simp only [arrAt, he, List.all_eq_true]
      intro x hx
      exact hall x hx

theorem condAppendStructures (c : Bool) (p : Doc) (ap ap2 : List String) (lbl : String)
    (x : JVal) (hsafe : safeDocB p = true) (xs : List JVal)
    (hs : lookupF p "structures" = some (.arr xs))
    (hap : ap2 = if c then ap ++ [lbl] else ap) :
    ∃ p2, condStep c (fun q => appendAtKey q "structures" x) lbl (p, ap) = .ok (p2, ap2) ∧
      entitiesOf p2 = entitiesOf p ∧
      lookupF p2 "assumptions" = lookupF p "assumptions" ∧
      (∃ ys, lookupF p2 "structures" = some (.arr ys)) ∧
      safeDocB p2 = true := by
  subst hap
  cases c with
  | false => exact ⟨p, by simp [condStep], rfl, rfl, ⟨xs, hs⟩, hsafe⟩
  | true =>
    obtain ⟨h1, h2, h3, h4, h5⟩ := safeDocB_components p hsafe
    refine ⟨appendArrPure p "structures" x, ?_, ?_, ?_, ?_, ?_⟩
    · simp [condStep, appendAtKey_eq_pure p _ x xs hs, Bind.bind, Except.bind]
    · exact entitiesOf_congr _ _ (lookupF_appendArrPure_ne _ _ _ _ (by decide))
    · exact lookupF_appendArrPure_ne _ _ _ _ (by decide)
    · exact ⟨xs ++ [x], lookupF_appendArrPure_self p _ x xs hs⟩
    · apply safeDocB_intro
      · rw [lookupF_appendArrPure_ne _ _ _ _ (by decide)]; exact h1
      · rw [lookupF_appendArrPure_ne _ _ _ _ (by decide)]; exact h2
      · rw [lookupF_appendArrPure_self p _ x xs hs]; simp [optArrOK]
      · rw [lookupF_appendArrPure_ne _ _ _ _ (by decide)]; exact h4
      · rw [entitiesOKb_congr _ p (lookupF_appendArrPure_ne _ _ _ _ (by decide))]
        exact h5

theorem condSpeedStage (c : Bool) (p : Doc) (ap ap2 : List String) (lbl : String)
    (f : JVal → Except String JVal) (g : JVal → JVal) (hsafe : safeDocB p = true)
    (hfg : ∀ x, entityOKb x = true → f x = .ok (g x))
    (hgOK : ∀ x, entityOKb x = true → entityOKb (g x) = true)
    (hap : ap2 = if c then ap ++ [lbl] else ap) :
    ∃ p2, condStep c (updateEntities f) lbl (p, ap) = .ok (p2, ap2) ∧
      entitiesOf p2 = (if c then (entitiesOf p).map g else entitiesOf p) ∧
      lookupF p2 "assumptions" = lookupF p "assumptions" ∧
      lookupF p2 "structures" = lookupF p "structures" ∧
      safeDocB p2 = true := by
  subst hap
  obtain ⟨h1, h2, h3, h4, h5⟩ := safeDocB_components p hsafe
  cases c with
  | false => exact ⟨p, by simp [condStep], by simp, rfl, rfl, hsafe⟩
  | true =>
    have hupd : updateEntities f p = .ok (entitiesMapPure g p) := by
      apply updateEntities_eq_pure _ _ _ (entitiesOKb_elim p h5)
      intro x hx
      exact hfg x (entitiesOf_all_OK p h5 x hx)
    refine ⟨entitiesMapPure g p, ?_, ?_, ?_, ?_, ?_⟩
    · simp [condStep, hupd, Bind.bind, Except.bind]
    · simp only [if_true]
      exact entitiesOf_entitiesMapPure g p
    · exact lookupF_entitiesMapPure_ne _ _ _ (by decide)
    · exact lookupF_entitiesMapPure_ne _ _ _ (by decide)
    · apply safeDocB_intro
      · rw [lookupF_entitiesMapPure_ne _ _ _ (by decide)]; exact h1
      · rw [lookupF_entitiesMapPure_ne _ _ _ (by decide)]; exact h2
      · rw [lookupF_entitiesMapPure_ne _ _ _ (by decide)]; exact h3
      · rw [lookupF_entitiesMapPure_ne _ _ _ (by decide)]; exact h4
      · unfold entitiesOKb
        rw [lookupF_entitiesMapPure_entities]
        rcases entitiesOKb_elim p h5 with he | ⟨es, he, hall⟩
        · rw [he]
        · rw [he]
          simp only [List.all_eq_true]
          intro y hy
          simp only [List.mem_map] at hy
          obtain ⟨z, hz, rfl⟩ := hy
          exact hgOK z (hall z hz)

theorem condAssumStage (c : Bool) (p : Doc) (ap ap2 : List String) (lbl : String)
    (x : JVal) (hsafe : safeDocB p = true)
    (hap : ap2 = if c then ap ++ [lbl] else ap) :
    ∃ p2, condStep c (fun q => setdefaultAppend q "assumptions" x) lbl (p, ap) =
        .ok (p2, ap2) ∧
      entitiesOf p2 = entitiesOf p ∧
      lookupF p2 "structures" = lookupF p "structures" ∧
      safeDocB p2 = true := by
  subst hap
  obtain ⟨h1, h2, h3, h4, h5⟩ := safeDocB_components p hsafe
  cases c with
  | false => exact ⟨p, by simp [condStep], rfl, rfl, hsafe⟩
  | true =>
    refine ⟨sdAppendPure p "assumptions" x, ?_, ?_, ?_, ?_⟩
    · simp [condStep, setdefaultAppend_eq_pure p _ x h1, Bind.bind, Except.bind]
    · exact entitiesOf_congr _ _ (lookupF_sdAppendPure_ne _ _ _ _ (by decide))
    · exact lookupF_sdAppendPure_ne _ _ _ _ (by decide)
    · apply safeDocB_intro
      · rw [lookupF_sdAppendPure_self p _ x h1]; simp [optArrOK]
      · rw [lookupF_sdAppendPure_ne _ _ _ _ (by decide)]; exact h2
      · rw [lookupF_sdAppendPure_ne _ _ _ _ (by decide)]; exact h3
      · rw [lookupF_sdAppendPure_ne _ _ _ _ (by decide)]; exact h4
      · rw [entitiesOKb_congr _ p (lookupF_sdAppendPure_ne _ _ _ _ (by decide))]
        exact h5

theorem plainAssumStage (p : Doc) (x : JVal) (hsafe : safeDocB p = true) :
    ∃ p2, setdefaultAppend p "assumptions" x = .ok p2 ∧
      entitiesOf p2 = entitiesOf p ∧ safeDocB p2 = true := by
  obtain ⟨h0, _, _, _, _⟩ := safeDocB_components p hsafe
  obtain ⟨p2, heq, hent, _, hs⟩ := condAssumStage true p [] ([] ++ [""]) "" x hsafe (by simp)
  refine ⟨p2, ?_, hent, hs⟩
  simp only [condStep, if_true, Bind.bind, Except.bind] at heq
  cases hsd : setdefaultAppend p "assumptions" x with
  | error msg => rw [hsd] at heq; simp at heq
  | ok q =>
    rw [hsd] at heq
    simp only [Except.ok.injEq, Prod.mk.injEq] at heq
    rw [heq.1]

theorem plainHistStage (p : Doc) (x : JVal) (hsafe : safeDocB p = true) :
    ∃ p2, setdefaultAppend p "patchHistory" x = .ok p2 ∧
      entitiesOf p2 = entitiesOf p ∧ safeDocB p2 = true := by
  obtain ⟨h1, h2, h3, h4, h5⟩ := safeDocB_components p hsafe
  refine ⟨sdAppendPure p "patchHistory" x, setdefaultAppend_eq_pure p _ x h2, ?_, ?_⟩
  · exact entitiesOf_congr _ _ (lookupF_sdAppendPure_ne _ _ _ _ (by decide))
  · apply safeDocB_intro
    · rw [lookupF_sdAppendPure_ne _ _ _ _ (by decide)]; exact h1
    · rw [lookupF_sdAppendPure_self p _ x h2]; simp [optArrOK]
    · rw [lookupF_sdAppendPure_ne _ _ _ _ (by decide)]; exact h3
    · rw [lookupF_sdAppendPure_ne _ _ _ _ (by decide)]; exact h4
    · rw [entitiesOKb_congr _ p (lookupF_sdAppendPure_ne _ _ _ _ (by decide))]
      exact h5

theorem except_bind_ok {A B : Type} (a : A) (f : A → Except String B) :
    (Except.ok a >>= f : Except String B) = f a := rfl

theorem stub_entities_spec (d : Doc) (e : String) (now : ℕ) (ts : String)
    (rnd : ℕ → ℚ) (h : safeDocB d = true) :
    ∃ p, stub_apply_patch d e now ts rnd = .ok p ∧
      entitiesOf p = (entitiesOf d).map (stubEntityPure (pyLower e)) := by
  obtain ⟨_, _, _, _, hent0⟩ := safeDocB_components d h
  set edit := pyLower e with hedit
  set p0 := ensureLists d with hp0
  have h0 : safeDocB p0 = true := safeDocB_ensureLists d h
  have h0e : entitiesOf p0 = entitiesOf d := entitiesOf_ensureLists d hent0
  have hfold := colorsFold_eq_pure stubColorLabel edit colorTable p0 [] h0
  set p1 := colorsFoldPure colorTable edit p0 with hp1
  set ap1 := ([] : List String) ++
    (colorTable.filter (fun kv => substrB kv.1 edit)).map (fun kv => stubColorLabel kv.1)
    with hap1
  have h1 : safeDocB p1 = true := safeDocB_colorsFoldPure _ _ _ h0
  have h1e : entitiesOf p1 = (entitiesOf d).map (colorsEntityFold colorTable edit) := by
    rw [hp1, entitiesOf_colorsFoldPure, h0e]
  have h1s : lookupF p1 "structures" = some (.arr (arrAt d "structures")) := by
    rw [hp1, lookupF_colorsFoldPure_ne edit colorTable _ (by decide) (by decide), hp0,
      ensureLists_structures]
  set ap2 := (if islandCond edit then ap1 ++ ["added floating_island"] else ap1) with hap2
  set ap3 := (if towerCond edit then ap2 ++ ["added crystal_tower"] else ap2) with hap3
  set ap4 := (if fasterCond edit then ap3 ++ ["increased speed"] else ap3) with hap4
  set ap5 := (if slowerCond edit then ap4 ++ ["decreased speed"] else ap4) with hap5
  set ap6 := (if ap5.isEmpty then ap5 ++ ["recorded as assumption"] else ap5) with hap6
  obtain ⟨p2, heq2, h2e, _, h2s, h2⟩ :=
    condAppendStructures (islandCond edit) p1 ap1 ap2 "added floating_island"
      (islandObjStub now rnd) h1 _ h1s hap2
  obtain ⟨xs2, h2sl⟩ := h2s
  obtain ⟨p3, heq3, h3e, _, h3s, h3⟩ :=
    condAppendStructures (towerCond edit) p2 ap2 ap3 "added crystal_tower"
      (towerObjStub now rnd) h2 _ h2sl hap3
  obtain ⟨p4, heq4, h4e, _, _, h4⟩ :=
    condSpeedStage (fasterCond edit) p3 ap3 ap4 "increased speed" boostEntity boostPure h3
      boostEntity_eq_pure entityOKb_boostPure hap4
  obtain ⟨p5, heq5, h5e, _, _, h5⟩ :=
    condSpeedStage (slowerCond edit) p4 ap4 ap5 "decreased speed" slowEntity slowPure h4
      slowEntity_eq_pure entityOKb_slowPure hap5
  obtain ⟨p6, heq6, h6e, _, h6⟩ :=
    condAssumStage ap5.isEmpty p5 ap5 ap6 "recorded as assumption"
      (.str ("Requested edit recorded: \"" ++ e ++ "\"")) h5 hap6
  obtain ⟨p7, heq7, h7e, h7⟩ :=
    plainHistStage p6 (historyObj e ts "stub") h6
  obtain ⟨p8, heq8, h8e, _⟩ :=
    plainAssumStage p7 (.str ("Stub patch applied: " ++ String.intercalate ", " ap6)) h7
  refine ⟨p8, ?_, ?_⟩
  · simp only [stub_apply_patch]
    rw [← hedit, ← hp0]
    simp only [hfold, heq2, heq3, heq4, heq5, heq6, heq7, heq8, except_bind_ok]
  · rw [h8e, h7e, h6e, h5e, h4e, h3e, h2e, h1e]
    by_cases hF : fasterCond edit <;> by_cases hS : slowerCond edit <;>
      simp [stubEntityPure, hF, hS, List.map_map, Function.comp]
/-! ## Single-keyword color lemmas -/

theorem colorsEntityFold_singleton (tbl : List (String × String)) (edit : String)
    (k v : String) (hf : tbl.filter (fun kv => substrB kv.1 edit) = [(k, v)]) :
    ∀ e, colorsEntityFold tbl edit e = setColorPure v e := by
  intro e
  unfold colorsEntityFold
  rw [hf]
  simp

theorem skyFold_singleton (tbl : List (String × String)) (edit : String)
    (k v : String) (hf : tbl.filter (fun kv => substrB kv.1 edit) = [(k, v)]) :
    ∀ x, skyFold tbl edit x = skyStep v x := by
  intro x
  unfold skyFold
  rw [hf]
  simp

theorem paramColor_spEntityPure (edit k v : String)
    (hf : colorTable.filter (fun kv => substrB kv.1 edit) = [(k, v)]) (e : JVal)
    (h : entityOKb e = true) :
    paramColor (spEntityPure edit e) = some (.str v) := by
  simp only [spEntityPure]
  rw [colorsEntityFold_singleton colorTable edit k v hf e]
  by_cases hF : fasterCond edit
  · rw [if_pos hF, paramColor_boostPure]
    exact paramColor_setColorPure v e h
  · rw [if_neg hF]
    exact paramColor_setColorPure v e h

theorem appliedSafe_mem_color (edit k v : String)
    (hf : colorTable.filter (fun kv => substrB kv.1 edit) = [(k, v)]) :
    safeColorLabel k ∈ appliedSafe edit := by
  unfold appliedSafe
  rw [hf]
  simp

/-! ## Per-entity speed formulas -/

theorem paramSpeed_spEntityPure_faster (edit : String) (hF : fasterCond edit = true)
    (e : JVal) (h : entityOKb e = true) :
    paramSpeed (spEntityPure edit e) =
      some (.num (min 10 (numOfOpt 1 (paramSpeed e) * (3/2)))) := by
  simp only [spEntityPure]
  rw [if_pos hF, paramSpeed_boostPure _ (entityOKb_colorsEntityFold colorTable edit e h),
    paramSpeed_colorsEntityFold]

theorem paramSpeed_spEntityPure_nofaster (edit : String) (hF : fasterCond edit = false)
    (e : JVal) :
    paramSpeed (spEntityPure edit e) = paramSpeed e := by
  simp only [spEntityPure]
  rw [if_neg (by simp [hF] : ¬(fasterCond edit = true)), paramSpeed_colorsEntityFold]

theorem paramSpeed_stubEntityPure_faster (edit : String) (hF : fasterCond edit = true)
    (hS : slowerCond edit = false) (e : JVal) (h : entityOKb e = true) :
    paramSpeed (stubEntityPure edit e) =
      some (.num (min 10 (numOfOpt 1 (paramSpeed e) * (3/2)))) := by
  simp only [stubEntityPure]
  rw [if_neg (by simp [hS] : ¬(slowerCond edit = true)), if_pos hF,
    paramSpeed_boostPure _ (entityOKb_colorsEntityFold colorTable edit e h),
    paramSpeed_colorsEntityFold]

theorem paramSpeed_stubEntityPure_slower (edit : String) (hF : fasterCond edit = false)
    (hS : slowerCond edit = true) (e : JVal) (h : entityOKb e = true) :
    paramSpeed (stubEntityPure edit e) =
      some (.num (max (1/100) (numOfOpt 1 (paramSpeed e) * (7/10)))) := by
  simp only [stubEntityPure]
  rw [if_pos hS, if_neg (by simp [hF] : ¬(fasterCond edit = true)),
    paramSpeed_slowPure _ (entityOKb_colorsEntityFold colorTable edit e h),
    paramSpeed_colorsEntityFold]

/-! ## Glow multiplier bounds -/

theorem styleCfg_glow_le_one (s : String) : (get_style_config s).defGlow ≤ 1 := by
  simp only [get_style_config]
  split_ifs <;>
    norm_num [etherealCfg, cyberpunkCfg, surrealCfg, fantasyCfg, nightmareCfg]
/-! ## Remaining support lemmas -/

theorem styleEntitiesOf_all_OK (d : Doc) (h : styleDocB d = true) :
    ∀ x ∈ entitiesOf d, styleEntityOKb x = true := by
  obtain ⟨_, _, h3⟩ := styleDocB_components d h
  rcases h3 with he | ⟨es, he, hall⟩
  · simp [entitiesOf, he]
  · simpa [entitiesOf, he] using hall

theorem forall2_map_map {α β γ : Type} (R : β → γ → Prop) (f : α → β) (g : α → γ)
    (l : List α) (h : ∀ x ∈ l, R (f x) (g x)) :
    List.Forall₂ R (l.map f) (l.map g) := by
  induction l with
  | nil => simp
  | cons a l ih =>
    simp only [List.map_cons, List.forall₂_cons]
    exact ⟨h a (by simp), ih (fun x hx => h x (List.mem_cons_of_mem a hx))⟩

theorem enum_style_lower_fixed (s : String) (h : ENUM_STYLES.contains s = true) :
    pyLower s = s := by
  have h2 : s = "ethereal" ∨ s = "cyberpunk" ∨ s = "surreal" ∨ s = "fantasy" ∨
      s = "nightmare" := by
    simpa [ENUM_STYLES, List.contains_iff_exists_mem_beq, List.mem_cons] using h
  rcases h2 with h2 | h2 | h2 | h2 | h2 <;> (rw [h2]; rfl)

theorem isEnumStyle_of_lower_notin (s : String)
    (h : ENUM_STYLES.contains (pyLower s) = false) :
    isEnumStyle (.str s) = false := by
  simp only [isEnumStyle]
  cases hc : ENUM_STYLES.contains s with
  | false => rfl
  | true =>
    rw [enum_style_lower_fixed s hc, hc] at h
    exact absurd h (by simp)
/-! ## The claims -/

/-- C1. The spec says the resolvers apply_patch and enrich_style never raise
to their caller for every document, edit text and options. In the code, the
`except` fallback itself calls safe_patch / apply_style on the caller's
document outside any try block, and those helpers raise (e.g. TypeError
iterating a non-list `entities`) on ill-typed documents — see the
counterexample. Amended: for well-typed documents (safeDocB / styleDocB),
both resolvers always return a document, whatever the LLM backend does. -/
theorem resolvers_total_on_welltyped (gen : Except String String) (d : Doc)
    (e s : String) (now : ℕ) (ts : String)
    (hp : safeDocB d = true) (hs : styleDocB d = true) :
    (∃ p, apply_patch gen d e now ts = .ok p) ∧
    (∃ q, enrich_style gen d s = .ok q) :=
  ⟨apply_patch_total gen d e now ts hp, enrich_style_total gen d s hs⟩

theorem resolvers_total_on_welltyped_witness :
    (∃ p, apply_patch (.error "x") [("title", JVal.str "t")] "hi" 0 "TS" = .ok p) ∧
    (∃ q, enrich_style (.error "x") [("title", JVal.str "t")] "ethereal" = .ok q) :=
  resolvers_total_on_welltyped (.error "x") [("title", JVal.str "t")] "hi" "ethereal"
    0 "TS" (by decide) (by decide)

/-- Refuting C1 as stated: with entities bound to a number, the backend
failure path raises TypeError out of apply_patch (the fallback safe_patch
iterates `entities` in its color loop). -/
theorem apply_patch_raises_on_illtyped_base :
    (apply_patch (.error "boom") [("entities", JVal.num 5)] "blue" 0 "TS").toOption
      = none := by rfl

/-- C2. The spec says every resolvePatch result has structures, entities and
assumptions present as sequences with d's assumptions preserved by append.
In the code no path (re)establishes `structures`/`entities` — safe_patch only
touches `structures` for an "add island" edit and never creates `entities` —
see the counterexample. Amended: on the exception-fallback path the result's
assumptions are exactly d's with the recorded-edit entry and the
"fallback_on_exception" tag appended (an append-superset, nothing removed). -/
theorem apply_patch_fallback_appends_assumptions (d : Doc) (e : String) (now : ℕ)
    (ts msg : String) (h : safeDocB d = true) :
    ∃ p, apply_patch (.error msg) d e now ts = .ok p ∧
      lookupF p "assumptions" =
        some (.arr (assumArr d ++ [.str (spEntry e), .str "fallback_on_exception"])) := by
  refine ⟨dset (safe_patch_pure d e now ts) "assumptions"
    (.arr (assumArr d ++ [.str (spEntry e), .str "fallback_on_exception"])), ?_, ?_⟩
  · exact apply_patch_exception_path d e now ts msg h
  · exact (safe_patch_fallback_append d e now ts "fallback_on_exception" h).2

theorem apply_patch_fallback_appends_assumptions_witness :
    ∃ p, apply_patch (.error "boom") [("assumptions", JVal.arr [JVal.str "a0"])]
        "hello" 0 "TS" = .ok p ∧
      lookupF p "assumptions" =
        some (.arr (assumArr [("assumptions", JVal.arr [JVal.str "a0"])] ++
          [.str (spEntry "hello"), .str "fallback_on_exception"])) :=
  apply_patch_fallback_appends_assumptions [("assumptions", JVal.arr [JVal.str "a0"])]
    "hello" 0 "TS" "boom" (by decide)

/-- Refuting C2 as stated: the exception-fallback result for a document with
no entities or structures still has neither key. -/
theorem apply_patch_fallback_lacks_containers :
    (apply_patch (.error "boom") [("title", JVal.str "t")] "hello" 0 "TS").toOption.map
      (fun p => (lookupF p "entities", lookupF p "structures")) = some (none, none) := by
  rfl

/-- C3. The spec says validate(repair(d)) = (true, []) for any document
missing id/title/style/cinematography. repair_dream itself raises on
ill-typed fields (e.g. a non-list `assumptions` has no `.append`) — see the
counterexample. Amended: on documents whose fields let repair's statements
run (repairSafeB), repair succeeds and its output validates cleanly. -/
theorem validate_after_repair_on_missing (d : Doc) (now : ℕ)
    (_hm : memberF d "id" = false ∨ memberF d "title" = false ∨
          memberF d "style" = false ∨ memberF d "cinematography" = false)
    (h : repairSafeB d = true) :
    ∃ r, repair_dream d now = .ok r ∧ validate_dream (.obj r) = (true, []) := by
  obtain ⟨r, hr⟩ := repair_dream_ok d now h
  exact ⟨r, hr, validate_after_repair d now r hr⟩

theorem validate_after_repair_on_missing_witness :
    ∃ r, repair_dream [] 0 = .ok r ∧ validate_dream (.obj r) = (true, []) :=
  validate_after_repair_on_missing [] 0 (Or.inl rfl) (by decide)

/-- Refuting C3 as stated: a document missing all four fields whose
assumptions is a number makes repair_dream raise, so validate(repair(d))
returns nothing at all. -/
theorem repair_raises_under_validate_claim :
    (repair_dream [("assumptions", JVal.num 5)] 0).toOption = none ∧
    memberF [("assumptions", JVal.num 5)] "id" = false := ⟨rfl, rfl⟩

/-- C4. The spec says repair_dream is total on mapping documents of arbitrary
field shapes. It raises AttributeError/TypeError on several shapes (the
counterexample's string-valued `cinematography.shots` makes the
durationSec sum call `.get` on a character) — so it is not total. Amended:
repair_dream returns a document exactly when its statements can run:
appendable assumptions, and computable shot synthesis/duration sums
(repairSafeB). -/
theorem repair_total_on_safe (d : Doc) (now : ℕ) (h : repairSafeB d = true) :
    ∃ r, repair_dream d now = .ok r :=
  repair_dream_ok d now h

theorem repair_total_on_safe_witness :
    ∃ r, repair_dream [("structures", JVal.num 7), ("entities", JVal.str "x"),
      ("cinematography", JVal.arr [])] 0 = .ok r :=
  repair_total_on_safe [("structures", JVal.num 7), ("entities", JVal.str "x"),
    ("cinematography", JVal.arr [])] 0 (by decide)

/-- Refuting C4 as stated: cinematography whose shots is a string (Python
would iterate its characters and call .get on them) makes repair_dream
raise instead of returning a document. -/
theorem repair_raises_on_string_shots :
    (repair_dream [("cinematography", JVal.obj [("shots", JVal.str "ab")])] 0).toOption
      = none := by rfl
/-- C5. The spec says a recognized color keyword sets every entity's
params.color and environment.skyColor to the keyword's hex value. The code
guards the sky write with `if patched.get("environment")`: a document with
no (or falsy) environment never gets a skyColor — see the counterexample.
Amended: for a well-typed document and an edit whose lower-casing matches
exactly one color keyword (k, v), safe_patch sets every entity's
params.color to v, records "color:k", and sets environment.skyColor to v
only when d already has a non-empty environment object. -/
theorem safe_patch_color_keyword (d : Doc) (e k v : String) (now : ℕ) (ts : String)
    (h : safeDocB d = true)
    (hf : colorTable.filter (fun kv => substrB kv.1 (pyLower e)) = [(k, v)]) :
    ∃ p, safe_patch d e now ts = .ok p ∧
      (∀ x ∈ entitiesOf p, paramColor x = some (.str v)) ∧
      safeColorLabel k ∈ appliedSafe (pyLower e) ∧
      (∀ ps, lookupF d "environment" = some (.obj ps) → ps ≠ [] →
        ∃ qs, lookupF p "environment" = some (.obj qs) ∧
          lookupF qs "skyColor" = some (.str v)) := by
  obtain ⟨_, _, _, _, h5⟩ := safeDocB_components d h
  refine ⟨safe_patch_pure d e now ts, safe_patch_eq_pure d e now ts h, ?_, ?_, ?_⟩
  · intro x hx
    rw [entitiesOf_safe_patch_pure] at hx
    obtain ⟨y, hy, rfl⟩ := List.mem_map.mp hx
    exact paramColor_spEntityPure (pyLower e) k v hf y (entitiesOf_all_OK d h5 y hy)
  · exact appliedSafe_mem_color (pyLower e) k v hf
  · intro ps hps hne
    have hsky := lookupF_safe_patch_pure_env d e now ts
    rw [hps, skyFold_singleton colorTable (pyLower e) k v hf] at hsky
    have hie : ps.isEmpty = false := by
      cases ps with
      | nil => exact absurd rfl hne
      | cons a l => rfl
    rw [skyStep, hie] at hsky
    simp only [Bool.false_eq_true, if_false] at hsky
    exact ⟨dset ps "skyColor" (.str v), hsky, lookupF_dset_self ps _ _⟩

theorem safe_patch_color_keyword_witness :
    ∃ p, safe_patch [("entities", JVal.arr [JVal.obj []]),
        ("environment", JVal.obj [("preset", JVal.str "dusk")])] "make it Blue" 0 "TS"
        = .ok p ∧
      (∀ x ∈ entitiesOf p, paramColor x = some (.str "#0000ff")) ∧
      safeColorLabel "blue" ∈ appliedSafe (pyLower "make it Blue") ∧
      (∀ ps, lookupF [("entities", JVal.arr [JVal.obj []]),
          ("environment", JVal.obj [("preset", JVal.str "dusk")])] "environment"
          = some (.obj ps) → ps ≠ [] →
        ∃ qs, lookupF p "environment" = some (.obj qs) ∧
          lookupF qs "skyColor" = some (.str "#0000ff")) :=
  safe_patch_color_keyword [("entities", JVal.arr [JVal.obj []]),
    ("environment", JVal.obj [("preset", JVal.str "dusk")])] "make it Blue"
    "blue" "#0000ff" 0 "TS" (by decide) (by decide)

/-- Refuting C5 as stated: a matching color edit on a document with no
environment mapping returns a document still without one, so no skyColor is
ever written. -/
theorem safe_patch_color_without_environment :
    (safe_patch [("title", JVal.str "t")] "blue" 0 "TS").toOption.map
      (fun p => lookupF p "environment") = some none := by rfl
/-- C6. The spec says the text-edit transform, including safe_patch, applies
both speed rules (faster: ×1.5 capped at 10; slower: ×0.7 floored at 0.01).
validators.safe_patch has no slower/calm/gentle branch at all — a "slower"
edit leaves every speed unchanged (counterexample). Amended: main's
stub_apply_patch implements both rules as specified; safe_patch implements
only the faster rule, and leaves speeds untouched for any edit without a
faster keyword. -/
theorem speed_rules (d : Doc) (e : String) (now : ℕ) (ts : String) (rnd : ℕ → ℚ)
    (h : safeDocB d = true) :
    (fasterCond (pyLower e) = true → slowerCond (pyLower e) = false →
      ∃ p, stub_apply_patch d e now ts rnd = .ok p ∧
        speedsOf p = (entitiesOf d).map (fun x =>
          some (.num (min 10 (numOfOpt 1 (paramSpeed x) * (3/2)))))) ∧
    (slowerCond (pyLower e) = true → fasterCond (pyLower e) = false →
      ∃ p, stub_apply_patch d e now ts rnd = .ok p ∧
        speedsOf p = (entitiesOf d).map (fun x =>
          some (.num (max (1/100) (numOfOpt 1 (paramSpeed x) * (7/10)))))) ∧
    (fasterCond (pyLower e) = true →
      ∃ p, safe_patch d e now ts = .ok p ∧
        speedsOf p = (entitiesOf d).map (fun x =>
          some (.num (min 10 (numOfOpt 1 (paramSpeed x) * (3/2)))))) ∧
    (fasterCond (pyLower e) = false →
      ∃ p, safe_patch d e now ts = .ok p ∧ speedsOf p = speedsOf d) := by
  obtain ⟨_, _, _, _, h5⟩ := safeDocB_components d h
  refine ⟨?_, ?_, ?_, ?_⟩
  · intro hF hS
    obtain ⟨p, hp, hent⟩ := stub_entities_spec d e now ts rnd h
    refine ⟨p, hp, ?_⟩
    rw [speedsOf, hent, List.map_map]
    apply List.map_congr_left
    intro x hx
    exact paramSpeed_stubEntityPure_faster (pyLower e) hF hS x (entitiesOf_all_OK d h5 x hx)
  · intro hS hF
    obtain ⟨p, hp, hent⟩ := stub_entities_spec d e now ts rnd h
    refine ⟨p, hp, ?_⟩
    rw [speedsOf, hent, List.map_map]
    apply List.map_congr_left
    intro x hx
    exact paramSpeed_stubEntityPure_slower (pyLower e) hF hS x (entitiesOf_all_OK d h5 x hx)
  · intro hF
    refine ⟨safe_patch_pure d e now ts, safe_patch_eq_pure d e now ts h, ?_⟩
    rw [speedsOf, entitiesOf_safe_patch_pure, List.map_map]
    apply List.map_congr_left
    intro x hx
    exact paramSpeed_spEntityPure_faster (pyLower e) hF x (entitiesOf_all_OK d h5 x hx)
  · intro hF
    refine ⟨safe_patch_pure d e now ts, safe_patch_eq_pure d e now ts h, ?_⟩
    rw [speedsOf, speedsOf, entitiesOf_safe_patch_pure, List.map_map]
    apply List.map_congr_left
    intro x hx
    exact paramSpeed_spEntityPure_nofaster (pyLower e) hF x

theorem speed_rules_witness :
    (fasterCond (pyLower "slower") = true → slowerCond (pyLower "slower") = false →
      ∃ p, stub_apply_patch [("entities", JVal.arr [JVal.obj [("params",
          JVal.obj [("speed", JVal.num 1)])]])] "slower" 0 "TS" (fun _ => 0) = .ok p ∧
        speedsOf p = (entitiesOf [("entities", JVal.arr [JVal.obj [("params",
          JVal.obj [("speed", JVal.num 1)])]])]).map (fun x =>
          some (.num (min 10 (numOfOpt 1 (paramSpeed x) * (3/2)))))) ∧
    (slowerCond (pyLower "slower") = true → fasterCond (pyLower "slower") = false →
      ∃ p, stub_apply_patch [("entities", JVal.arr [JVal.obj [("params",
          JVal.obj [("speed", JVal.num 1)])]])] "slower" 0 "TS" (fun _ => 0) = .ok p ∧
        speedsOf p = (entitiesOf [("entities", JVal.arr [JVal.obj [("params",
          JVal.obj [("speed", JVal.num 1)])]])]).map (fun x =>
          some (.num (max (1/100) (numOfOpt 1 (paramSpeed x) * (7/10)))))) ∧
    (fasterCond (pyLower "slower") = true →
      ∃ p, safe_patch [("entities", JVal.arr [JVal.obj [("params",
          JVal.obj [("speed", JVal.num 1)])]])] "slower" 0 "TS" = .ok p ∧
        speedsOf p = (entitiesOf [("entities", JVal.arr [JVal.obj [("params",
          JVal.obj [("speed", JVal.num 1)])]])]).map (fun x =>
          some (.num (min 10 (numOfOpt 1 (paramSpeed x) * (3/2)))))) ∧
    (fasterCond (pyLower "slower") = false →
      ∃ p, safe_patch [("entities", JVal.arr [JVal.obj [("params",
          JVal.obj [("speed", JVal.num 1)])]])] "slower" 0 "TS" = .ok p ∧
        speedsOf p = speedsOf [("entities", JVal.arr [JVal.obj [("params",
          JVal.obj [("speed", JVal.num 1)])]])]) :=
  speed_rules [("entities", JVal.arr [JVal.obj [("params",
    JVal.obj [("speed", JVal.num 1)])]])] "slower" 0 "TS" (fun _ => 0) (by decide)

/-- Refuting C6 as stated: safe_patch on a "slower" edit returns every
entity speed unchanged (no ×0.7 rule exists in validators.safe_patch). -/
theorem safe_patch_ignores_slower :
    (safe_patch [("entities", JVal.arr [JVal.obj [("params",
      JVal.obj [("speed", JVal.num 1)])]])] "slower" 0 "TS").toOption.map speedsOf =
    some [some (.num 1)] ∧ slowerCond (pyLower "slower") = true := ⟨rfl, rfl⟩
/-- C7. The spec says extractJson parses the first balanced brace block
(depth-counting matcher), retries with trailing-comma tidying, and returns
none when no balanced block exists or parses. The code has a further regex
fallback — when the depth counter finds no balanced block (braces inside
string literals throw the count off), it greedily slices from the first
opening to the last closing brace and parses that — see the counterexample.
Amended: on the spec's example input it returns the expected mapping; when
the depth-counting scan finds a block the result is the parse (with tidy
retry) of that slice; with no opening brace it returns none; and when the
scan fails the result is the parse (with tidy retry) of the greedy regex
slice instead of none. -/
theorem extract_json_spec (t : String) :
    (extract_json_from_text "Here is the result: \x7b\"id\":\"x\"\x7d -- hope that helps"
      = some (.obj [("id", .str "x")])) ∧
    (∀ s e, t.toList.contains lbraceChar = true →
      scanBlock t.toList 0 0 none = some (s, e) →
      extract_json_from_text t =
        (match json_loads (String.mk (sliceOf t.toList s e)) with
         | some v => some v
         | none => json_loads (tidyStr (String.mk (sliceOf t.toList s e))))) ∧
    (t.toList.contains lbraceChar = false → extract_json_from_text t = none) ∧
    (t.toList.contains lbraceChar = true → scanBlock t.toList 0 0 none = none →
      extract_json_from_text t =
        (match regexBlock t.toList with
         | some bs =>
            (match json_loads (String.mk bs) with
             | some v => some v
             | none => json_loads (tidyStr (String.mk bs)))
         | none => none)) := by
  refine ⟨by rfl, ?_, ?_, ?_⟩
  · intro s e hc hscan
    simp only [extract_json_from_text, firstJsonBlock]
    rw [if_pos hc, hscan]
  · intro hc
    simp only [extract_json_from_text, firstJsonBlock]
    rw [if_neg (show ¬(t.toList.contains lbraceChar = true) by rw [hc]; simp)]
  · intro hc hscan
    simp only [extract_json_from_text, firstJsonBlock]
    rw [if_pos hc, hscan]
    cases hrb : regexBlock t.toList with
    | none => simp [hrb]
    | some bs => simp [hrb]

theorem extract_json_spec_witness :
    extract_json_from_text "no braces here" = none :=
  (extract_json_spec "no braces here").2.2.1 (by rfl)

/-- Refuting C7's "none when no balanced block exists": the depth counter is
confused by a brace inside a string literal and finds no balanced block,
yet the regex fallback parses the whole text successfully. -/
theorem extract_json_regex_fallback :
    scanBlock ("\x7b\"a\":\"b\x7b\"\x7d".toList) 0 0 none = none ∧
    extract_json_from_text "\x7b\"a\":\"b\x7b\"\x7d" = some (.obj [("a", .str "b\x7b")]) :=
  ⟨rfl, rfl⟩
/-- C8. The spec says applying applyStyle twice with the same style gives
identical environment and color fields and second-application glow ≤
first-application glow when the style's glow multiplier is < 1. The glow
update is min(1, g·m): for a negative stored glow the second value is
strictly larger (closer to 0) — see the counterexample. Amended: for a
well-typed document whose entity glows are all non-negative, environment and
colors are idempotent and every glow is non-increasing across the second
application (the multipliers all lie in [0, 1]). -/
theorem apply_style_idem_env_color_glow (d : Doc) (s : String)
    (h : styleDocB d = true)
    (hg : ∀ x ∈ entitiesOf d, 0 ≤ numOfOpt (1/2) (paramGlow x)) :
    ∃ p1 p2, apply_style d s = .ok p1 ∧ apply_style p1 s = .ok p2 ∧
      lookupF p2 "environment" = lookupF p1 "environment" ∧
      colorsOf p2 = colorsOf p1 ∧
      List.Forall₂ (fun a b : Option JVal => numOfOpt (1/2) b ≤ numOfOpt (1/2) a)
        (glowsOf p1) (glowsOf p2) := by
  obtain ⟨h1, h2, _⟩ := styleDocB_components d h
  have hAll := styleEntitiesOf_all_OK d h
  have h1d : styleDocB (apply_style_pure d s) = true := styleDocB_apply_style_pure d s h
  obtain ⟨_, h2b, _⟩ := styleDocB_components _ h1d
  set cfg := get_style_config s with hcfg
  refine ⟨apply_style_pure d s, apply_style_pure (apply_style_pure d s) s,
    apply_style_eq_pure d s h, apply_style_eq_pure _ s h1d, ?_, ?_, ?_⟩
  · have e1 : lookupF (apply_style_pure d s) "environment" =
        some (.obj (envUpdate (envFieldsOf d) cfg)) :=
      lookupF_apply_style_pure_env d s h2
    have e2 : lookupF (apply_style_pure (apply_style_pure d s) s) "environment" =
        some (.obj (envUpdate (envFieldsOf (apply_style_pure d s)) cfg)) :=
      lookupF_apply_style_pure_env _ s h2b
    have e3 : envFieldsOf (apply_style_pure d s) = envUpdate (envFieldsOf d) cfg := by
      unfold envFieldsOf
      rw [e1]
      rfl
    rw [e2, e3, envUpdate_idem, e1]
  · unfold colorsOf
    simp only [entitiesOf_apply_style_pure, ← hcfg, List.map_map]
    apply List.map_congr_left
    intro x hx
    simp only [Function.comp]
    rw [paramColor_stylePure cfg _ (styleEntityOKb_stylePure cfg x (hAll x hx)),
      paramColor_stylePure cfg x (hAll x hx)]
  · unfold glowsOf
    simp only [entitiesOf_apply_style_pure, ← hcfg, List.map_map]
    apply forall2_map_map
    intro x hx
    simp only [Function.comp]
    rw [paramGlow_stylePure cfg x (hAll x hx),
      paramGlow_stylePure cfg _ (styleEntityOKb_stylePure cfg x (hAll x hx)),
      paramGlow_stylePure cfg x (hAll x hx)]
    simp only [numOfOpt]
    have hm0 : 0 ≤ cfg.defGlow := styleCfg_glow_nonneg s
    have hm1 : cfg.defGlow ≤ 1 := styleCfg_glow_le_one s
    have hg0 : 0 ≤ numOfOpt (1/2) (paramGlow x) := hg x hx
    have ha0 : 0 ≤ min 1 (numOfOpt (1/2) (paramGlow x) * cfg.defGlow) :=
      le_min (by norm_num) (mul_nonneg hg0 hm0)
    calc min 1 (min 1 (numOfOpt (1/2) (paramGlow x) * cfg.defGlow) * cfg.defGlow)
        ≤ min 1 (numOfOpt (1/2) (paramGlow x) * cfg.defGlow) * cfg.defGlow :=
          min_le_right _ _
      _ ≤ min 1 (numOfOpt (1/2) (paramGlow x) * cfg.defGlow) * 1 := by
          exact mul_le_mul_of_nonneg_left hm1 ha0
      _ = min 1 (numOfOpt (1/2) (paramGlow x) * cfg.defGlow) := mul_one _

theorem apply_style_idem_env_color_glow_witness :
    ∃ p1 p2, apply_style [("title", JVal.str "t")] "nightmare" = .ok p1 ∧
      apply_style p1 "nightmare" = .ok p2 ∧
      lookupF p2 "environment" = lookupF p1 "environment" ∧
      colorsOf p2 = colorsOf p1 ∧
      List.Forall₂ (fun a b : Option JVal => numOfOpt (1/2) b ≤ numOfOpt (1/2) a)
        (glowsOf p1) (glowsOf p2) :=
  apply_style_idem_env_color_glow [("title", JVal.str "t")] "nightmare" (by decide)
    (by intro x hx; simp [entitiesOf, lookupF] at hx)

/-- Refuting C8's glow inequality: an entity whose stored glow is -1 under
the nightmare style (multiplier 3/10 < 1) has glow -3/10 after one
application and -9/100 after two, and -9/100 ≤ -3/10 is false. -/
theorem apply_style_glow_increases_on_negative :
    (apply_style [("entities", JVal.arr [JVal.obj [("params",
      JVal.obj [("glow", JVal.num (-1))])]])] "nightmare").toOption.map glowsOf =
      some [some (.num (-3/10))] ∧
    ((apply_style [("entities", JVal.arr [JVal.obj [("params",
      JVal.obj [("glow", JVal.num (-1))])]])] "nightmare").toOption.bind
      (fun p => (apply_style p "nightmare").toOption)).map glowsOf =
      some [some (.num (-9/100))] ∧
    (get_style_config "nightmare").defGlow < 1 ∧
    ¬ ((-9/100 : ℚ) ≤ (-3/10 : ℚ)) := by
  refine ⟨by with_unfolding_all rfl, by with_unfolding_all rfl, ?_, by norm_num⟩
  rw [show get_style_config "nightmare" = nightmareCfg from rfl]
  norm_num [nightmareCfg]
/-- C9. Each transform deep-copies its input before mutating: in this
embedding every mutation builds a new document from the copy, so the
caller-state wrappers return the caller's binding unchanged next to the
result, whatever the outcome. Confirmed: each transform and resolver is a
pure function of the old document. -/
theorem transforms_preserve_caller (d : Doc) (e s : String) (now : ℕ) (ts : String)
    (gen : Except String String) :
    repair_dream_call d now = (repair_dream d now).map (fun r => (d, r)) ∧
    safe_patch_call d e now ts = (safe_patch d e now ts).map (fun r => (d, r)) ∧
    apply_style_call d s = (apply_style d s).map (fun r => (d, r)) ∧
    apply_patch_call gen d e now ts = (apply_patch gen d e now ts).map (fun r => (d, r)) ∧
    enrich_style_call gen d s = (enrich_style gen d s).map (fun r => (d, r)) := by
  refine ⟨?_, ?_, ?_, ?_, ?_⟩
  · cases h : repair_dream d now <;>
      simp [repair_dream_call, h, Bind.bind, Except.bind, Except.map]
  · cases h : safe_patch d e now ts <;>
      simp [safe_patch_call, h, Bind.bind, Except.bind, Except.map]
  · cases h : apply_style d s <;>
      simp [apply_style_call, h, Bind.bind, Except.bind, Except.map]
  · cases h : apply_patch gen d e now ts <;>
      simp [apply_patch_call, h, Bind.bind, Except.bind, Except.map]
  · cases h : enrich_style gen d s <;>
      simp [enrich_style_call, h, Bind.bind, Except.bind, Except.map]

/-- C10. apply_style looks the style name up lower-cased and falls back to
the ethereal configuration for unknown names, but then stores the caller's
string itself under "style"; the resolvers' deterministic fallback therefore
returns documents whose style need not be in the five-value enum. Confirmed:
for any well-typed document and any style name whose lower-casing is not an
enum style, apply_style uses etherealCfg yet returns style = the given
string, which fails the validator's enum test, and enrich_style's
exception fallback carries the same style value out. -/
theorem apply_style_nonenum_keeps_style (d : Doc) (s : String) (msg : String)
    (h : styleDocB d = true) (hs : ENUM_STYLES.contains (pyLower s) = false) :
    get_style_config s = etherealCfg ∧
    isEnumStyle (.str s) = false ∧
    (∃ p, apply_style d s = .ok p ∧
      lookupF p "style" = some (.str s) ∧
      entitiesOf p = (entitiesOf d).map (stylePure etherealCfg)) ∧
    (∃ q, enrich_style (.error msg) d s = .ok q ∧
      lookupF q "style" = some (.str s)) := by
  have hcfg := get_style_config_default s hs
  refine ⟨hcfg, isEnumStyle_of_lower_notin s hs, ?_, ?_⟩
  · refine ⟨apply_style_pure d s, apply_style_eq_pure d s h,
      lookupF_apply_style_pure_style d s, ?_⟩
    rw [entitiesOf_apply_style_pure, hcfg]
  · refine ⟨dset (apply_style_pure d s) "assumptions"
      (.arr (assumArr d ++ [.str ("Deterministic style mapping applied -> " ++ s),
        .str "fallback_on_exception"])), enrich_style_exception_path d s msg h, ?_⟩
    rw [lookupF_dset_ne _ _ _ _ (by decide), lookupF_apply_style_pure_style d s]

theorem apply_style_nonenum_keeps_style_witness :
    get_style_config "vaporwave" = etherealCfg ∧
    isEnumStyle (.str "vaporwave") = false ∧
    (∃ p, apply_style [("title", JVal.str "t")] "vaporwave" = .ok p ∧
      lookupF p "style" = some (.str "vaporwave") ∧
      entitiesOf p = (entitiesOf [("title", JVal.str "t")]).map (stylePure etherealCfg)) ∧
    (∃ q, enrich_style (.error "down") [("title", JVal.str "t")] "vaporwave" = .ok q ∧
      lookupF q "style" = some (.str "vaporwave")) :=
  apply_style_nonenum_keeps_style [("title", JVal.str "t")] "vaporwave" "down"
    (by decide) (by decide)
